import Mathlib

/-!
# droidian/kwin: the hwcomposer backend and the focus chain

A shallow embedding of `src/src/backends/hwcomposer/hwcomposer_backend.cpp`
(the HWC2-only backend), of the parts of the older
`src/plugins/platforms/hwcomposer/hwcomposer_backend.cpp` that the properties
below refer to, and of `src/src/focuschain.cpp`.

Stateful C++ is written in explicit state-passing style over a `World`:
the members of `HwcomposerBackend` and `HwcomposerWindow`, the process table
of open file descriptors, the input filter chain, and the trace of calls made to
the HAL, libc and the compositor.  What the HAL and the buffer answer during a
`present()` call is an input (`Frame`).

Layout: the definitions, lemmas on the descriptor table, the paths through
`present()`, then the properties, each named by its id (C1, C2, ...), with
their witnesses and counterexamples.
-/

namespace KWin

/-! ## External vocabulary (Android `hwcomposer2.h`) -/

/-- Codes of `hwc2_error_t`, in the order of Android's `hwcomposer2.h`. -/
inductive hwc2_error_t
  | HWC2_ERROR_NONE
  | HWC2_ERROR_BAD_CONFIG
  | HWC2_ERROR_BAD_DISPLAY
  | HWC2_ERROR_BAD_LAYER
  | HWC2_ERROR_BAD_PARAMETER
  | HWC2_ERROR_HAS_CHANGES
  | HWC2_ERROR_NO_RESOURCES
  | HWC2_ERROR_NOT_VALIDATED
  | HWC2_ERROR_UNSUPPORTED
  deriving DecidableEq, Repr

/-- Power modes passed to `hwc2_compat_display_set_power_mode`. -/
inductive hwc2_power_mode_t
  | HWC2_POWER_MODE_OFF
  | HWC2_POWER_MODE_ON
  deriving DecidableEq, Repr

/-- Power state of an output, `AbstractWaylandOutput::DpmsMode`.  The backend
acknowledges only `On` and `Off`; a request may name any of the four. -/
inductive DpmsMode
  | On
  | Standby
  | Suspend
  | Off
  deriving DecidableEq, Repr

open hwc2_error_t hwc2_power_mode_t

/-- One observable call made by the backend, in program order. -/
inductive Op
  /-- Libc `sync_wait(fd, -1)`. -/
  | sync_wait (fd : Int)
  /-- Libc `close(fd)`. -/
  | close (fd : Int)
  /-- Libc `dup(fd)`, with the descriptor it returned. -/
  | dup (fd : Int) (result : Int)
  | hwc2_compat_display_set_power_mode (mode : hwc2_power_mode_t)
  | hwc2_compat_display_validate
  | hwc2_compat_display_accept_changes
  /-- Call of `hwc2_compat_display_set_client_target(display, 0, buffer, acquireFenceFd, _)`. -/
  | hwc2_compat_display_set_client_target (buffer : Nat) (acquireFenceFd : Int)
  /-- Call of `hwc2_compat_display_present`, with the fence stored through `&presentFence`. -/
  | hwc2_compat_display_present (presentFence : Int)
  | HWCNativeBufferSetFence (buffer : Nat) (fd : Int)
  | hwc2_compat_display_set_vsync_enabled (enable : Bool)
  /-- HWC1 call `m_device->eventControl(m_device, 0, HWC_EVENT_VSYNC, enable)`. -/
  | eventControl (enable : Bool)
  /-- Lights HAL call `m_lights->set_light`, with `state.color` as an unsigned 32-bit value. -/
  | set_light (color : Nat)
  /-- Call of `m_output->setEnabled`. -/
  | setEnabled (enable : Bool)
  | addRepaintFull
  /-- Call of `input()->prependInputEventFilter` with the filter object created. -/
  | prependInputEventFilter (filter : Nat)
  /-- Signal `Q_EMIT outputBlankChanged()`. -/
  | outputBlankChanged
  | mutex_lock
  /-- Call of `m_vsyncWaitCondition.wait(&m_vsyncMutex, time)`; `time` is the
  value that the parameter `unsigned long time` of `QWaitCondition::wait`
  receives, in milliseconds. -/
  | condition_wait (time : Nat)
  | mutex_unlock
  /-- Call of `hwc2_compat_display_get_active_config(display)`; `display` tells
  whether the pointer passed is non-null. -/
  | hwc2_compat_display_get_active_config (display : Bool)
  /-- HWC1 call `m_device->setPowerMode(m_device, 0, mode)`; `off` is
  `HWC_POWER_MODE_OFF`, otherwise `HWC_POWER_MODE_NORMAL`. -/
  | setPowerMode (off : Bool)
  /-- HWC1 call `m_device->blank(m_device, 0, blank)`. -/
  | blank (blank : Bool)
  /-- Call of `setOutputsEnabled` of `Platform`. -/
  | setOutputsEnabled (enable : Bool)
  | eglTerminate
  /-- Signal `Q_EMIT dpmsModeRequested(mode)` of the output. -/
  | dpmsModeRequested (mode : DpmsMode)
  /-- Call of `m_compositingSemaphore.release()`. -/
  | semaphore_release
  /-- Call of `m_compositingSemaphore.acquire()` that returned. -/
  | semaphore_acquire
  /-- Call of `renderLoopPrivate->notifyFrameCompleted(..)`. -/
  | notifyFrameCompleted
  /-- Call of `QMetaObject::invokeMethod(this, "compositing", Qt::QueuedConnection,
  Q_ARG(int, flags))`. -/
  | invokeMethod_compositing (flags : Int)
  /-- Call of `m_vsyncWaitCondition.wakeAll()`. -/
  | condition_wakeAll
  /-- Call of `m_output->waylandOutput()->setDpmsMode(mode)` in the plugin. -/
  | waylandOutput_setDpmsMode (mode : DpmsMode)
  deriving DecidableEq, Repr

/-! ## The table of open file descriptors -/

/-- The process descriptor table.  An open descriptor is a number together
with the serial of the call that opened it, so that a number that is closed
and handed out again is told apart from its earlier use.  `closedLog` lists
the serials closed by `close`, `ebadf` counts the `close`/`dup` calls made on
a number that was not open. -/
structure FdTable where
  entries : List (Int × Nat) := []
  nextSerial : Nat := 0
  closedLog : List Nat := []
  ebadf : Nat := 0
  deriving DecidableEq, Repr

/-- Scan upwards from `n` for a number not in `used`, at most `fuel` steps. -/
def lowestFreeFrom (used : List Int) : Nat → Nat → Nat
  | 0, n => n
  | fuel + 1, n => if (n : Int) ∈ used then lowestFreeFrom used fuel (n + 1) else n

/-- The lowest non-negative number not in `used` (POSIX hands out the
lowest-numbered free descriptor). -/
def lowestFree (used : List Int) : Nat :=
  lowestFreeFrom used used.length 0

namespace FdTable

/-- Numbers of the open descriptors. -/
def numbers (t : FdTable) : List Int := t.entries.map Prod.fst

/-- Serials of the open descriptors. -/
def serials (t : FdTable) : List Nat := t.entries.map Prod.snd

/-- Whether `fd` is an open descriptor. -/
def isOpen (t : FdTable) (fd : Int) : Bool := decide (fd ∈ t.numbers)

/-- Serial of the open descriptor numbered `fd`. -/
def serialOf (t : FdTable) (fd : Int) : Option Nat :=
  (t.entries.find? (fun e => e.1 == fd)).map Prod.snd

/-- A new descriptor: the lowest free number, with a fresh serial. -/
def alloc (t : FdTable) : Int × FdTable :=
  let n : Int := (lowestFree t.numbers : Nat)
  (n, { t with entries := (n, t.nextSerial) :: t.entries, nextSerial := t.nextSerial + 1 })

/-- Libc `close(fd)`: closes the descriptor, or fails with EBADF. -/
def close (t : FdTable) (fd : Int) : FdTable :=
  match t.serialOf fd with
  | some s => { t with entries := t.entries.filter (fun e => e.1 != fd),
                       closedLog := t.closedLog ++ [s] }
  | none => { t with ebadf := t.ebadf + 1 }

/-- Libc `dup(fd)`: a new descriptor for the same file, or -1 with EBADF. -/
def dup (t : FdTable) (fd : Int) : Int × FdTable :=
  if t.isOpen fd then t.alloc else (-1, { t with ebadf := t.ebadf + 1 })

end FdTable

/-! ## State of the backend (`hwcomposer_backend.h`) -/

/-- An object in the filter chain of `input()`: a `BacklightInputEventFilter`
created by the backend (numbered in order of creation) or a filter installed
by another part of the compositor. -/
inductive InputEventFilter
  | backlight (n : Nat)
  | other (n : Nat)
  deriving DecidableEq, Repr

/-- Qt's `QSize`: a width and a height (`int`). -/
structure QSize where
  width : Int := -1
  height : Int := -1
  deriving DecidableEq, Repr

/-- Qt's `QSize::isEmpty()`: either side is less than 1. -/
def QSize.isEmpty (s : QSize) : Bool := decide (s.width < 1) || decide (s.height < 1)

/-- The flag set `AbstractWaylandOutput::ModeFlags` (`ModeFlag::Current`,
`ModeFlag::Preferred`). -/
structure ModeFlags where
  Current : Bool := false
  Preferred : Bool := false
  deriving DecidableEq, Repr

/-- A display mode, `AbstractWaylandOutput::Mode`. -/
structure Mode where
  size : QSize := {}
  /-- Refresh rate in mHz, an `int`. -/
  refreshRate : Int := 0
  flags : ModeFlags := {}
  id : Int := 0
  deriving DecidableEq, Repr

/-- The members of `HwcomposerOutput` that the backend reads and writes, with
the mode list, current mode size and refresh rate kept by its base class
`AbstractWaylandOutput` (whose values before `initialize` is called are those
of KWin's `abstract_wayland_output.h`: no mode, an invalid size, -1). -/
structure HwcomposerOutput where
  m_isEnabled : Bool := true
  /-- Mode last set through `setDpmsModeInternal`. -/
  dpmsMode : DpmsMode := DpmsMode.On
  /-- The modes registered with the base class. -/
  m_modes : List Mode := []
  /-- What `modeSize()` returns. -/
  m_modeSize : QSize := {}
  /-- What `refreshRate()` returns. -/
  m_refreshRate : Int := -1
  deriving DecidableEq, Repr

/-- The members of `HwcomposerBackend` (pointers are kept as "is it set"). -/
structure HwcomposerBackend where
  /-- Whether `m_lights != nullptr`. -/
  m_lights : Bool := false
  m_vsyncInterval : Int := 16
  m_hasVsync : Bool := false
  /-- The filter object held by `m_filter`, if any. -/
  m_filter : Option Nat := none
  m_output : Option HwcomposerOutput := none
  m_outputBlank : Bool := true
  m_oldScreenBrightness : Int := 0x7f
  /-- Whether `m_hwc2device != nullptr`. -/
  m_hwc2device : Bool := false
  /-- Whether `initialize()` has connected `updateDpms` to `outputBlankChanged`
  and, in the same block, its second lambda to `dpmsModeRequested`. -/
  updateDpmsConnected : Bool := false
  /-- Whether `m_hwc2_primary_display != nullptr`. -/
  m_hwc2_primary_display : Bool := false
  /-- What `m_compositingSemaphore.available()` returns (a `QSemaphore` is
  created with no resource). -/
  m_compositingSemaphore : Nat := 0
  deriving DecidableEq, Repr

/-- The members of `HwcomposerWindow`. -/
structure HwcomposerWindow where
  lastPresentFence : Int := -1
  deriving DecidableEq, Repr

/-- Everything a call can read or change. -/
structure World where
  backend : HwcomposerBackend := {}
  window : HwcomposerWindow := {}
  fds : FdTable := {}
  /-- The filter chain of `input()`, front first. -/
  inputFilters : List InputEventFilter := []
  /-- Number of filter objects created so far (names the next one). -/
  filtersCreated : Nat := 0
  /-- Whether `Compositor::self()` is non-null. -/
  compositor : Bool := false
  /-- Calls made so far, oldest first. -/
  trace : List Op := []
  deriving DecidableEq, Repr

namespace World

/-- Append one call to the trace. -/
def emit (w : World) (op : Op) : World := { w with trace := w.trace ++ [op] }

/-- Libc `sync_wait(fd, -1)`: returns once the fence has signalled. -/
def sync_wait (w : World) (fd : Int) : World := w.emit (Op.sync_wait fd)

/-- Libc `close(fd)` on the descriptor table. -/
def close (w : World) (fd : Int) : World :=
  { w with fds := w.fds.close fd, trace := w.trace ++ [Op.close fd] }

/-- Libc `dup(fd)` on the descriptor table. -/
def dup (w : World) (fd : Int) : Int × World :=
  let r := w.fds.dup fd
  (r.1, { w with fds := r.2, trace := w.trace ++ [Op.dup fd r.1] })

end World

/-- What the buffer and the HAL answer during one `present(buffer)` call. -/
structure Frame where
  /-- The buffer presented. -/
  buffer : Nat := 0
  /-- Result of `HWCNativeBufferGetFence(buffer)`. -/
  acquireFenceFd : Int := -1
  /-- Return value of `hwc2_compat_display_validate`. -/
  validateError : hwc2_error_t := HWC2_ERROR_NONE
  /-- Value stored through `&numTypes` (a `uint32_t`). -/
  numTypes : Nat := 0
  /-- Value stored through `&numRequests` (a `uint32_t`). -/
  numRequests : Nat := 0
  /-- Return value of `hwc2_compat_display_accept_changes`. -/
  acceptError : hwc2_error_t := HWC2_ERROR_NONE
  /-- Whether `hwc2_compat_display_present` stores a newly created fence
  descriptor through `&presentFence` (otherwise it leaves the -1). -/
  presentFence : Bool := true
  deriving DecidableEq, Repr

/-- The 32-bit unsigned value of a C `int` expression (two's complement). -/
def toU32 (x : Int) : Nat := (x % 4294967296).toNat

/-- A C `int` converted to `unsigned long`, which has 64 bits on the LP64
platforms the backend is built for: the value modulo 2^64. -/
def toULong (x : Int) : Nat := (x % 18446744073709551616).toNat

namespace HwcomposerBackend

/-- Source: `HwcomposerBackend::toggleScreenBrightness` (src/src/backends). -/
def toggleScreenBrightness (w : World) : World :=
  if !w.backend.m_lights then w
  else
    let brightness : Int := if w.backend.m_outputBlank then 0 else w.backend.m_oldScreenBrightness
    let color : Nat :=
      0xff000000 ||| toU32 (brightness * 65536) ||| toU32 (brightness * 256) ||| toU32 brightness
    w.emit (Op.set_light color)

/-- Source: `HwcomposerBackend::enableVSync` (src/src/backends). -/
def enableVSync (w : World) (enable : Bool) : World :=
  if w.backend.m_hasVsync == enable then w
  else
    let w := w.emit (Op.hwc2_compat_display_set_vsync_enabled enable)
    { w with backend := { w.backend with m_hasVsync := enable } }

/-- Source: the lambda `updateDpms` connected to `outputBlankChanged` in
`HwcomposerBackend::initialize` (src/src/backends). -/
def updateDpms (w : World) : World :=
  match w.backend.m_output with
  | some o =>
    { w with backend := { w.backend with
        m_output := some { o with
          dpmsMode := if w.backend.m_outputBlank then DpmsMode.Off else DpmsMode.On } } }
  | none => w

/-- Signal emission `Q_EMIT outputBlankChanged()`: the connected slot runs at once. -/
def emitOutputBlankChanged (w : World) : World :=
  let w := w.emit Op.outputBlankChanged
  if w.backend.updateDpmsConnected then updateDpms w else w

/-- Call `m_filter.reset(other)` of `QScopedPointer`: the pointer is replaced
and the object held before is deleted; the destructor of an input event filter
takes it out of the filter chain of `input()`. -/
def resetFilter (w : World) (other : Option Nat) : World :=
  let old := w.backend.m_filter
  let w := { w with backend := { w.backend with m_filter := other } }
  match old with
  | some f => { w with inputFilters := w.inputFilters.filter (fun x => x != InputEventFilter.backlight f) }
  | none => w

/-- Source: `HwcomposerBackend::toggleBlankOutput` (src/src/backends). -/
def toggleBlankOutput (w : World) : World :=
  if !w.backend.m_hwc2device then w
  else
    let w := { w with backend := { w.backend with m_outputBlank := !w.backend.m_outputBlank } }
    let w := toggleScreenBrightness w
    let w := enableVSync w (!w.backend.m_outputBlank)
    let w := w.emit (Op.hwc2_compat_display_set_power_mode
      (if w.backend.m_outputBlank then HWC2_POWER_MODE_OFF else HWC2_POWER_MODE_ON))
    let w :=
      match w.backend.m_output with
      | some o =>
        ({ w with backend := { w.backend with
            m_output := some { o with m_isEnabled := !w.backend.m_outputBlank } } }).emit
          (Op.setEnabled (!w.backend.m_outputBlank))
      | none => w
    let w :=
      if w.compositor then
        if !w.backend.m_outputBlank then w.emit Op.addRepaintFull else w
      else w
    let w :=
      if w.backend.m_outputBlank then
        let n := w.filtersCreated
        let w := resetFilter { w with filtersCreated := n + 1 } (some n)
        ({ w with inputFilters := InputEventFilter.backlight n :: w.inputFilters }).emit
          (Op.prependInputEventFilter n)
      else resetFilter w none
    emitOutputBlankChanged w

/-- Source: `HwcomposerBackend::waitVSync` (src/src/backends).  The `int`
`m_vsyncInterval` is passed to `QWaitCondition::wait(QMutex *, unsigned long)`
and so converted to `unsigned long`. -/
def waitVSync (w : World) : World :=
  if !w.backend.m_hasVsync then w
  else
    let w := w.emit Op.mutex_lock
    let w := w.emit (Op.condition_wait (toULong w.backend.m_vsyncInterval))
    w.emit Op.mutex_unlock

end HwcomposerBackend

namespace HwcomposerWindow

/-- The HAL call `hwc2_compat_display_present(display, &presentFence)`: when the
HAL produces a fence it is a newly created descriptor of this process. -/
def hwc2_compat_display_present (w : World) (fence : Bool) : Int × World :=
  if fence then
    let r := w.fds.alloc
    (r.1, { w with fds := r.2, trace := w.trace ++ [Op.hwc2_compat_display_present r.1] })
  else
    (-1, w.emit (Op.hwc2_compat_display_present (-1)))

/-- Source: `HwcomposerWindow::present` (src/src/backends). -/
def present (w : World) (f : Frame) : World :=
  let acquireFenceFd : Int := f.acquireFenceFd
  let syncBeforeSet : Bool := true
  let wa : World × Int :=
    if syncBeforeSet && decide (0 ≤ acquireFenceFd) then
      ((w.sync_wait acquireFenceFd).close acquireFenceFd, -1)
    else (w, acquireFenceFd)
  let w := wa.1
  let acquireFenceFd := wa.2
  let w := w.emit (Op.hwc2_compat_display_set_power_mode HWC2_POWER_MODE_ON)
  let w := w.emit Op.hwc2_compat_display_validate
  if f.validateError ≠ HWC2_ERROR_NONE ∧ f.validateError ≠ HWC2_ERROR_HAS_CHANGES then w
  else if f.numTypes ≠ 0 ∨ f.numRequests ≠ 0 then w
  else
    let w := w.emit Op.hwc2_compat_display_accept_changes
    if f.acceptError ≠ HWC2_ERROR_NONE then w
    else
      let w := w.emit (Op.hwc2_compat_display_set_client_target f.buffer acquireFenceFd)
      let pw := hwc2_compat_display_present w f.presentFence
      let presentFence := pw.1
      let w := pw.2
      let w :=
        if w.window.lastPresentFence ≠ -1 then
          (w.sync_wait w.window.lastPresentFence).close w.window.lastPresentFence
        else w
      let dw : Int × World := if presentFence ≠ -1 then w.dup presentFence else (-1, w)
      let w := { dw.2 with window := { dw.2.window with lastPresentFence := dw.1 } }
      w.emit (Op.HWCNativeBufferSetFence f.buffer presentFence)

/-- Source: `HwcomposerWindow::~HwcomposerWindow` (src/src/backends). -/
def destroy (w : World) : World :=
  if w.window.lastPresentFence ≠ -1 then w.close w.window.lastPresentFence else w

/-- Consecutive `present()` calls, one per frame. -/
def presentAll (w : World) : List Frame → World
  | [] => w
  | f :: fs => presentAll (present w f) fs

end HwcomposerWindow

/-! ## The older plugin (`src/plugins/platforms/hwcomposer`) -/

namespace Plugin

/-- The members of the plugin's `HwcomposerBackend` and the calls it made. -/
structure HwcomposerBackend where
  /-- Whether `m_device != nullptr`. -/
  m_device : Bool := false
  m_lights : Bool := false
  m_outputBlank : Bool := true
  m_vsyncInterval : Int := 16
  /-- Whether `m_hwcVersion == HWC_DEVICE_API_VERSION_2_0` (never, when the
  macro is not defined at build time). -/
  hwc2 : Bool := false
  m_oldScreenBrightness : Int := 0x7f
  m_hasVsync : Bool := false
  m_hwc2device : Bool := false
  trace : List Op := []
  deriving DecidableEq, Repr

/-- Source: `HwcomposerBackend::enableVSync` (src/plugins); `eventControlResult`
is what `m_device->eventControl` returns if it is called. -/
def HwcomposerBackend.enableVSync (b : HwcomposerBackend) (enable : Bool)
    (eventControlResult : Int) : HwcomposerBackend :=
  if b.m_hasVsync == enable then b
  else
    let result : Int := 0
    let br : HwcomposerBackend × Int :=
      if b.hwc2 then
        ({ b with trace := b.trace ++ [Op.hwc2_compat_display_set_vsync_enabled enable] }, result)
      else
        ({ b with trace := b.trace ++ [Op.eventControl enable] }, eventControlResult)
    { br.1 with m_hasVsync := enable && decide (br.2 = 0) }

end Plugin

/-! ## Well-formed inputs and reading traces -/

/-- The HAL answers with which `present()` runs to its end: validate returns
`HWC2_ERROR_NONE` or `HWC2_ERROR_HAS_CHANGES` and asks for no change, and
acceptChanges returns `HWC2_ERROR_NONE`. -/
def Frame.accepted (f : Frame) : Prop :=
  (f.validateError = HWC2_ERROR_NONE ∨ f.validateError = HWC2_ERROR_HAS_CHANGES) ∧
  f.numTypes = 0 ∧ f.numRequests = 0 ∧ f.acceptError = HWC2_ERROR_NONE

instance (f : Frame) : Decidable f.accepted := by
  unfold Frame.accepted
  infer_instance

/-- A consistent descriptor table: no number is open twice, serials are
unique and below `nextSerial`, and a closed serial is no longer open. -/
def FdTable.WF (t : FdTable) : Prop :=
  t.numbers.Nodup ∧ t.serials.Nodup ∧ t.closedLog.Nodup ∧
  (∀ s ∈ t.serials, s < t.nextSerial) ∧ (∀ s ∈ t.closedLog, s < t.nextSerial) ∧
  (∀ s ∈ t.closedLog, s ∉ t.serials)

instance (t : FdTable) : Decidable t.WF := by
  unfold FdTable.WF
  infer_instance

/-- The surface owns its fence: the table is consistent and `lastPresentFence`
is -1 or an open descriptor. -/
def World.fencesOwned (w : World) : Prop :=
  w.fds.WF ∧ (w.window.lastPresentFence = -1 ∨ w.fds.isOpen w.window.lastPresentFence = true)

instance (w : World) : Decidable w.fencesOwned := by
  unfold World.fencesOwned
  infer_instance

/-- The buffer owns its fence: the acquire fence of the frame is negative (no
fence) or an open descriptor other than the one the surface holds. -/
def acquireOwned (w : World) (f : Frame) : Prop :=
  f.acquireFenceFd < 0 ∨
    (w.fds.isOpen f.acquireFenceFd = true ∧ f.acquireFenceFd ≠ w.window.lastPresentFence)

instance (w : World) (f : Frame) : Decidable (acquireOwned w f) := by
  unfold acquireOwned
  infer_instance

/-- Every frame of a run of `present()` calls hands in a fence its buffer owns. -/
def acquireOwnedAll : World → List Frame → Prop
  | _, [] => True
  | w, f :: fs => acquireOwned w f ∧ acquireOwnedAll (HwcomposerWindow.present w f) fs

instance acquireOwnedAll.decide : (w : World) → (fs : List Frame) → Decidable (acquireOwnedAll w fs)
  | _, [] => isTrue trivial
  | w, f :: fs =>
    have := acquireOwnedAll.decide (HwcomposerWindow.present w f) fs
    inferInstanceAs (Decidable (acquireOwned w f ∧ acquireOwnedAll (HwcomposerWindow.present w f) fs))

/-- A world used to run the model: descriptors 0, 1, 2 and a buffer fence 7 are
open, the display is unblanked with vsync running, the surface holds no fence. -/
def exampleWorld : World :=
  { backend := { m_hwc2device := true, m_lights := true, m_outputBlank := false, m_hasVsync := true,
                 m_output := some {} },
    compositor := true,
    fds := { entries := [(0, 0), (1, 1), (2, 2), (7, 3)], nextSerial := 4 } }

/-- A step of the backend state machine. -/
inductive Step
  | toggleBlankOutput
  | present (f : Frame)
  deriving DecidableEq, Repr

/-- Run one step. -/
def Step.apply (w : World) : Step → World
  | Step.toggleBlankOutput => HwcomposerBackend.toggleBlankOutput w
  | Step.present f => HwcomposerWindow.present w f

/-- Run a sequence of steps, first to last. -/
def run (w : World) (steps : List Step) : World := steps.foldl Step.apply w

/-- The fences stored by the HAL present calls of a trace, in order. -/
def presentFences (tr : List Op) : List Int :=
  tr.filterMap (fun op =>
    match op with
    | Op.hwc2_compat_display_present p => some p
    | _ => none)

/-- The `dup` calls of a trace, each with the descriptor it returned, in order. -/
def dupCalls (tr : List Op) : List (Int × Int) :=
  tr.filterMap (fun op =>
    match op with
    | Op.dup fd result => some (fd, result)
    | _ => none)

/-- The calls made between world `w` and the later world `w'`. -/
def callsSince (w w' : World) : List Op := w'.trace.drop w.trace.length

/-- Number of HAL set-vsync calls in a trace (HWC2 call or HWC1 `eventControl`). -/
def vsyncCalls (tr : List Op) : Nat :=
  tr.countP (fun op =>
    match op with
    | Op.hwc2_compat_display_set_vsync_enabled _ => true
    | Op.eventControl _ => true
    | _ => false)

/-! ## The backlight input filter -/

/-- The members of `BacklightInputEventFilter`.  `m_doubleTapTimer` is the
`QElapsedTimer`: the reading of the clock (in ms) at which it was started, or
`none` while it is invalid.  `toggleRequests` counts the queued invocations of
`toggleBlankOutput` posted by `toggleBacklight()`. -/
structure BacklightInputEventFilter where
  m_doubleTapTimer : Option Int := none
  m_touchPoints : List Int := []
  m_secondTap : Bool := false
  toggleRequests : Nat := 0
  deriving DecidableEq, Repr

/-- What a handler reads of a `QKeyEvent`: `key()` and `type()`. -/
structure QKeyEvent where
  key : Nat
  type : Nat
  deriving DecidableEq, Repr

/-- Qt's `Qt::Key_PowerOff`. -/
def Key_PowerOff : Nat := 0x010000b7

/-- Qt's `QEvent::KeyPress`. -/
def KeyPress : Nat := 6

/-- Qt's `QEvent::KeyRelease`. -/
def KeyRelease : Nat := 7

namespace BacklightInputEventFilter

/-- Source: `BacklightInputEventFilter::toggleBacklight`: one queued invocation
of `toggleBlankOutput`. -/
def toggleBacklight (s : BacklightInputEventFilter) : BacklightInputEventFilter :=
  { s with toggleRequests := s.toggleRequests + 1 }

/-- Source: `BacklightInputEventFilter::pointerEvent`; `backlightOff` is what
`m_backend->isBacklightOff()` returns. -/
def pointerEvent (s : BacklightInputEventFilter) (backlightOff : Bool) :
    Bool × BacklightInputEventFilter :=
  if !backlightOff then (false, s)
  else (true, s.toggleBacklight)

/-- Source: `BacklightInputEventFilter::wheelEvent`. -/
def wheelEvent (s : BacklightInputEventFilter) (backlightOff : Bool) :
    Bool × BacklightInputEventFilter :=
  if !backlightOff then (false, s)
  else (true, s.toggleBacklight)

/-- Source: `BacklightInputEventFilter::keyEvent` (src/src/backends). -/
def keyEvent (s : BacklightInputEventFilter) (event : QKeyEvent) :
    Bool × BacklightInputEventFilter :=
  let s := if event.key == Key_PowerOff && event.type == KeyRelease then s.toggleBacklight else s
  (true, s)

/-- Source: `BacklightInputEventFilter::keyEvent` (src/plugins). -/
def keyEventPlugin (s : BacklightInputEventFilter) (backlightOff : Bool) (event : QKeyEvent) :
    Bool × BacklightInputEventFilter :=
  if event.key == Key_PowerOff && event.type == KeyRelease then (true, s.toggleBacklight)
  else (backlightOff, s)

/-- The value of `m_doubleTapTimer.elapsed()` when the clock reads `now`. -/
def elapsed (s : BacklightInputEventFilter) (now : Int) : Int :=
  match s.m_doubleTapTimer with
  | some start => now - start
  | none => 0

/-- Source: `BacklightInputEventFilter::touchDown`; `doubleClickInterval` is
`qApp->doubleClickInterval()` and `now` the reading of the clock. -/
def touchDown (s : BacklightInputEventFilter) (backlightOff : Bool) (doubleClickInterval now : Int)
    (id : Int) : Bool × BacklightInputEventFilter :=
  if !backlightOff then (false, s)
  else
    let s :=
      if s.m_touchPoints.isEmpty then
        if !s.m_doubleTapTimer.isSome then
          { s with m_doubleTapTimer := some now }
        else if s.elapsed now < doubleClickInterval then
          { s with m_secondTap := true }
        else
          { s with m_doubleTapTimer := some now }
      else
        { s with m_doubleTapTimer := none, m_secondTap := false }
    (true, { s with m_touchPoints := s.m_touchPoints ++ [id] })

/-- Source: `BacklightInputEventFilter::touchUp`. -/
def touchUp (s : BacklightInputEventFilter) (backlightOff : Bool) (doubleClickInterval now : Int)
    (id : Int) : Bool × BacklightInputEventFilter :=
  let s := { s with m_touchPoints := s.m_touchPoints.filter (fun x => x != id) }
  if !backlightOff then (false, s)
  else
    let s :=
      if s.m_touchPoints.isEmpty && s.m_doubleTapTimer.isSome && s.m_secondTap then
        let s := if s.elapsed now < doubleClickInterval then s.toggleBacklight else s
        { s with m_doubleTapTimer := none, m_secondTap := false }
      else s
    (true, s)

/-- Source: `BacklightInputEventFilter::touchMotion`. -/
def touchMotion (s : BacklightInputEventFilter) (backlightOff : Bool) :
    Bool × BacklightInputEventFilter :=
  (backlightOff, s)

end BacklightInputEventFilter

/-- An input event offered to the filter of src/src/backends. -/
inductive InputEvent
  | pointerEvent
  | wheelEvent
  | keyEvent (event : QKeyEvent)
  | touchDown (id : Int)
  | touchMotion (id : Int)
  | touchUp (id : Int)
  deriving DecidableEq, Repr

namespace BacklightInputEventFilter

/-- Offer one event to the handler of its kind, the clock reading `now`;
the result is what the handler returns and the filter afterwards. -/
def handle (s : BacklightInputEventFilter) (backlightOff : Bool) (doubleClickInterval now : Int) :
    InputEvent → Bool × BacklightInputEventFilter
  | InputEvent.pointerEvent => s.pointerEvent backlightOff
  | InputEvent.wheelEvent => s.wheelEvent backlightOff
  | InputEvent.keyEvent event => s.keyEvent event
  | InputEvent.touchDown id => s.touchDown backlightOff doubleClickInterval now id
  | InputEvent.touchMotion _ => s.touchMotion backlightOff
  | InputEvent.touchUp id => s.touchUp backlightOff doubleClickInterval now id

/-- Offer a sequence of events, each with the clock reading at its delivery,
while the blank state of the backend stays as it is (a requested toggle is
queued, not run); the results of the handlers in order and the filter
afterwards. -/
def handleAll (s : BacklightInputEventFilter) (backlightOff : Bool) (doubleClickInterval : Int) :
    List (Int × InputEvent) → List Bool × BacklightInputEventFilter
  | [] => ([], s)
  | (now, e) :: rest =>
    let r := s.handle backlightOff doubleClickInterval now e
    let rs := handleAll r.2 backlightOff doubleClickInterval rest
    (r.1 :: rs.1, rs.2)

end BacklightInputEventFilter

/-! ## Blanking in the plugin and tearing the backend down -/

namespace Plugin

/-- What the plugin's `toggleBlankOutput` reads besides the members of the
backend. -/
structure Env where
  /-- Whether `m_hwcVersion > HWC_DEVICE_API_VERSION_1_3` in a build that has
  the `setPowerMode` entry (HWC 1.4 or 1.5 headers). -/
  hasSetPowerMode : Bool := false
  /-- Whether `Compositor::self()` is non-null. -/
  compositor : Bool := false
  /-- What `m_device->eventControl` returns if it is called. -/
  eventControlResult : Int := 0
  deriving DecidableEq, Repr

namespace HwcomposerBackend

/-- Source: `HwcomposerBackend::toggleScreenBrightness` (src/plugins). -/
def toggleScreenBrightness (b : HwcomposerBackend) : HwcomposerBackend :=
  if !b.m_lights then b
  else
    let brightness : Int := if b.m_outputBlank then 0 else b.m_oldScreenBrightness
    let color : Nat :=
      0xff000000 ||| toU32 (brightness * 65536) ||| toU32 (brightness * 256) ||| toU32 brightness
    { b with trace := b.trace ++ [Op.set_light color] }

/-- The common tail of both toggles: outputs, repaint and the signal
`outputBlankChanged` (the slot connected to it is not part of this model). -/
def afterPowerMode (b : HwcomposerBackend) (env : Env) : HwcomposerBackend :=
  let b := { b with trace := b.trace ++ [Op.setOutputsEnabled (!b.m_outputBlank)] }
  let b :=
    if env.compositor then
      if !b.m_outputBlank then { b with trace := b.trace ++ [Op.addRepaintFull] } else b
    else b
  { b with trace := b.trace ++ [Op.outputBlankChanged] }

/-- Source: `HwcomposerBackend::hwc2_toggleBlankOutput` (src/plugins). -/
def hwc2_toggleBlankOutput (b : HwcomposerBackend) (env : Env) : HwcomposerBackend :=
  if !b.m_hwc2device then b
  else
    let b := { b with m_outputBlank := !b.m_outputBlank }
    let b := toggleScreenBrightness b
    let b := if b.m_outputBlank then b.enableVSync false env.eventControlResult else b
    let b := { b with trace := b.trace ++ [Op.hwc2_compat_display_set_power_mode
      (if b.m_outputBlank then hwc2_power_mode_t.HWC2_POWER_MODE_OFF
        else hwc2_power_mode_t.HWC2_POWER_MODE_ON)] }
    afterPowerMode b env

/-- Source: `HwcomposerBackend::toggleBlankOutput` (src/plugins). -/
def toggleBlankOutput (b : HwcomposerBackend) (env : Env) : HwcomposerBackend :=
  if b.hwc2 then hwc2_toggleBlankOutput b env
  else if !b.m_device then b
  else
    let b := { b with m_outputBlank := !b.m_outputBlank }
    let b := toggleScreenBrightness b
    let b :=
      if env.hasSetPowerMode then { b with trace := b.trace ++ [Op.setPowerMode b.m_outputBlank] }
      else { b with trace := b.trace ++ [Op.blank b.m_outputBlank] }
    let b := if b.m_outputBlank then b.enableVSync false env.eventControlResult else b
    afterPowerMode b env

/-- Source: `HwcomposerBackend::~HwcomposerBackend` (src/plugins). -/
def destructor (b : HwcomposerBackend) (env : Env) : HwcomposerBackend :=
  if !b.m_outputBlank then toggleBlankOutput b env else b

end HwcomposerBackend

end Plugin

/-- Source: `HwcomposerBackend::~HwcomposerBackend` (src/src/backends);
`eglDisplay` tells whether `sceneEglDisplay() != EGL_NO_DISPLAY`. -/
def HwcomposerBackend.destructor (w : World) (eglDisplay : Bool) : World :=
  if eglDisplay then w.emit Op.eglTerminate else w

/-- The power state last requested from the display HAL in a trace, if any:
`true` for on (HWC2 power mode On, HWC1 power mode Normal or `blank(0)`),
`false` for off. -/
def lastPowerOn (tr : List Op) : Option Bool :=
  (tr.filterMap (fun op =>
    match op with
    | Op.hwc2_compat_display_set_power_mode m =>
      some (decide (m = hwc2_power_mode_t.HWC2_POWER_MODE_ON))
    | Op.setPowerMode off => some (!off)
    | Op.blank blank => some (!blank)
    | _ => none)).getLast?

/-! ## Constructing the output and initialising the backend -/

/-- The active display configuration as the constructor stores it into
`attr_values[0..4]` (each an `int32_t`): width, height, dpiX, dpiY and vsync
period in nanoseconds. -/
structure HWC2DisplayConfig where
  width : Int
  height : Int
  dpiX : Int := 0
  dpiY : Int := 0
  vsyncPeriod : Int := 0
  deriving DecidableEq, Repr

/-- What the constructor of `HwcomposerOutput` reads from outside: the active
configuration and the environment variables `KWIN_DEBUG_WIDTH` and
`KWIN_DEBUG_HEIGHT` (`none` when empty or unset, otherwise the value of
`toInt()`). -/
structure OutputEnv where
  config : HWC2DisplayConfig
  debugWidth : Option Int := none
  debugHeight : Option Int := none
  deriving DecidableEq, Repr

/-- Round the quotient `n / d` to the nearest integer, ties to the even one. -/
def roundHalfEven (n d : Nat) : Nat :=
  let q := n / d
  let r := n % d
  if 2 * r < d then q
  else if d < 2 * r then q + 1
  else if q % 2 = 0 then q
  else q + 1

/-- Search upwards from `k` for the first shift with `2^52 <= (a / b) * 2^k`,
at most `fuel` steps. -/
def binadeShift (a b : Nat) : Nat → Nat → Nat
  | 0, k => k
  | fuel + 1, k => if 2 ^ 52 * b ≤ a * 2 ^ k then k else binadeShift a b fuel (k + 1)

/-- The C++ `double` quotient `double(a) / double(b)` of two positive integers
with `a / b < 2^53`, as IEEE 754 binary64 computes it: the exact quotient
rounded to 53 significant bits, ties to even.  The result `(m, k)` stands for
the value `m / 2^k`. -/
def binary64Div (a b : Nat) : Nat × Nat :=
  let k := binadeShift a b 128 0
  (roundHalfEven (a * 2 ^ k) b, k)

/-- Conversion of the `double` of magnitude `m / 2^k` to `int`: the fraction is
cut off; a value outside the range of `int` has no defined result in C++ and is
taken to saturate, as the conversion does on AArch64. -/
def doubleToInt (negative : Bool) (m k : Nat) : Int :=
  let t : Int := ((m / 2 ^ k : Nat) : Int)
  let v : Int := if negative then -t else t
  if 2147483647 < v then 2147483647
  else if v < -2147483648 then -2147483648
  else v

/-- The expression `(attr_values[4] == 0) ? 60000 : 10E11 / attr_values[4]`
assigned to the `int` `mode.refreshRate`. -/
def refreshRateOf (vsyncPeriod : Int) : Int :=
  if vsyncPeriod == 0 then 60000
  else
    let q := binary64Div 1000000000000 vsyncPeriod.natAbs
    doubleToInt (decide (vsyncPeriod < 0)) q.1 q.2

namespace HwcomposerOutput

/-- Modelled from the spec: `AbstractWaylandOutput::initialize`, the base class
call that registers the mode list ("register one mode with the
output-abstraction collaborator"); the mode flagged Current gives the size and
refresh rate the output reports. -/
def initialise (o : HwcomposerOutput) (modes : List Mode) : HwcomposerOutput :=
  match modes.find? (fun m => m.flags.Current) with
  | some m => { o with m_modes := modes, m_modeSize := m.size, m_refreshRate := m.refreshRate }
  | none => { o with m_modes := modes }

/-- Modelled from the spec: `AbstractWaylandOutput::setCurrentModeInternal`,
the base class call that sets the size and refresh rate the output reports
("report pixel size and refresh rate"). -/
def setCurrentModeInternal (o : HwcomposerOutput) (size : QSize) (refreshRate : Int) :
    HwcomposerOutput :=
  { o with m_modeSize := size, m_refreshRate := refreshRate }

/-- Source: `HwcomposerOutput::HwcomposerOutput` (src/src/backends).  The
physical size and the scale, computed in floating point from the DPI values,
are left out: no property below reads them. -/
def construct (env : OutputEnv) : HwcomposerOutput :=
  let attr0 : Int := env.config.width
  let attr1 : Int := env.config.height
  let attr4 : Int := if attr0 == 2072 then 20000000 else env.config.vsyncPeriod
  let attr0 : Int :=
    match env.debugWidth with
    | some v => v
    | none => attr0
  let attr1 : Int :=
    match env.debugHeight with
    | some v => v
    | none => attr1
  let pixelSize : QSize := { width := attr0, height := attr1 }
  if pixelSize.isEmpty then {}
  else
    let mode : Mode :=
      { id := 0, size := { width := attr0, height := attr1 },
        flags := { Current := true, Preferred := true },
        refreshRate := refreshRateOf attr4 }
    let modes : List Mode := [mode]
    let o : HwcomposerOutput := initialise {} modes
    setCurrentModeInternal o pixelSize (modes.headD mode).refreshRate

/-- Source: `HwcomposerOutput::isEnabled`. -/
def isEnabled (o : HwcomposerOutput) : Bool := o.m_isEnabled

/-- Source: `HwcomposerOutput::isValid`. -/
def isValid (o : HwcomposerOutput) : Bool := o.isEnabled

/-- The base class getter `refreshRate()`. -/
def refreshRate (o : HwcomposerOutput) : Int := o.m_refreshRate

/-- The base class getter `modeSize()`. -/
def modeSize (o : HwcomposerOutput) : QSize := o.m_modeSize

end HwcomposerOutput

/-- What the hotplug loop did: whether a display was found, how many times
`hwc2_compat_device_get_display_by_id` was called, and how many times
`usleep(1000)`. -/
structure HotplugResult where
  found : Bool
  polls : Nat
  sleeps : Nat
  deriving DecidableEq, Repr

/-- The loop `for (int i = 0; i < 5 * 1000; ++i)` of `initialize()`, with `n`
iterations left after `i` were made; `poll i` tells whether poll number `i`
returns a display. -/
def hotplugLoop (poll : Nat → Bool) : Nat → Nat → HotplugResult
  | 0, i => { found := false, polls := i, sleeps := i }
  | n + 1, i =>
    if poll i then { found := true, polls := i + 1, sleeps := i }
    else hotplugLoop poll n (i + 1)

/-- What `initialize()` gets from the HAL and the environment. -/
structure HalEnv where
  /-- Whether `hw_get_module(HWC_HARDWARE_MODULE_ID, ..)` returns 0. -/
  hwcModule : Bool := true
  /-- Whether `hwc2_compat_device_new` returns a device. -/
  hwc2device : Bool := true
  /-- Whether poll number `i` of `hwc2_compat_device_get_display_by_id` returns
  a display. -/
  poll : Nat → Bool
  /-- Whether `hw_get_module(LIGHTS_HARDWARE_MODULE_ID, ..)` returns 0. -/
  lightsModule : Bool := false
  /-- Whether opening the backlight device returns 0. -/
  lightsDevice : Bool := false
  /-- What the constructor of the output reads. -/
  output : OutputEnv

/-- What `initialize()` returns, the world it leaves, and what its hotplug loop
did. -/
structure InitResult where
  ok : Bool
  world : World
  hotplug : HotplugResult

namespace HwcomposerBackend

/-- Source: `HwcomposerBackend::initLights` (src/src/backends). -/
def initLights (env : HalEnv) (w : World) : World :=
  if !env.lightsModule then w
  else if !env.lightsDevice then w
  else { w with backend := { w.backend with m_lights := true } }

/-- Source: `HwcomposerBackend::initialize` (src/src/backends).  A HAL call
made with a null display is logged like any other and answered from `env`;
signals without a connected slot are left out. -/
def initialise (env : HalEnv) (w : World) : InitResult :=
  if !env.hwcModule then
    { ok := false, world := w, hotplug := { found := false, polls := 0, sleeps := 0 } }
  else
    let w := { w with backend := { w.backend with m_hwc2device := env.hwc2device } }
    let h := hotplugLoop env.poll (5 * 1000) 0
    let w := { w with backend := { w.backend with m_hwc2_primary_display := h.found } }
    let w := initLights env w
    let w := toggleBlankOutput w
    let w := w.emit (Op.hwc2_compat_display_get_active_config w.backend.m_hwc2_primary_display)
    let output := HwcomposerOutput.construct env.output
    let w := { w with backend := { w.backend with m_output := some output } }
    if !output.isValid then { ok := false, world := w, hotplug := h }
    else
      let w :=
        if output.refreshRate != 0 then
          { w with backend := { w.backend with
              m_vsyncInterval := Int.tdiv 1000000 output.refreshRate } }
        else w
      let w :=
        if w.backend.m_lights then
          { w with backend := { w.backend with updateDpmsConnected := true } }
        else w
      { ok := true, world := w, hotplug := h }

end HwcomposerBackend

/-! ## DPMS requests, the vsync wake-up and the compositing slot -/

namespace HwcomposerBackend

/-- Source: the lambda connected to the signal `dpmsModeRequested` of the
output in `HwcomposerBackend::initialize` (src/src/backends). -/
def dpmsModeRequestedSlot (w : World) (mode : DpmsMode) : World :=
  if mode == DpmsMode.On then
    if w.backend.m_outputBlank then toggleBlankOutput w
    else emitOutputBlankChanged w
  else
    if !w.backend.m_outputBlank then toggleBlankOutput w
    else emitOutputBlankChanged w

/-- Call of `m_compositingSemaphore.acquire()`: takes one resource, and does not
return (`none`) while there is none to take. -/
def semaphoreAcquire (w : World) : Option World :=
  if 1 ≤ w.backend.m_compositingSemaphore then
    some (({ w with backend := { w.backend with
      m_compositingSemaphore := w.backend.m_compositingSemaphore - 1 } }).emit Op.semaphore_acquire)
  else none

/-- Source: `HwcomposerBackend::compositing` (src/src/backends);
`pendingFrameCount` is what `renderLoopPrivate->pendingFrameCount` reads.  The
result is `none` when the call does not return: `m_output` is null where it is
dereferenced, or `acquire()` finds no resource. -/
def compositing (w : World) (flags : Int) (pendingFrameCount : Int) : Option World :=
  let w := ({ w with backend := { w.backend with
    m_compositingSemaphore := w.backend.m_compositingSemaphore + 1 } }).emit Op.semaphore_release
  let r : Option World :=
    if flags > 0 then
      match w.backend.m_output with
      | some _ => some (if pendingFrameCount > 0 then w.emit Op.notifyFrameCompleted else w)
      | none => none
    else some w
  r.bind semaphoreAcquire

/-- Source: `HwcomposerBackend::wakeVSync` (src/src/backends). -/
def wakeVSync (w : World) : World :=
  let flags : Int := if w.backend.m_compositingSemaphore > 0 then 0 else 1
  let w := w.emit (Op.invokeMethod_compositing flags)
  let w := w.emit Op.mutex_lock
  let w := w.emit Op.condition_wakeAll
  w.emit Op.mutex_unlock

/-- Source: the statement `if (m_output->refreshRate() != 0) m_vsyncInterval =
1000000/m_output->refreshRate();` of `HwcomposerBackend::initialize`, as a
function of the interval held before and of the refresh rate (`int` division
truncates towards zero). -/
def vsyncIntervalAfter (m_vsyncInterval refreshRate : Int) : Int :=
  if refreshRate != 0 then Int.tdiv 1000000 refreshRate else m_vsyncInterval

end HwcomposerBackend

/-- Source: `HwcomposerOutput::setDpmsMode` (src/src/backends): the signal is
emitted and the slot connected to it, if any, runs at once. -/
def HwcomposerOutput.setDpmsMode (w : World) (mode : DpmsMode) : World :=
  let w := w.emit (Op.dpmsModeRequested mode)
  if w.backend.updateDpmsConnected then HwcomposerBackend.dpmsModeRequestedSlot w mode else w

/-- Source: the lambda `updateDpms` connected to `outputBlankChanged` in
`HwcomposerBackend::init` (src/plugins).  `output` tells whether `m_output` is
non-null and `waylandOutput` whether `m_output->waylandOutput()` is; the result
is `none` when a null pointer is dereferenced. -/
def Plugin.HwcomposerBackend.updateDpms (b : Plugin.HwcomposerBackend)
    (output waylandOutput : Bool) : Option Plugin.HwcomposerBackend :=
  if !output || !waylandOutput then
    if !output then none
    else if !waylandOutput then none
    else
      some { b with trace := b.trace ++ [Op.waylandOutput_setDpmsMode
        (if b.m_outputBlank then DpmsMode.Off else DpmsMode.On)] }
  else some b

/-! ## The focus chain (`src/src/focuschain.cpp`) -/

/-- The enumeration `FocusChain::Change`. -/
inductive Change
  | MakeFirst
  | MakeLast
  | Update
  deriving DecidableEq, Repr

/-- A chain of clients, `QList<AbstractClient*>`: a client is named by a
number (the identity of the pointer). -/
abbrev Chain := List Nat

/-- What the focus chain reads through a client pointer, a desktop pointer or
`options` while it runs: the getters of `AbstractClient`, the static
`AbstractClient::belongToSameApplication`, and one option. -/
structure ClientEnv where
  wantsTabFocus : Nat → Bool
  isOnAllDesktops : Nat → Bool
  /-- Value of `client->isOnDesktop(desktop)`. -/
  isOnDesktop : Nat → Nat → Bool
  isMinimized : Nat → Bool
  isShade : Nat → Bool
  isShown : Nat → Bool
  isOnCurrentActivity : Nat → Bool
  /-- Value of `client->output()`: outputs are named by numbers. -/
  output : Nat → Nat
  /-- Value of `AbstractClient::belongToSameApplication(a, b)`. -/
  belongToSameApplication : Nat → Nat → Bool
  /-- Value of `options->moveMinimizedWindowsToEndOfTabBoxFocusChain()`. -/
  moveMinimizedWindowsToEndOfTabBoxFocusChain : Bool

/-- The members of `FocusChain`.  The hash `m_desktopFocusChains` is kept as
the list of its (desktop, chain) items; desktops are named by numbers. -/
structure FocusChain where
  m_mostRecentlyUsed : Chain := []
  m_desktopFocusChains : List (Nat × Chain) := []
  m_separateScreenFocus : Bool := false
  m_activeClient : Option Nat := none
  m_currentDesktop : Option Nat := none
  deriving DecidableEq, Repr

namespace Chain

/-- Qt's `QList::removeAll(value)`. -/
def removeAll (chain : Chain) (client : Nat) : Chain := chain.filter (fun x => x != client)

/-- Qt's `QList::indexOf(value)`: the index of the first occurrence, or -1. -/
def indexOf (chain : Chain) (client : Nat) : Int :=
  if client ∈ chain then (List.indexOf client chain : Nat) else -1

/-- Qt's `QList::insert(i, value)`: "if i <= 0, the value is prepended to the
list; if i >= size(), the value is appended to the list". -/
def insert (chain : Chain) (i : Int) (client : Nat) : Chain :=
  if i ≤ 0 then client :: chain
  else if (chain.length : Int) ≤ i then chain ++ [client]
  else chain.take i.toNat ++ client :: chain.drop i.toNat

/-- The loop `for (int i = n - 1; i >= 0; --i) if (p(chain.at(i))) ...`: the
index at which it stops, scanning downwards from `n - 1`, if it does. -/
def lastIndexWhere (chain : Chain) (p : Nat → Bool) : Nat → Option Nat
  | 0 => none
  | i + 1 =>
    match chain[i]? with
    | some x => if p x then some i else lastIndexWhere chain p i
    | none => lastIndexWhere chain p i

end Chain

namespace FocusChain

/-- Source: `FocusChain::remove`. -/
def remove (fc : FocusChain) (client : Nat) : FocusChain :=
  { fc with
    m_desktopFocusChains := fc.m_desktopFocusChains.map (fun it => (it.1, Chain.removeAll it.2 client)),
    m_mostRecentlyUsed := Chain.removeAll fc.m_mostRecentlyUsed client }

/-- Source: `FocusChain::addDesktop`; `QHash::insert` replaces the value of a
key that is present. -/
def addDesktop (fc : FocusChain) (desktop : Nat) : FocusChain :=
  { fc with
    m_desktopFocusChains :=
      (desktop, []) :: fc.m_desktopFocusChains.filter (fun it => it.1 != desktop) }

/-- Source: `FocusChain::removeDesktop`. -/
def removeDesktop (fc : FocusChain) (desktop : Nat) : FocusChain :=
  let fc := if fc.m_currentDesktop == some desktop then { fc with m_currentDesktop := none } else fc
  { fc with m_desktopFocusChains := fc.m_desktopFocusChains.filter (fun it => it.1 != desktop) }

/-- Source: `FocusChain::getForActivation(VirtualDesktop *, AbstractOutput *)`. -/
def getForActivation (env : ClientEnv) (fc : FocusChain) (desktop output : Nat) : Option Nat :=
  match fc.m_desktopFocusChains.lookup desktop with
  | none => none
  | some chain =>
    match Chain.lastIndexWhere chain
        (fun tmp => !env.isShade tmp && env.isShown tmp && env.isOnCurrentActivity tmp
          && (!fc.m_separateScreenFocus || env.output tmp == output))
        chain.length with
    | some i => chain[i]?
    | none => none

/-- Source: `FocusChain::makeFirstInChain`. -/
def makeFirstInChain (env : ClientEnv) (client : Nat) (chain : Chain) : Chain :=
  let chain := Chain.removeAll chain client
  if env.moveMinimizedWindowsToEndOfTabBoxFocusChain then
    if env.isMinimized client then
      match Chain.lastIndexWhere chain env.isMinimized chain.length with
      | some i => Chain.insert chain (i + 1) client
      | none => client :: chain
    else chain ++ [client]
  else chain ++ [client]

/-- Source: `FocusChain::makeLastInChain`. -/
def makeLastInChain (client : Nat) (chain : Chain) : Chain :=
  client :: Chain.removeAll chain client

/-- Source: `FocusChain::insertClientIntoChain`. -/
def insertClientIntoChain (fc : FocusChain) (client : Nat) (chain : Chain) : Chain :=
  if chain.contains client then chain
  else if fc.m_activeClient.isSome && fc.m_activeClient != some client
      && !chain.isEmpty && chain.getLast? == fc.m_activeClient then
    Chain.insert chain ((chain.length : Int) - 1) client
  else chain ++ [client]

/-- Source: `FocusChain::updateClientInChain`. -/
def updateClientInChain (env : ClientEnv) (fc : FocusChain) (client : Nat) (change : Change)
    (chain : Chain) : Chain :=
  if change == Change.MakeFirst then makeFirstInChain env client chain
  else if change == Change.MakeLast then makeLastInChain client chain
  else insertClientIntoChain fc client chain

/-- Source: `FocusChain::update`. -/
def update (env : ClientEnv) (fc : FocusChain) (client : Nat) (change : Change) : FocusChain :=
  if !env.wantsTabFocus client then remove fc client
  else
    let chains : List (Nat × Chain) :=
      if env.isOnAllDesktops client then
        fc.m_desktopFocusChains.map (fun it =>
          if some it.1 == fc.m_currentDesktop
              && (change == Change.MakeFirst || change == Change.MakeLast) then
            if change == Change.MakeFirst then (it.1, makeFirstInChain env client it.2)
            else (it.1, makeLastInChain client it.2)
          else (it.1, insertClientIntoChain fc client it.2))
      else
        fc.m_desktopFocusChains.map (fun it =>
          if env.isOnDesktop client it.1 then
            (it.1, updateClientInChain env fc client change it.2)
          else (it.1, Chain.removeAll it.2 client))
    { fc with
      m_desktopFocusChains := chains,
      m_mostRecentlyUsed := updateClientInChain env fc client change fc.m_mostRecentlyUsed }

/-- Source: `FocusChain::moveAfterClientInChain`. -/
def moveAfterClientInChain (env : ClientEnv) (client reference : Nat) (chain : Chain) : Chain :=
  if !chain.contains reference then chain
  else if env.belongToSameApplication reference client then
    let chain := Chain.removeAll chain client
    Chain.insert chain (Chain.indexOf chain reference) client
  else
    let chain := Chain.removeAll chain client
    match Chain.lastIndexWhere chain (fun x => env.belongToSameApplication reference x)
        chain.length with
    | some i => Chain.insert chain i client
    | none => chain

/-- Source: `FocusChain::moveAfterClient`. -/
def moveAfterClient (env : ClientEnv) (fc : FocusChain) (client reference : Nat) : FocusChain :=
  if !env.wantsTabFocus client then fc
  else
    { fc with
      m_desktopFocusChains := fc.m_desktopFocusChains.map (fun it =>
        if !env.isOnDesktop client it.1 then it
        else (it.1, moveAfterClientInChain env client reference it.2)),
      m_mostRecentlyUsed := moveAfterClientInChain env client reference fc.m_mostRecentlyUsed }

/-- Source: `FocusChain::nextMostRecentlyUsed`. -/
def nextMostRecentlyUsed (fc : FocusChain) (reference : Nat) : Option Nat :=
  if fc.m_mostRecentlyUsed.isEmpty then none
  else
    let index : Int := Chain.indexOf fc.m_mostRecentlyUsed reference
    if index == -1 then fc.m_mostRecentlyUsed.head?
    else if index == 0 then fc.m_mostRecentlyUsed.getLast?
    else fc.m_mostRecentlyUsed[(index - 1).toNat]?

/-- The clients reached from `reference` by `n` successive calls of
`nextMostRecentlyUsed`, each on the result of the one before, in order. -/
def walkMostRecentlyUsed (fc : FocusChain) : Nat → Nat → List Nat
  | 0, _ => []
  | n + 1, reference =>
    match fc.nextMostRecentlyUsed reference with
    | some next => next :: walkMostRecentlyUsed fc n next
    | none => []

/-- Every chain holds each client at most once. -/
def chainsDistinct (fc : FocusChain) : Prop :=
  fc.m_mostRecentlyUsed.Nodup ∧ ∀ it ∈ fc.m_desktopFocusChains, it.2.Nodup

/-- No chain holds `client`. -/
def holdsNowhere (fc : FocusChain) (client : Nat) : Prop :=
  client ∉ fc.m_mostRecentlyUsed ∧ ∀ it ∈ fc.m_desktopFocusChains, client ∉ it.2

end FocusChain

/-- Clients for the examples: every client wants tab focus and is on the
desktop of its parity, client 3 is minimized, clients belong to the same
application when they agree up to the last digit, and minimized windows are
moved to the end of the chain. -/
def exampleClients : ClientEnv :=
  { wantsTabFocus := fun _ => true,
    isOnAllDesktops := fun _ => false,
    isOnDesktop := fun client desktop => client % 2 == desktop,
    isMinimized := fun client => client == 3,
    isShade := fun _ => false,
    isShown := fun _ => true,
    isOnCurrentActivity := fun _ => true,
    output := fun _ => 0,
    belongToSameApplication := fun a b => a / 10 == b / 10,
    moveMinimizedWindowsToEndOfTabBoxFocusChain := true }

/-- A focus chain for the examples: four clients on two desktops. -/
def exampleFocusChain : FocusChain :=
  { m_mostRecentlyUsed := [1, 2, 3, 4],
    m_desktopFocusChains := [(0, [2, 4]), (1, [1, 3])] }

open HwcomposerWindow HwcomposerBackend hwc2_error_t hwc2_power_mode_t

/-! ## Lemmas on the descriptor table -/

theorem lowestFreeFrom_not_mem (used : List Int) :
    ∀ (fuel n : Nat), (used.filter (fun x => decide ((n : Int) ≤ x))).length ≤ fuel →
      ((lowestFreeFrom used fuel n : Nat) : Int) ∉ used := by
  intro fuel
  induction fuel with
  | zero =>
    intro n h hmem
    have hnil : used.filter (fun x => decide ((n : Int) ≤ x)) = [] :=
      List.eq_nil_of_length_eq_zero (Nat.le_zero.mp h)
    have : (n : Int) ∈ used.filter (fun x => decide ((n : Int) ≤ x)) := by
      simp only [lowestFreeFrom] at hmem
      exact List.mem_filter.mpr ⟨hmem, by simp⟩
    rw [hnil] at this
    exact List.not_mem_nil _ this
  | succ fuel ih =>
    intro n h
    simp only [lowestFreeFrom]
    by_cases hn : (n : Int) ∈ used
    · rw [if_pos hn]
      apply ih
      have hlt : (used.filter (fun x => decide (((n + 1 : Nat) : Int) ≤ x))).length
          < (used.filter (fun x => decide ((n : Int) ≤ x))).length := by
        have heq : used.filter (fun x => decide (((n + 1 : Nat) : Int) ≤ x))
            = (used.filter (fun x => decide ((n : Int) ≤ x))).filter
                (fun x => decide (((n + 1 : Nat) : Int) ≤ x)) := by
          rw [List.filter_filter]
          apply List.filter_congr
          intro x _
          by_cases hx : ((n + 1 : Nat) : Int) ≤ x
          · have : (n : Int) ≤ x := by push_cast at hx; omega
            simp [hx, this]
          · have hx2 : ¬ ((n : Int) + 1 ≤ x) := by push_cast at hx; exact hx
            simp [hx2]
        rw [heq]
        apply List.length_filter_lt_length_iff_exists.mpr
        refine ⟨(n : Int), List.mem_filter.mpr ⟨hn, by simp⟩, ?_⟩
        simp
      omega
    · rw [if_neg hn]
      exact hn

theorem lowestFree_not_mem (used : List Int) : ((lowestFree used : Nat) : Int) ∉ used := by
  apply lowestFreeFrom_not_mem
  exact List.length_filter_le _ _


namespace FdTable

theorem alloc_fst_not_mem (t : FdTable) : t.alloc.1 ∉ t.numbers :=
  lowestFree_not_mem t.numbers

theorem alloc_fst_nonneg (t : FdTable) : 0 ≤ t.alloc.1 := by
  simp [alloc]

theorem alloc_fst_ne_neg_one (t : FdTable) : t.alloc.1 ≠ -1 := by
  have := alloc_fst_nonneg t
  omega

theorem isOpen_iff (t : FdTable) (fd : Int) : t.isOpen fd = true ↔ fd ∈ t.numbers := by
  simp [isOpen]

theorem serialOf_eq_some_of_isOpen (t : FdTable) (fd : Int) (h : t.isOpen fd = true) :
    ∃ s, t.serialOf fd = some s := by
  rw [isOpen_iff] at h
  simp only [numbers, List.mem_map] at h
  obtain ⟨e, he, hfd⟩ := h
  cases hf : t.entries.find? (fun e => e.1 == fd) with
  | none =>
    rw [List.find?_eq_none] at hf
    exact absurd (by simp [hfd]) (hf e he)
  | some e' => exact ⟨e'.2, by simp [serialOf, hf]⟩

theorem serialOf_mem (t : FdTable) (fd : Int) (s : Nat) (h : t.serialOf fd = some s) :
    (fd, s) ∈ t.entries := by
  simp only [serialOf, Option.map_eq_some'] at h
  obtain ⟨e, he, hs⟩ := h
  have h1 := List.find?_some he
  have h2 := List.mem_of_find?_eq_some he
  simp only [beq_iff_eq] at h1
  have : e = (fd, s) := by
    cases e
    simp_all
  rw [← this]
  exact h2

theorem serialOf_eq_none (t : FdTable) (fd : Int) (h : t.isOpen fd = false) :
    t.serialOf fd = none := by
  cases hs : t.serialOf fd with
  | none => rfl
  | some s =>
    have hm := serialOf_mem t fd s hs
    have : t.isOpen fd = true := by
      rw [isOpen_iff]
      exact List.mem_map.mpr ⟨(fd, s), hm, rfl⟩
    rw [h] at this
    exact absurd this (by simp)

theorem find_filter_ne (l : List (Int × Nat)) (x fd : Int) (h : x ≠ fd) :
    (l.filter (fun e => e.1 != fd)).find? (fun e => e.1 == x) = l.find? (fun e => e.1 == x) := by
  induction l with
  | nil => rfl
  | cons e l ih =>
    obtain ⟨a, b⟩ := e
    by_cases he : a = fd
    · have hx : ¬ a = x := fun hx => h (hx ▸ he)
      have hfx : ¬ fd = x := fun h' => h h'.symm
      subst he
      simp [List.filter_cons, List.find?_cons, ih, hfx]
    · by_cases hx : a = x
      · subst hx
        simp [List.filter_cons, List.find?_cons, he]
      · simp [List.filter_cons, List.find?_cons, he, hx, ih]

theorem close_of_serialOf (t : FdTable) (fd : Int) (s : Nat) (h : t.serialOf fd = some s) :
    t.close fd = { t with entries := t.entries.filter (fun e => e.1 != fd),
                          closedLog := t.closedLog ++ [s] } := by
  simp [close, h]

theorem serialOf_close_ne (t : FdTable) (fd x : Int) (h : x ≠ fd) :
    (t.close fd).serialOf x = t.serialOf x := by
  cases hs : t.serialOf fd with
  | none =>
    have hc : t.close fd = { t with ebadf := t.ebadf + 1 } := by simp [close, hs]
    rw [hc]
    rfl
  | some s =>
    rw [close_of_serialOf t fd s hs]
    simp only [serialOf]
    rw [find_filter_ne _ _ _ h]

theorem numbers_close (t : FdTable) (fd : Int) :
    (t.close fd).numbers = t.numbers.filter (fun n => n != fd) := by
  cases hs : t.serialOf fd with
  | none =>
    have hno : fd ∉ t.numbers := by
      intro hm
      obtain ⟨s, h⟩ := serialOf_eq_some_of_isOpen t fd ((isOpen_iff t fd).mpr hm)
      rw [hs] at h
      exact absurd h (by simp)
    simp only [close, hs, numbers]
    symm
    rw [List.filter_eq_self]
    intro n hn
    have : n ≠ fd := fun h => hno (h ▸ hn)
    simpa using this
  | some s =>
    rw [close_of_serialOf t fd s hs]
    simp only [numbers, List.filter_map]
    rfl

theorem isOpen_close (t : FdTable) (fd x : Int) :
    (t.close fd).isOpen x = true ↔ t.isOpen x = true ∧ x ≠ fd := by
  rw [isOpen_iff, isOpen_iff, numbers_close, List.mem_filter]
  simp

theorem isOpen_alloc (t : FdTable) (x : Int) :
    t.alloc.2.isOpen x = true ↔ x = t.alloc.1 ∨ t.isOpen x = true := by
  rw [isOpen_iff, isOpen_iff]
  simp [alloc, numbers]

theorem serialOf_alloc_self (t : FdTable) : t.alloc.2.serialOf t.alloc.1 = some t.nextSerial := by
  simp [alloc, serialOf, List.find?_cons]

theorem serialOf_alloc_of_isOpen (t : FdTable) (x : Int) (h : t.isOpen x = true) :
    t.alloc.2.serialOf x = t.serialOf x := by
  have hne : t.alloc.1 ≠ x := by
    intro he
    apply alloc_fst_not_mem t
    rw [he]
    exact (isOpen_iff t x).mp h
  have hne' : ((lowestFree t.numbers : Nat) : Int) ≠ x := hne
  simp [alloc, serialOf, List.find?_cons, hne']


theorem alloc_wf (t : FdTable) (h : t.WF) : t.alloc.2.WF := by
  obtain ⟨hn, hs, hc, hsb, hcb, hcs⟩ := h
  have hfree := alloc_fst_not_mem t
  refine ⟨?_, ?_, ?_, ?_, ?_, ?_⟩
  · show (t.alloc.1 :: t.numbers).Nodup
    exact List.nodup_cons.mpr ⟨hfree, hn⟩
  · show (t.nextSerial :: t.serials).Nodup
    refine List.nodup_cons.mpr ⟨?_, hs⟩
    intro hm
    exact absurd (hsb _ hm) (lt_irrefl _)
  · exact hc
  · intro s hm
    have hm' : s ∈ t.nextSerial :: t.serials := hm
    show s < t.nextSerial + 1
    rcases List.mem_cons.mp hm' with h | h
    · omega
    · have := hsb s h
      omega
  · intro s hm
    have := hcb s hm
    show s < t.nextSerial + 1
    omega
  · intro s hm hm2
    have hm' : s ∈ t.nextSerial :: t.serials := hm2
    rcases List.mem_cons.mp hm' with h | h
    · have := hcb s hm
      omega
    · exact hcs s hm h

theorem close_wf (t : FdTable) (fd : Int) (h : t.WF) : (t.close fd).WF := by
  obtain ⟨hn, hs, hc, hsb, hcb, hcs⟩ := h
  cases hso : t.serialOf fd with
  | none =>
    have hcl : t.close fd = { t with ebadf := t.ebadf + 1 } := by simp [close, hso]
    rw [hcl]
    exact ⟨hn, hs, hc, hsb, hcb, hcs⟩
  | some s =>
    rw [close_of_serialOf t fd s hso]
    have hmem := serialOf_mem t fd s hso
    have hsmem : s ∈ t.serials := List.mem_map.mpr ⟨(fd, s), hmem, rfl⟩
    have hsub : ((t.entries.filter (fun e => e.1 != fd)).map Prod.snd).Sublist t.serials :=
      List.Sublist.map _ (List.filter_sublist _)
    have hsnot : s ∉ (t.entries.filter (fun e => e.1 != fd)).map Prod.snd := by
      intro hm
      obtain ⟨e, he, hes⟩ := List.mem_map.mp hm
      have he' := List.mem_filter.mp he
      have heq : e = (fd, s) :=
        List.inj_on_of_nodup_map hs he'.1 hmem (by simpa using hes)
      have : e.1 ≠ fd := by simpa using he'.2
      exact this (by rw [heq])
    refine ⟨?_, ?_, ?_, ?_, ?_, ?_⟩
    · show ((t.entries.filter (fun e => e.1 != fd)).map Prod.fst).Nodup
      exact List.Nodup.sublist (List.Sublist.map _ (List.filter_sublist _)) hn
    · exact List.Nodup.sublist hsub hs
    · show (t.closedLog ++ [s]).Nodup
      rw [List.nodup_append]
      refine ⟨hc, List.nodup_singleton s, ?_⟩
      intro a ha hb
      have : a = s := by simpa using hb
      subst this
      exact hcs a ha hsmem
    · intro a ha
      exact hsb a (hsub.subset ha)
    · intro a ha
      have ha' : a ∈ t.closedLog ++ [s] := ha
      rcases List.mem_append.mp ha' with h | h
      · exact hcb a h
      · have : a = s := by simpa using h
        subst this
        exact hsb a hsmem
    · intro a ha hb
      have ha' : a ∈ t.closedLog ++ [s] := ha
      rcases List.mem_append.mp ha' with h | h
      · exact hcs a h (hsub.subset hb)
      · have : a = s := by simpa using h
        subst this
        exact hsnot hb

theorem dup_of_isOpen (t : FdTable) (fd : Int) (h : t.isOpen fd = true) : t.dup fd = t.alloc := by
  simp [dup, h]

/-- Closing an open descriptor of a consistent table. -/
theorem close_open_spec (t : FdTable) (fd : Int) (hwf : t.WF) (ho : t.isOpen fd = true) :
    ∃ s, t.serialOf fd = some s ∧
      (t.close fd).entries = t.entries.filter (fun e => e.1 != fd) ∧
      (t.close fd).closedLog = t.closedLog ++ [s] ∧
      (t.close fd).ebadf = t.ebadf ∧ (t.close fd).nextSerial = t.nextSerial ∧
      s ∉ (t.close fd).serials ∧ s ∉ t.closedLog ∧ s < t.nextSerial := by
  obtain ⟨s, hs⟩ := serialOf_eq_some_of_isOpen t fd ho
  have hwf' := close_wf t fd hwf
  have hmem := serialOf_mem t fd s hs
  have hsmem : s ∈ t.serials := List.mem_map.mpr ⟨(fd, s), hmem, rfl⟩
  refine ⟨s, hs, ?_, ?_, ?_, ?_, ?_, ?_, ?_⟩
  · rw [close_of_serialOf t fd s hs]
  · rw [close_of_serialOf t fd s hs]
  · rw [close_of_serialOf t fd s hs]
  · rw [close_of_serialOf t fd s hs]
  · have hin : s ∈ (t.close fd).closedLog := by
      rw [close_of_serialOf t fd s hs]
      simp
    exact hwf'.2.2.2.2.2 s hin
  · intro hc
    exact hwf.2.2.2.2.2 s hc hsmem
  · exact hwf.2.2.2.1 s hsmem

theorem alloc_spec (t : FdTable) :
    t.alloc.2.entries = (t.alloc.1, t.nextSerial) :: t.entries ∧
    t.alloc.2.closedLog = t.closedLog ∧ t.alloc.2.ebadf = t.ebadf ∧
    t.alloc.2.nextSerial = t.nextSerial + 1 :=
  ⟨rfl, rfl, rfl, rfl⟩

theorem isOpen_alloc_self (t : FdTable) : t.alloc.2.isOpen t.alloc.1 = true :=
  (isOpen_alloc t _).mpr (Or.inl rfl)

theorem alloc_fst_ne_of_isOpen (t : FdTable) (x : Int) (h : t.isOpen x = true) : t.alloc.1 ≠ x := by
  intro he
  apply alloc_fst_not_mem t
  rw [he]
  exact (isOpen_iff t x).mp h

/-- A guarded `close` of a descriptor that is open whenever the guard holds:
the pattern `if (fd is set) close(fd)` of `present()`. -/
theorem guarded_close_spec (t : FdTable) (c : Prop) [Decidable c] (fd : Int) (hwf : t.WF)
    (ho : c → t.isOpen fd = true) :
    (if c then t.close fd else t).WF ∧
    (if c then t.close fd else t).ebadf = t.ebadf ∧
    (if c then t.close fd else t).nextSerial = t.nextSerial ∧
    (∀ e, e ∈ (if c then t.close fd else t).entries ↔ e ∈ t.entries ∧ ¬ (c ∧ e.1 = fd)) ∧
    (if c then t.close fd else t).closedLog
      = t.closedLog ++ (if c then (t.serialOf fd).toList else []) ∧
    (c → ∃ s, t.serialOf fd = some s ∧ s ∉ (if c then t.close fd else t).serials ∧
      s ∉ t.closedLog ∧ s < t.nextSerial) ∧
    (∀ x, ¬ (c ∧ x = fd) → (if c then t.close fd else t).serialOf x = t.serialOf x) ∧
    (∀ x, (if c then t.close fd else t).isOpen x = true ↔ t.isOpen x = true ∧ ¬ (c ∧ x = fd)) := by
  by_cases hc : c
  · simp only [hc, if_true, true_and]
    obtain ⟨s, hs, he, hl, hb, hn, hns, hnc, hlt⟩ := close_open_spec t fd hwf (ho hc)
    refine ⟨close_wf t fd hwf, hb, hn, ?_, ?_, ?_, ?_, ?_⟩
    · intro e
      rw [he, List.mem_filter]
      simp
    · rw [hl, hs]
      rfl
    · intro _
      exact ⟨s, hs, hns, hnc, hlt⟩
    · intro x hx
      exact serialOf_close_ne t fd x hx
    · intro x
      exact isOpen_close t fd x
  · rw [if_neg hc, if_neg hc]
    refine ⟨hwf, rfl, rfl, ?_, by simp, fun h => absurd h hc, fun _ _ => rfl, ?_⟩
    · intro e
      simp [hc]
    · intro x
      simp [hc]

end FdTable

/-! ## The paths through `present()` -/

theorem callsSince_append (w w' : World) (l : List Op) (h : w'.trace = w.trace ++ l) :
    callsSince w w' = l := by
  simp [callsSince, h]

/-- A frame that is not accepted is dropped: only the acquire fence is waited
for and closed, and the HAL is asked to validate (and to accept, if validate
asked for nothing). -/
theorem present_dropped (w : World) (f : Frame) (h : ¬ f.accepted) :
    present w f =
      { w with
        fds := if 0 ≤ f.acquireFenceFd then w.fds.close f.acquireFenceFd else w.fds,
        trace := w.trace ++
          (if 0 ≤ f.acquireFenceFd then [Op.sync_wait f.acquireFenceFd, Op.close f.acquireFenceFd]
            else []) ++
          [Op.hwc2_compat_display_set_power_mode HWC2_POWER_MODE_ON, Op.hwc2_compat_display_validate] ++
          (if (f.validateError = HWC2_ERROR_NONE ∨ f.validateError = HWC2_ERROR_HAS_CHANGES) ∧
              f.numTypes = 0 ∧ f.numRequests = 0
            then [Op.hwc2_compat_display_accept_changes] else []) } := by
  unfold Frame.accepted at h
  unfold present
  by_cases hv : f.validateError ≠ HWC2_ERROR_NONE ∧ f.validateError ≠ HWC2_ERROR_HAS_CHANGES
  · have hc : ¬ ((f.validateError = HWC2_ERROR_NONE ∨ f.validateError = HWC2_ERROR_HAS_CHANGES) ∧
        f.numTypes = 0 ∧ f.numRequests = 0) := by tauto
    by_cases ha : 0 ≤ f.acquireFenceFd <;>
      simp [ha, hv, hc, World.emit, World.sync_wait, World.close]
  · by_cases hn : f.numTypes ≠ 0 ∨ f.numRequests ≠ 0
    · have hc : ¬ ((f.validateError = HWC2_ERROR_NONE ∨ f.validateError = HWC2_ERROR_HAS_CHANGES) ∧
          f.numTypes = 0 ∧ f.numRequests = 0) := by tauto
      by_cases ha : 0 ≤ f.acquireFenceFd <;>
        simp [ha, hv, hn, hc, World.emit, World.sync_wait, World.close]
    · have hc : (f.validateError = HWC2_ERROR_NONE ∨ f.validateError = HWC2_ERROR_HAS_CHANGES) ∧
          f.numTypes = 0 ∧ f.numRequests = 0 := by tauto
      have hacc : f.acceptError ≠ HWC2_ERROR_NONE := by tauto
      by_cases ha : 0 ≤ f.acquireFenceFd <;>
        simp [ha, hv, hn, hc, hacc, World.emit, World.sync_wait, World.close]


/-- An accepted frame for which the HAL produces a present fence: the world
after `present()`, written out. -/
theorem present_accepted_fence (w : World) (f : Frame) (h : f.accepted) (hp : f.presentFence = true)
    (t1 t3 : FdTable)
    (h1 : t1 = if 0 ≤ f.acquireFenceFd then w.fds.close f.acquireFenceFd else w.fds)
    (h3 : t3 = if w.window.lastPresentFence ≠ -1 then t1.alloc.2.close w.window.lastPresentFence
      else t1.alloc.2) :
    present w f =
      { w with
        window := { lastPresentFence := (t3.dup t1.alloc.1).1 },
        fds := (t3.dup t1.alloc.1).2,
        trace := w.trace ++
          (if 0 ≤ f.acquireFenceFd then [Op.sync_wait f.acquireFenceFd, Op.close f.acquireFenceFd]
            else []) ++
          [Op.hwc2_compat_display_set_power_mode HWC2_POWER_MODE_ON, Op.hwc2_compat_display_validate,
            Op.hwc2_compat_display_accept_changes,
            Op.hwc2_compat_display_set_client_target f.buffer
              (if 0 ≤ f.acquireFenceFd then -1 else f.acquireFenceFd),
            Op.hwc2_compat_display_present t1.alloc.1] ++
          (if w.window.lastPresentFence ≠ -1 then
            [Op.sync_wait w.window.lastPresentFence, Op.close w.window.lastPresentFence] else []) ++
          [Op.dup t1.alloc.1 (t3.dup t1.alloc.1).1, Op.HWCNativeBufferSetFence f.buffer t1.alloc.1] } := by
  obtain ⟨hv, hn1, hn2, hacc⟩ := h
  have hv' : ¬ (f.validateError ≠ HWC2_ERROR_NONE ∧ f.validateError ≠ HWC2_ERROR_HAS_CHANGES) := by
    tauto
  have hpf := FdTable.alloc_fst_ne_neg_one t1
  subst h3
  unfold present
  by_cases ha : 0 ≤ f.acquireFenceFd <;> by_cases hl : w.window.lastPresentFence = -1
  all_goals
    simp only [ha, if_true, if_false, ite_true, ite_false] at h1
    subst h1
    simp [ha, hl, hv', hn1, hn2, hacc, hp, World.emit, World.sync_wait, World.close, World.dup,
      hwc2_compat_display_present, FdTable.alloc_fst_ne_neg_one]

/-- An accepted frame for which the HAL gives no present fence. -/
theorem present_accepted_no_fence (w : World) (f : Frame) (h : f.accepted)
    (hp : f.presentFence = false) (t1 : FdTable)
    (h1 : t1 = if 0 ≤ f.acquireFenceFd then w.fds.close f.acquireFenceFd else w.fds) :
    present w f =
      { w with
        window := { lastPresentFence := -1 },
        fds := if w.window.lastPresentFence ≠ -1 then t1.close w.window.lastPresentFence else t1,
        trace := w.trace ++
          (if 0 ≤ f.acquireFenceFd then [Op.sync_wait f.acquireFenceFd, Op.close f.acquireFenceFd]
            else []) ++
          [Op.hwc2_compat_display_set_power_mode HWC2_POWER_MODE_ON, Op.hwc2_compat_display_validate,
            Op.hwc2_compat_display_accept_changes,
            Op.hwc2_compat_display_set_client_target f.buffer
              (if 0 ≤ f.acquireFenceFd then -1 else f.acquireFenceFd),
            Op.hwc2_compat_display_present (-1)] ++
          (if w.window.lastPresentFence ≠ -1 then
            [Op.sync_wait w.window.lastPresentFence, Op.close w.window.lastPresentFence] else []) ++
          [Op.HWCNativeBufferSetFence f.buffer (-1)] } := by
  obtain ⟨hv, hn1, hn2, hacc⟩ := h
  have hv' : ¬ (f.validateError ≠ HWC2_ERROR_NONE ∧ f.validateError ≠ HWC2_ERROR_HAS_CHANGES) := by
    tauto
  unfold present
  by_cases ha : 0 ≤ f.acquireFenceFd <;> by_cases hl : w.window.lastPresentFence = -1
  all_goals
    simp only [ha, if_true, if_false, ite_true, ite_false] at h1
    subst h1
    simp [ha, hl, hv', hn1, hn2, hacc, hp, World.emit, World.sync_wait, World.close, World.dup,
      hwc2_compat_display_present]

/-- The calls of an accepted frame, in order. -/
theorem present_accepted_calls (w : World) (f : Frame) (h : f.accepted) :
    ∃ p d, callsSince w (present w f) =
      (if 0 ≤ f.acquireFenceFd then [Op.sync_wait f.acquireFenceFd, Op.close f.acquireFenceFd]
        else []) ++
      [Op.hwc2_compat_display_set_power_mode HWC2_POWER_MODE_ON, Op.hwc2_compat_display_validate,
        Op.hwc2_compat_display_accept_changes,
        Op.hwc2_compat_display_set_client_target f.buffer
          (if 0 ≤ f.acquireFenceFd then -1 else f.acquireFenceFd),
        Op.hwc2_compat_display_present p] ++
      (if w.window.lastPresentFence ≠ -1 then
        [Op.sync_wait w.window.lastPresentFence, Op.close w.window.lastPresentFence] else []) ++
      (if p ≠ -1 then [Op.dup p d] else []) ++
      [Op.HWCNativeBufferSetFence f.buffer p] ∧
      (present w f).window.lastPresentFence = d ∧
      (f.presentFence = true → 0 ≤ p) ∧ (f.presentFence = false → p = -1 ∧ d = -1) := by
  cases hp : f.presentFence with
  | true =>
    rw [present_accepted_fence w f h hp _ _ rfl rfl]
    refine ⟨(if 0 ≤ f.acquireFenceFd then w.fds.close f.acquireFenceFd else w.fds).alloc.1, _,
      ?_, rfl, fun _ => FdTable.alloc_fst_nonneg _, fun h => absurd h (by simp)⟩
    simp [callsSince, FdTable.alloc_fst_ne_neg_one]
  | false =>
    rw [present_accepted_no_fence w f h hp _ rfl]
    refine ⟨-1, -1, ?_, rfl, fun h => absurd h (by simp), fun _ => ⟨rfl, rfl⟩⟩
    simp [callsSince]

/-- C1: when validate asks for changes (`numTypes != 0` or `numRequests != 0`),
`present()` returns without calling acceptChanges, setClientTarget or present on
the HAL and leaves `lastPresentFence` as it was; a following `present()` whose
validate is clean calls acceptChanges and, when that succeeds, runs the whole
submit sequence validate, acceptChanges, setClientTarget, present and hands the
present fence to the buffer. -/
theorem present_changes_required_drops_frame (w : World) (f g : Frame)
    (hchg : f.numTypes ≠ 0 ∨ f.numRequests ≠ 0)
    (hgv : g.validateError = HWC2_ERROR_NONE ∨ g.validateError = HWC2_ERROR_HAS_CHANGES)
    (hgn : g.numTypes = 0 ∧ g.numRequests = 0) :
    (∀ op ∈ callsSince w (present w f),
      op ≠ Op.hwc2_compat_display_accept_changes ∧
      (∀ b a, op ≠ Op.hwc2_compat_display_set_client_target b a) ∧
      (∀ p, op ≠ Op.hwc2_compat_display_present p)) ∧
    (present w f).window.lastPresentFence = w.window.lastPresentFence ∧
    Op.hwc2_compat_display_accept_changes ∈ callsSince (present w f) (present (present w f) g) ∧
    (g.acceptError = HWC2_ERROR_NONE →
      ∃ pre a p post, callsSince (present w f) (present (present w f) g) =
        pre ++ [Op.hwc2_compat_display_validate, Op.hwc2_compat_display_accept_changes,
          Op.hwc2_compat_display_set_client_target g.buffer a,
          Op.hwc2_compat_display_present p] ++ post ++ [Op.HWCNativeBufferSetFence g.buffer p]) := by
  have hf : ¬ f.accepted := by
    intro h
    rcases hchg with h1 | h1
    · exact h1 h.2.1
    · exact h1 h.2.2.1
  have hc : ¬ ((f.validateError = HWC2_ERROR_NONE ∨ f.validateError = HWC2_ERROR_HAS_CHANGES) ∧
      f.numTypes = 0 ∧ f.numRequests = 0) := by tauto
  refine ⟨?_, ?_, ?_, ?_⟩
  · rw [present_dropped w f hf]
    intro op hop
    simp only [callsSince, hc, if_false, List.append_nil, List.append_assoc,
      List.drop_left] at hop
    by_cases ha : 0 ≤ f.acquireFenceFd
    · simp only [ha, if_true] at hop
      simp at hop
      rcases hop with h | h | h | h <;> subst h <;> simp
    · simp only [ha, if_false] at hop
      simp at hop
      rcases hop with h | h <;> subst h <;> simp
  · rw [present_dropped w f hf]
  · generalize present w f = w1
    by_cases hga : g.acceptError = HWC2_ERROR_NONE
    · have hg : g.accepted := ⟨hgv, hgn.1, hgn.2, hga⟩
      cases hp : g.presentFence with
      | true =>
        rw [present_accepted_fence w1 g hg hp _ _ rfl rfl]
        simp [callsSince]
      | false =>
        rw [present_accepted_no_fence w1 g hg hp _ rfl]
        simp [callsSince]
    · have hg : ¬ g.accepted := fun h => hga h.2.2.2
      rw [present_dropped w1 g hg]
      simp [callsSince, hgv, hgn.1, hgn.2]
  · intro hga
    generalize present w f = w1
    have hg : g.accepted := ⟨hgv, hgn.1, hgn.2, hga⟩
    obtain ⟨p, d, hcalls, -, -, -⟩ := present_accepted_calls w1 g hg
    refine ⟨(if 0 ≤ g.acquireFenceFd then [Op.sync_wait g.acquireFenceFd, Op.close g.acquireFenceFd]
        else []) ++ [Op.hwc2_compat_display_set_power_mode HWC2_POWER_MODE_ON],
      (if 0 ≤ g.acquireFenceFd then -1 else g.acquireFenceFd), p,
      (if w1.window.lastPresentFence ≠ -1 then
        [Op.sync_wait w1.window.lastPresentFence, Op.close w1.window.lastPresentFence] else []) ++
      (if p ≠ -1 then [Op.dup p d] else []), ?_⟩
    rw [hcalls]
    simp

/-- C1 witness: a frame for which validate asks for one type change, followed
by a clean frame. -/
theorem present_changes_required_drops_frame_witness :
    (({ numTypes := 1 } : Frame).numTypes ≠ 0 ∨ ({ numTypes := 1 } : Frame).numRequests ≠ 0) ∧
    (present exampleWorld { numTypes := 1 }).window.lastPresentFence
      = exampleWorld.window.lastPresentFence ∧
    Op.hwc2_compat_display_accept_changes ∈
      callsSince (present exampleWorld { numTypes := 1 })
        (present (present exampleWorld { numTypes := 1 }) {}) :=
  ⟨by decide,
    (present_changes_required_drops_frame exampleWorld { numTypes := 1 } {}
      (by decide) (by decide) (by decide)).2.1,
    (present_changes_required_drops_frame exampleWorld { numTypes := 1 } {}
      (by decide) (by decide) (by decide)).2.2.1⟩

/-- C2: if validate returns an error other than `HWC2_ERROR_NONE` and
`HWC2_ERROR_HAS_CHANGES`, or validate passes without changes and acceptChanges
returns an error, the frame is dropped: neither setClientTarget nor the HAL
present is called and the surface keeps its fence (`lastPresentFence`); and
whenever validate passes without changes, acceptChanges is called exactly once. -/
theorem present_error_drops_frame (w : World) (f : Frame) :
    (((f.validateError ≠ HWC2_ERROR_NONE ∧ f.validateError ≠ HWC2_ERROR_HAS_CHANGES) ∨
      ((f.validateError = HWC2_ERROR_NONE ∨ f.validateError = HWC2_ERROR_HAS_CHANGES) ∧
        f.numTypes = 0 ∧ f.numRequests = 0 ∧ f.acceptError ≠ HWC2_ERROR_NONE)) →
      (∀ op ∈ callsSince w (present w f),
        (∀ b a, op ≠ Op.hwc2_compat_display_set_client_target b a) ∧
        (∀ p, op ≠ Op.hwc2_compat_display_present p)) ∧
      (present w f).window = w.window) ∧
    (((f.validateError = HWC2_ERROR_NONE ∨ f.validateError = HWC2_ERROR_HAS_CHANGES) ∧
        f.numTypes = 0 ∧ f.numRequests = 0) →
      (callsSince w (present w f)).count Op.hwc2_compat_display_accept_changes = 1) := by
  constructor
  · intro hdrop
    have hf : ¬ f.accepted := by
      intro h
      rcases hdrop with h1 | h1
      · rcases h.1 with h2 | h2
        · exact h1.1 h2
        · exact h1.2 h2
      · exact h1.2.2.2 h.2.2.2
    rw [present_dropped w f hf]
    refine ⟨?_, rfl⟩
    intro op hop
    simp only [callsSince, List.append_assoc, List.drop_left] at hop
    rcases List.mem_append.mp hop with h | h
    · by_cases ha : 0 ≤ f.acquireFenceFd
      · simp only [ha, if_true] at h
        simp at h
        rcases h with h | h <;> subst h <;> simp
      · simp [ha] at h
    · rcases List.mem_append.mp h with h | h
      · simp at h
        rcases h with h | h <;> subst h <;> simp
      · split at h
        · simp at h
          subst h
          simp
        · simp at h
  · intro hv
    by_cases hacc : f.acceptError = HWC2_ERROR_NONE
    · have hf : f.accepted := ⟨hv.1, hv.2.1, hv.2.2, hacc⟩
      obtain ⟨p, d, hcalls, -, -, -⟩ := present_accepted_calls w f hf
      rw [hcalls]
      by_cases ha : 0 ≤ f.acquireFenceFd <;> by_cases hl : w.window.lastPresentFence = -1 <;>
        by_cases hp : p = -1 <;>
        simp [ha, hl, hp, List.count_cons, List.count_append]
    · have hf : ¬ f.accepted := fun h => hacc h.2.2.2
      rw [present_dropped w f hf]
      by_cases ha : 0 ≤ f.acquireFenceFd <;>
        simp [callsSince, ha, hv, List.count_cons, List.count_append]

/-- C2 witness: validate fails with `HWC2_ERROR_BAD_DISPLAY`; and a frame that
validates cleanly while acceptChanges fails with `HWC2_ERROR_NOT_VALIDATED`. -/
theorem present_error_drops_frame_witness :
    ((present exampleWorld { validateError := HWC2_ERROR_BAD_DISPLAY }).window = exampleWorld.window) ∧
    (callsSince exampleWorld
      (present exampleWorld { acceptError := HWC2_ERROR_NOT_VALIDATED })).count
        Op.hwc2_compat_display_accept_changes = 1 :=
  ⟨((present_error_drops_frame exampleWorld { validateError := HWC2_ERROR_BAD_DISPLAY }).1
      (Or.inl (by decide))).2,
    (present_error_drops_frame exampleWorld { acceptError := HWC2_ERROR_NOT_VALIDATED }).2
      (by decide)⟩

/-! ## Fence descriptors across `present()` calls -/

/-- A frame that is accepted and gets a present fence, on a world in which the
surface and the buffer own their fences: the descriptors afterwards. -/
theorem present_owned_fence (w : World) (f : Frame) (hw : w.fencesOwned) (ha : acquireOwned w f)
    (h : f.accepted) (hp : f.presentFence = true) :
    ∃ pf d : Int,
      callsSince w (present w f) =
        (if 0 ≤ f.acquireFenceFd then [Op.sync_wait f.acquireFenceFd, Op.close f.acquireFenceFd]
          else []) ++
        [Op.hwc2_compat_display_set_power_mode HWC2_POWER_MODE_ON, Op.hwc2_compat_display_validate,
          Op.hwc2_compat_display_accept_changes,
          Op.hwc2_compat_display_set_client_target f.buffer
            (if 0 ≤ f.acquireFenceFd then -1 else f.acquireFenceFd),
          Op.hwc2_compat_display_present pf] ++
        (if w.window.lastPresentFence ≠ -1 then
          [Op.sync_wait w.window.lastPresentFence, Op.close w.window.lastPresentFence] else []) ++
        [Op.dup pf d, Op.HWCNativeBufferSetFence f.buffer pf] ∧
      (present w f).window.lastPresentFence = d ∧ 0 ≤ pf ∧ 0 ≤ d ∧ pf ≠ d ∧
      (present w f).fencesOwned ∧
      (present w f).fds.ebadf = w.fds.ebadf ∧
      (present w f).fds.nextSerial = w.fds.nextSerial + 2 ∧
      (∀ e, e ∈ (present w f).fds.entries ↔
        e = (d, w.fds.nextSerial + 1) ∨ e = (pf, w.fds.nextSerial) ∨
        (e ∈ w.fds.entries ∧ ¬ (0 ≤ f.acquireFenceFd ∧ e.1 = f.acquireFenceFd) ∧
          ¬ (w.window.lastPresentFence ≠ -1 ∧ e.1 = w.window.lastPresentFence))) ∧
      (present w f).fds.closedLog =
        w.fds.closedLog ++
          (if 0 ≤ f.acquireFenceFd then (w.fds.serialOf f.acquireFenceFd).toList else []) ++
          (if w.window.lastPresentFence ≠ -1 then (w.fds.serialOf w.window.lastPresentFence).toList
            else []) ∧
      (present w f).fds.serialOf d = some (w.fds.nextSerial + 1) ∧
      (present w f).fds.serialOf pf = some w.fds.nextSerial := by
  obtain ⟨hwf, hlast⟩ := hw
  have hacq : 0 ≤ f.acquireFenceFd →
      w.fds.isOpen f.acquireFenceFd = true ∧ f.acquireFenceFd ≠ w.window.lastPresentFence := by
    intro h0
    rcases ha with hneg | hopen
    · omega
    · exact hopen
  obtain ⟨g1wf, g1b, g1n, g1e, g1l, -, g1s, g1o⟩ :=
    FdTable.guarded_close_spec w.fds (0 ≤ f.acquireFenceFd) f.acquireFenceFd hwf
      (fun h0 => (hacq h0).1)
  generalize ht1 : (if 0 ≤ f.acquireFenceFd then w.fds.close f.acquireFenceFd else w.fds) = t1
    at g1wf g1b g1n g1e g1l g1s g1o
  -- the surface fence survives the acquire step
  have hnotacq : ¬ (0 ≤ f.acquireFenceFd ∧ w.window.lastPresentFence = f.acquireFenceFd) :=
    fun hh => (hacq hh.1).2 hh.2.symm
  have hl1 : w.window.lastPresentFence ≠ -1 → t1.isOpen w.window.lastPresentFence = true := by
    intro hne
    rcases hlast with h1 | h1
    · exact absurd h1 hne
    · exact (g1o _).mpr ⟨h1, hnotacq⟩
  have hl2 : w.window.lastPresentFence ≠ -1 → t1.alloc.2.isOpen w.window.lastPresentFence = true :=
    fun hne => (FdTable.isOpen_alloc t1 _).mpr (Or.inr (hl1 hne))
  obtain ⟨g3wf, g3b, g3n, g3e, g3l, -, g3s, g3o⟩ :=
    FdTable.guarded_close_spec t1.alloc.2 (w.window.lastPresentFence ≠ -1) w.window.lastPresentFence
      (FdTable.alloc_wf t1 g1wf) hl2
  generalize ht3 : (if w.window.lastPresentFence ≠ -1 then
      t1.alloc.2.close w.window.lastPresentFence else t1.alloc.2) = t3
    at g3wf g3b g3n g3e g3l g3s g3o
  have hpfne : ¬ (w.window.lastPresentFence ≠ -1 ∧ t1.alloc.1 = w.window.lastPresentFence) :=
    fun hh => FdTable.alloc_fst_ne_of_isOpen t1 _ (hl1 hh.1) hh.2
  have hpf3 : t3.isOpen t1.alloc.1 = true :=
    (g3o _).mpr ⟨FdTable.isOpen_alloc_self t1, hpfne⟩
  have hdup : t3.dup t1.alloc.1 = t3.alloc := FdTable.dup_of_isOpen t3 _ hpf3
  have hpres := present_accepted_fence w f h hp t1 t3 ht1.symm ht3.symm
  rw [hdup] at hpres
  refine ⟨t1.alloc.1, t3.alloc.1, ?_, ?_, FdTable.alloc_fst_nonneg t1, FdTable.alloc_fst_nonneg t3,
    ?_, ?_, ?_, ?_, ?_, ?_, ?_, ?_⟩
  · rw [hpres]
    simp [callsSince]
  · rw [hpres]
  · exact (FdTable.alloc_fst_ne_of_isOpen t3 _ hpf3).symm
  · rw [hpres]
    exact ⟨FdTable.alloc_wf t3 g3wf, Or.inr (FdTable.isOpen_alloc_self t3)⟩
  · rw [hpres]
    show t3.alloc.2.ebadf = w.fds.ebadf
    rw [(FdTable.alloc_spec t3).2.2.1, g3b, (FdTable.alloc_spec t1).2.2.1, g1b]
  · rw [hpres]
    show t3.alloc.2.nextSerial = w.fds.nextSerial + 2
    rw [(FdTable.alloc_spec t3).2.2.2, g3n, (FdTable.alloc_spec t1).2.2.2, g1n]
  · intro e
    rw [hpres]
    show e ∈ t3.alloc.2.entries ↔ _
    rw [(FdTable.alloc_spec t3).1, List.mem_cons, g3e, (FdTable.alloc_spec t1).1, List.mem_cons, g1e,
      g3n, (FdTable.alloc_spec t1).2.2.2, g1n]
    constructor
    · rintro (h1 | ⟨h1 | ⟨h1, h2⟩, h3⟩)
      · exact Or.inl h1
      · exact Or.inr (Or.inl h1)
      · exact Or.inr (Or.inr ⟨h1, h2, h3⟩)
    · rintro (h1 | h1 | ⟨h1, h2, h3⟩)
      · exact Or.inl h1
      · refine Or.inr ⟨Or.inl h1, ?_⟩
        rw [h1]
        exact hpfne
      · exact Or.inr ⟨Or.inr ⟨h1, h2⟩, h3⟩
  · rw [hpres]
    show t3.alloc.2.closedLog = _
    rw [(FdTable.alloc_spec t3).2.1, g3l, (FdTable.alloc_spec t1).2.1, g1l]
    by_cases hne : w.window.lastPresentFence ≠ -1
    · rw [if_pos hne, if_pos hne, FdTable.serialOf_alloc_of_isOpen t1 _ (hl1 hne),
        g1s _ hnotacq]
    · rw [if_neg hne, if_neg hne]
  · rw [hpres]
    show t3.alloc.2.serialOf t3.alloc.1 = _
    rw [FdTable.serialOf_alloc_self, g3n, (FdTable.alloc_spec t1).2.2.2, g1n]
  · rw [hpres]
    show t3.alloc.2.serialOf t1.alloc.1 = _
    rw [FdTable.serialOf_alloc_of_isOpen t3 _ hpf3, g3s _ hpfne, FdTable.serialOf_alloc_self, g1n]

/-- A dropped frame on a world in which the surface and the buffer own their
fences: only the acquire fence is closed. -/
theorem present_owned_dropped (w : World) (f : Frame) (hw : w.fencesOwned) (ha : acquireOwned w f)
    (h : ¬ f.accepted) :
    (present w f).window = w.window ∧
    (present w f).fencesOwned ∧
    (present w f).fds.ebadf = w.fds.ebadf ∧
    (∀ e, e ∈ (present w f).fds.entries ↔
      e ∈ w.fds.entries ∧ ¬ (0 ≤ f.acquireFenceFd ∧ e.1 = f.acquireFenceFd)) ∧
    (present w f).fds.closedLog =
      w.fds.closedLog ++
        (if 0 ≤ f.acquireFenceFd then (w.fds.serialOf f.acquireFenceFd).toList else []) ∧
    (present w f).fds.serialOf w.window.lastPresentFence
      = w.fds.serialOf w.window.lastPresentFence := by
  obtain ⟨hwf, hlast⟩ := hw
  have hacq : 0 ≤ f.acquireFenceFd →
      w.fds.isOpen f.acquireFenceFd = true ∧ f.acquireFenceFd ≠ w.window.lastPresentFence := by
    intro h0
    rcases ha with hneg | hopen
    · omega
    · exact hopen
  have hnotacq : ¬ (0 ≤ f.acquireFenceFd ∧ w.window.lastPresentFence = f.acquireFenceFd) :=
    fun hh => (hacq hh.1).2 hh.2.symm
  obtain ⟨g1wf, g1b, -, g1e, g1l, -, g1s, g1o⟩ :=
    FdTable.guarded_close_spec w.fds (0 ≤ f.acquireFenceFd) f.acquireFenceFd hwf
      (fun h0 => (hacq h0).1)
  rw [present_dropped w f h]
  refine ⟨rfl, ⟨g1wf, ?_⟩, g1b, g1e, g1l, g1s _ hnotacq⟩
  rcases hlast with h1 | h1
  · exact Or.inl h1
  · exact Or.inr ((g1o _).mpr ⟨h1, hnotacq⟩)

/-- An accepted frame for which the HAL gives no present fence, on a world in
which the surface and the buffer own their fences. -/
theorem present_owned_no_fence (w : World) (f : Frame) (hw : w.fencesOwned)
    (ha : acquireOwned w f) (h : f.accepted) (hp : f.presentFence = false) :
    (present w f).window.lastPresentFence = -1 ∧
    (present w f).fencesOwned ∧
    (present w f).fds.ebadf = w.fds.ebadf ∧
    (∀ e, e ∈ (present w f).fds.entries ↔
      e ∈ w.fds.entries ∧ ¬ (0 ≤ f.acquireFenceFd ∧ e.1 = f.acquireFenceFd) ∧
        ¬ (w.window.lastPresentFence ≠ -1 ∧ e.1 = w.window.lastPresentFence)) ∧
    (present w f).fds.closedLog =
      w.fds.closedLog ++
        (if 0 ≤ f.acquireFenceFd then (w.fds.serialOf f.acquireFenceFd).toList else []) ++
        (if w.window.lastPresentFence ≠ -1 then (w.fds.serialOf w.window.lastPresentFence).toList
          else []) := by
  obtain ⟨hwf, hlast⟩ := hw
  have hacq : 0 ≤ f.acquireFenceFd →
      w.fds.isOpen f.acquireFenceFd = true ∧ f.acquireFenceFd ≠ w.window.lastPresentFence := by
    intro h0
    rcases ha with hneg | hopen
    · omega
    · exact hopen
  have hnotacq : ¬ (0 ≤ f.acquireFenceFd ∧ w.window.lastPresentFence = f.acquireFenceFd) :=
    fun hh => (hacq hh.1).2 hh.2.symm
  obtain ⟨g1wf, g1b, -, g1e, g1l, -, g1s, g1o⟩ :=
    FdTable.guarded_close_spec w.fds (0 ≤ f.acquireFenceFd) f.acquireFenceFd hwf
      (fun h0 => (hacq h0).1)
  generalize ht1 : (if 0 ≤ f.acquireFenceFd then w.fds.close f.acquireFenceFd else w.fds) = t1
    at g1wf g1b g1e g1l g1s g1o
  have hl1 : w.window.lastPresentFence ≠ -1 → t1.isOpen w.window.lastPresentFence = true := by
    intro hne
    rcases hlast with h1 | h1
    · exact absurd h1 hne
    · exact (g1o _).mpr ⟨h1, hnotacq⟩
  obtain ⟨g3wf, g3b, -, g3e, g3l, -, -, -⟩ :=
    FdTable.guarded_close_spec t1 (w.window.lastPresentFence ≠ -1) w.window.lastPresentFence g1wf hl1
  rw [present_accepted_no_fence w f h hp t1 ht1.symm]
  refine ⟨rfl, ⟨g3wf, Or.inl rfl⟩, ?_, ?_, ?_⟩
  · show (if w.window.lastPresentFence ≠ -1 then t1.close w.window.lastPresentFence else t1).ebadf = _
    rw [g3b, g1b]
  · intro e
    show e ∈ (if w.window.lastPresentFence ≠ -1 then t1.close w.window.lastPresentFence
      else t1).entries ↔ _
    rw [g3e, g1e, and_assoc]
  · show (if w.window.lastPresentFence ≠ -1 then t1.close w.window.lastPresentFence
      else t1).closedLog = _
    rw [g3l, g1l, g1s _ hnotacq]

/-- In a consistent table a serial in the close log was closed once and is no
longer open. -/
theorem FdTable.closed_once (t : FdTable) (hwf : t.WF) (s : Nat) (hs : s ∈ t.closedLog) :
    t.closedLog.count s = 1 ∧ s ∉ t.serials :=
  ⟨List.count_eq_one_of_mem hwf.2.2.1 hs, hwf.2.2.2.2.2 s hs⟩

/-- Every path of `present()`, on a world in which the surface and the buffer
own their fences: ownership is kept, no call fails with EBADF, and the close
log grows by the acquire fence and, on an accepted frame, the fence the surface
held. -/
theorem present_owned (w : World) (f : Frame) (hw : w.fencesOwned) (ha : acquireOwned w f) :
    (present w f).fencesOwned ∧
    (present w f).fds.ebadf = w.fds.ebadf ∧
    (present w f).fds.closedLog =
      w.fds.closedLog ++
        (if 0 ≤ f.acquireFenceFd then (w.fds.serialOf f.acquireFenceFd).toList else []) ++
        (if f.accepted ∧ w.window.lastPresentFence ≠ -1 then
          (w.fds.serialOf w.window.lastPresentFence).toList else []) := by
  by_cases h : f.accepted
  · cases hp : f.presentFence with
    | true =>
      obtain ⟨pf, d, -, -, -, -, -, ho, hb, -, -, hl, -, -⟩ := present_owned_fence w f hw ha h hp
      refine ⟨ho, hb, ?_⟩
      rw [hl]
      simp [h]
    | false =>
      obtain ⟨-, ho, hb, -, hl⟩ := present_owned_no_fence w f hw ha h hp
      refine ⟨ho, hb, ?_⟩
      rw [hl]
      simp [h]
  · obtain ⟨-, ho, hb, -, hl, -⟩ := present_owned_dropped w f hw ha h
    refine ⟨ho, hb, ?_⟩
    rw [hl]
    simp [h]

/-- C4: on every exit path of `present()` (presented, validate error, changes
required, acceptChanges failure), for a buffer that owns its acquire fence and
a surface that owns `lastPresentFence`: the acquire fence, when it is >= 0, is
closed exactly once and is not open afterwards; setClientTarget never
receives a descriptor (its fence argument is negative, and is -1 whenever the
buffer gave a descriptor or -1); no `close` hits a descriptor that is not open
and no descriptor is closed twice; and every descriptor open on return has an
owner: it was open before the call, or it is the surface's `lastPresentFence`,
or it is the present fence handed to the buffer by `HWCNativeBufferSetFence`;
the fence the surface held before is still held or has been closed. -/
theorem present_fence_discipline (w : World) (f : Frame) (hw : w.fencesOwned)
    (ha : acquireOwned w f) :
    (0 ≤ f.acquireFenceFd →
      ∃ s, w.fds.serialOf f.acquireFenceFd = some s ∧
        (present w f).fds.closedLog.count s = 1 ∧ s ∉ (present w f).fds.serials) ∧
    (∀ b x, Op.hwc2_compat_display_set_client_target b x ∈ callsSince w (present w f) →
      x < 0 ∧ (-1 ≤ f.acquireFenceFd → x = -1)) ∧
    (present w f).fds.ebadf = w.fds.ebadf ∧
    (present w f).fds.closedLog.Nodup ∧
    (present w f).fencesOwned ∧
    (∀ e ∈ (present w f).fds.entries,
      e ∈ w.fds.entries ∨ e.1 = (present w f).window.lastPresentFence ∨
      Op.HWCNativeBufferSetFence f.buffer e.1 ∈ callsSince w (present w f)) ∧
    (w.window.lastPresentFence ≠ -1 →
      ∃ s, w.fds.serialOf w.window.lastPresentFence = some s ∧
        (((present w f).window.lastPresentFence = w.window.lastPresentFence ∧
            (present w f).fds.serialOf w.window.lastPresentFence = some s) ∨
          ((present w f).fds.closedLog.count s = 1 ∧ s ∉ (present w f).fds.serials))) := by
  obtain ⟨ho, hb, hl⟩ := present_owned w f hw ha
  refine ⟨?_, ?_, hb, ho.1.2.2.1, ho, ?_, ?_⟩
  · intro h0
    have hopen : w.fds.isOpen f.acquireFenceFd = true := by
      rcases ha with hneg | hopen
      · omega
      · exact hopen.1
    obtain ⟨s, hs⟩ := FdTable.serialOf_eq_some_of_isOpen _ _ hopen
    refine ⟨s, hs, ?_⟩
    apply FdTable.closed_once _ ho.1
    rw [hl, if_pos h0, hs]
    simp
  · intro b x hx
    by_cases h : f.accepted
    · obtain ⟨p, d, hcalls, -, -, -⟩ := present_accepted_calls w f h
      rw [hcalls] at hx
      have hx' : x = if 0 ≤ f.acquireFenceFd then -1 else f.acquireFenceFd := by
        by_cases h0 : 0 ≤ f.acquireFenceFd <;> by_cases h1 : w.window.lastPresentFence = -1 <;>
          by_cases h2 : p = -1 <;> simp [h0, h1, h2] at hx <;> simp [h0, hx]
      rw [hx']
      by_cases h0 : 0 ≤ f.acquireFenceFd
      · simp [h0]
      · simp only [h0, if_false]
        constructor
        · omega
        · intro h1
          omega
    · rw [present_dropped w f h] at hx
      exfalso
      by_cases h0 : 0 ≤ f.acquireFenceFd <;>
        by_cases hc : (f.validateError = HWC2_ERROR_NONE ∨ f.validateError = HWC2_ERROR_HAS_CHANGES) ∧
          f.numTypes = 0 ∧ f.numRequests = 0 <;>
        simp [callsSince, h0, hc] at hx
  · intro e he
    by_cases h : f.accepted
    · cases hp : f.presentFence with
      | true =>
        obtain ⟨pf, d, hcalls, hd, -, -, -, -, -, -, hent, -, -, -⟩ :=
          present_owned_fence w f hw ha h hp
        rcases (hent e).mp he with h1 | h1 | h1
        · exact Or.inr (Or.inl (by rw [h1, hd]))
        · refine Or.inr (Or.inr ?_)
          rw [hcalls, h1]
          simp
        · exact Or.inl h1.1
      | false =>
        obtain ⟨-, -, -, hent, -⟩ := present_owned_no_fence w f hw ha h hp
        exact Or.inl ((hent e).mp he).1
    · obtain ⟨-, -, -, hent, -, -⟩ := present_owned_dropped w f hw ha h
      exact Or.inl ((hent e).mp he).1
  · intro hne
    have hopen : w.fds.isOpen w.window.lastPresentFence = true := by
      rcases hw.2 with h1 | h1
      · exact absurd h1 hne
      · exact h1
    obtain ⟨s, hs⟩ := FdTable.serialOf_eq_some_of_isOpen _ _ hopen
    refine ⟨s, hs, ?_⟩
    by_cases h : f.accepted
    · right
      apply FdTable.closed_once _ ho.1
      rw [hl]
      apply List.mem_append_right
      rw [if_pos (And.intro h hne), hs]
      simp
    · left
      obtain ⟨hwin, -, -, -, -, hser⟩ := present_owned_dropped w f hw ha h
      exact ⟨by rw [hwin], by rw [hser, hs]⟩

/-- C4 witness: the buffer hands in descriptor 7 as acquire fence; after
`present()` its serial 3 is in the close log once. -/
theorem present_fence_discipline_witness :
    exampleWorld.fencesOwned ∧ acquireOwned exampleWorld { acquireFenceFd := 7 } ∧
    (∃ s, exampleWorld.fds.serialOf 7 = some s ∧
      (present exampleWorld { acquireFenceFd := 7 }).fds.closedLog.count s = 1 ∧
      s ∉ (present exampleWorld { acquireFenceFd := 7 }).fds.serials) ∧
    (present exampleWorld { acquireFenceFd := 7 }).fds.ebadf = exampleWorld.fds.ebadf :=
  ⟨by decide, by decide,
    (present_fence_discipline exampleWorld { acquireFenceFd := 7 } (by decide) (by decide)).1
      (by decide),
    (present_fence_discipline exampleWorld { acquireFenceFd := 7 } (by decide) (by decide)).2.2.1⟩

/-! ## Runs of accepted frames -/

theorem presentAll_append (w : World) (xs ys : List Frame) :
    presentAll w (xs ++ ys) = presentAll (presentAll w xs) ys := by
  induction xs generalizing w with
  | nil => rfl
  | cons x xs ih => exact ih (present w x)

theorem acquireOwnedAll_append (w : World) (xs ys : List Frame) :
    acquireOwnedAll w (xs ++ ys) ↔ acquireOwnedAll w xs ∧ acquireOwnedAll (presentAll w xs) ys := by
  induction xs generalizing w with
  | nil => simp [acquireOwnedAll, presentAll]
  | cons x xs ih =>
    show acquireOwned w x ∧ acquireOwnedAll (present w x) (xs ++ ys) ↔
      (acquireOwned w x ∧ acquireOwnedAll (present w x) xs) ∧
        acquireOwnedAll (presentAll (present w x) xs) ys
    rw [ih, and_assoc]

/-- One accepted frame with a present fence, seen from outside. -/
theorem present_owned_fence_summary (w : World) (f : Frame) (hw : w.fencesOwned)
    (ha : acquireOwned w f) (h : f.accepted ∧ f.presentFence = true) :
    ∃ l pf, (present w f).trace = w.trace ++ l ∧
      presentFences l = [pf] ∧ dupCalls l = [(pf, (present w f).window.lastPresentFence)] ∧
      0 ≤ pf ∧ 0 ≤ (present w f).window.lastPresentFence ∧
      (present w f).fencesOwned ∧ (present w f).fds.ebadf = w.fds.ebadf ∧
      (present w f).fds.nextSerial = w.fds.nextSerial + 2 ∧
      (∃ cl, (present w f).fds.closedLog = w.fds.closedLog ++ cl) ∧
      (w.window.lastPresentFence ≠ -1 → ∀ s, w.fds.serialOf w.window.lastPresentFence = some s →
        s ∈ (present w f).fds.closedLog) := by
  obtain ⟨pf, d, hcalls, hd, hpf, hd0, -, ho, hb, hn, -, hl, -, -⟩ :=
    present_owned_fence w f hw ha h.1 h.2
  have htr : (present w f).trace = w.trace ++ callsSince w (present w f) := by
    rw [present_accepted_fence w f h.1 h.2 _ _ rfl rfl]
    simp [callsSince]
  refine ⟨callsSince w (present w f), pf, htr, ?_, ?_, hpf, by rw [hd]; exact hd0, ho, hb, hn,
    ⟨_, by rw [hl, List.append_assoc]⟩, ?_⟩
  · rw [hcalls]
    by_cases h0 : 0 ≤ f.acquireFenceFd <;> by_cases h1 : w.window.lastPresentFence = -1 <;>
      simp [presentFences, h0, h1]
  · rw [hcalls, hd]
    by_cases h0 : 0 ≤ f.acquireFenceFd <;> by_cases h1 : w.window.lastPresentFence = -1 <;>
      simp [dupCalls, h0, h1]
  · intro hne s hs
    rw [hl]
    apply List.mem_append_right
    rw [if_pos hne, hs]
    simp

/-- A run of accepted frames, each with a present fence, on a world in which
the surface and the buffers own their fences. -/
theorem presentAll_owned (frames : List Frame) :
    ∀ w : World, w.fencesOwned → acquireOwnedAll w frames →
      (∀ f ∈ frames, f.accepted ∧ f.presentFence = true) →
      ∃ l, (presentAll w frames).trace = w.trace ++ l ∧
        (presentFences l).length = frames.length ∧ (∀ p ∈ presentFences l, 0 ≤ p) ∧
        (presentAll w frames).fencesOwned ∧
        (presentAll w frames).fds.ebadf = w.fds.ebadf ∧
        (presentAll w frames).fds.nextSerial = w.fds.nextSerial + 2 * frames.length ∧
        (∃ cl, (presentAll w frames).fds.closedLog = w.fds.closedLog ++ cl) ∧
        (frames ≠ [] →
          0 ≤ (presentAll w frames).window.lastPresentFence ∧
          (∃ pf, (presentFences l).getLast? = some pf ∧
            (dupCalls l).getLast? = some (pf, (presentAll w frames).window.lastPresentFence)) ∧
          (w.window.lastPresentFence ≠ -1 →
            ∀ s, w.fds.serialOf w.window.lastPresentFence = some s →
              s ∈ (presentAll w frames).fds.closedLog)) := by
  induction frames with
  | nil =>
    intro w hw _ _
    exact ⟨[], by simp [presentAll], rfl, by simp [presentFences], hw, rfl, rfl, ⟨[], by simp [presentAll]⟩,
      fun h => absurd rfl h⟩
  | cons f fs ih =>
    intro w hw ha hacc
    obtain ⟨ha1, ha2⟩ := ha
    obtain ⟨l1, pf1, htr1, hpf1, hdup1, hpf0, hd0, ho1, hb1, hn1, ⟨cl1, hcl1⟩, hold1⟩ :=
      present_owned_fence_summary w f hw ha1 (hacc f (List.mem_cons_self _ _))
    obtain ⟨l2, htr2, hlen2, hpos2, ho2, hb2, hn2, ⟨cl2, hcl2⟩, hne2⟩ :=
      ih (present w f) ho1 ha2 (fun g hg => hacc g (List.mem_cons_of_mem _ hg))
    refine ⟨l1 ++ l2, ?_, ?_, ?_, ho2, ?_, ?_, ⟨cl1 ++ cl2, ?_⟩, ?_⟩
    · show (presentAll (present w f) fs).trace = _
      rw [htr2, htr1, List.append_assoc]
    · simp only [presentFences, List.filterMap_append, List.length_append, List.length_cons]
      have h1 : (presentFences l1).length = 1 := by rw [hpf1]; rfl
      have h2 := hlen2
      simp only [presentFences] at h1 h2
      omega
    · intro p hp
      simp only [presentFences, List.filterMap_append, List.mem_append] at hp
      rcases hp with h | h
      · have : p ∈ presentFences l1 := h
        rw [hpf1] at this
        have hp1 : p = pf1 := by simpa using this
        rw [hp1]
        exact hpf0
      · exact hpos2 p h
    · show (presentAll (present w f) fs).fds.ebadf = _
      rw [hb2, hb1]
    · show (presentAll (present w f) fs).fds.nextSerial = _
      rw [hn2, hn1, List.length_cons]
      omega
    · show (presentAll (present w f) fs).fds.closedLog = _
      rw [hcl2, hcl1, List.append_assoc]
    · intro _
      show 0 ≤ (presentAll (present w f) fs).window.lastPresentFence ∧
        (∃ pf, (presentFences (l1 ++ l2)).getLast? = some pf ∧
          (dupCalls (l1 ++ l2)).getLast?
            = some (pf, (presentAll (present w f) fs).window.lastPresentFence)) ∧
        (w.window.lastPresentFence ≠ -1 →
          ∀ s, w.fds.serialOf w.window.lastPresentFence = some s →
            s ∈ (presentAll (present w f) fs).fds.closedLog)
      have happ1 : presentFences (l1 ++ l2) = presentFences l1 ++ presentFences l2 := by
        simp [presentFences]
      have happ2 : dupCalls (l1 ++ l2) = dupCalls l1 ++ dupCalls l2 := by
        simp [dupCalls]
      refine ⟨?_, ?_, ?_⟩
      · cases fs with
        | nil => exact hd0
        | cons g gs => exact (hne2 (List.cons_ne_nil _ _)).1
      · cases fs with
        | nil =>
          have hl2 : l2 = [] := by
            have h := htr2
            simp only [presentAll] at h
            exact List.append_cancel_left (by rw [List.append_nil]; exact h.symm)
          refine ⟨pf1, ?_, ?_⟩
          · rw [happ1, hpf1, hl2]
            rfl
          · rw [happ2, hdup1, hl2]
            rfl
        | cons g gs =>
          obtain ⟨-, ⟨pf, hp1, hp2⟩, -⟩ := hne2 (List.cons_ne_nil _ _)
          refine ⟨pf, ?_, ?_⟩
          · rw [happ1, List.getLast?_append, hp1]
            rfl
          · rw [happ2, List.getLast?_append, hp2]
            rfl
      · intro hne s hs
        rw [hcl2]
        exact List.mem_append_left _ (hold1 hne s hs)

/-- C3: after N >= 1 consecutive accepted `present()` calls in each of which
the HAL returns a new present fence (buffers and surface owning their fences),
exactly N present fences were produced; the surface holds one open descriptor,
`lastPresentFence`, returned by the last `dup` call, which duplicated the most
recent present fence; the duplicate the surface held after each earlier frame
has been closed exactly once and is no longer open; no `close` or `dup` was
made on a descriptor that was not open; and the destructor closes the one
fence still held, once. -/
theorem present_fence_run (w : World) (frames : List Frame)
    (hw : w.fencesOwned) (ha : acquireOwnedAll w frames)
    (hacc : ∀ f ∈ frames, f.accepted ∧ f.presentFence = true)
    (hN : 1 ≤ frames.length) :
    (presentFences (callsSince w (presentAll w frames))).length = frames.length ∧
    (∀ p ∈ presentFences (callsSince w (presentAll w frames)), 0 ≤ p) ∧
    (∃ pf, (presentFences (callsSince w (presentAll w frames))).getLast? = some pf ∧
      (dupCalls (callsSince w (presentAll w frames))).getLast?
        = some (pf, (presentAll w frames).window.lastPresentFence)) ∧
    (presentAll w frames).fds.isOpen (presentAll w frames).window.lastPresentFence = true ∧
    (∀ k, 1 ≤ k → k < frames.length →
      ∃ s, (presentAll w (frames.take k)).fds.serialOf
            (presentAll w (frames.take k)).window.lastPresentFence = some s ∧
        (presentAll w frames).fds.closedLog.count s = 1 ∧
        s ∉ (presentAll w frames).fds.serials) ∧
    (presentAll w frames).fds.ebadf = w.fds.ebadf ∧
    (∃ s, (presentAll w frames).fds.serialOf (presentAll w frames).window.lastPresentFence = some s ∧
      (destroy (presentAll w frames)).fds.closedLog.count s = 1 ∧
      s ∉ (destroy (presentAll w frames)).fds.serials ∧
      (destroy (presentAll w frames)).fds.ebadf = w.fds.ebadf) := by
  have hne : frames ≠ [] := by
    intro h
    rw [h] at hN
    simp at hN
  obtain ⟨l, htr, hlen, hpos, ho, hb, -, -, hlast⟩ := presentAll_owned frames w hw ha hacc
  obtain ⟨hd0, hpf, -⟩ := hlast hne
  have hcalls : callsSince w (presentAll w frames) = l := callsSince_append _ _ _ htr
  rw [hcalls]
  have hopenN : (presentAll w frames).fds.isOpen (presentAll w frames).window.lastPresentFence
      = true := by
    rcases ho.2 with h | h
    · omega
    · exact h
  refine ⟨hlen, hpos, hpf, hopenN, ?_, hb, ?_⟩
  rotate_left
  · obtain ⟨s, hs, -, hlog, hbad, -, -, -, -⟩ :=
      FdTable.close_open_spec _ _ ho.1 hopenN
    have hdes : destroy (presentAll w frames)
        = (presentAll w frames).close (presentAll w frames).window.lastPresentFence := by
      have hne1 : (presentAll w frames).window.lastPresentFence ≠ -1 := by omega
      simp [destroy, hne1]
    have hwf : (destroy (presentAll w frames)).fds.WF := by
      rw [hdes]
      exact FdTable.close_wf _ _ ho.1
    have hmem : s ∈ (destroy (presentAll w frames)).fds.closedLog := by
      rw [hdes]
      show s ∈ ((presentAll w frames).fds.close _).closedLog
      rw [hlog]
      simp
    refine ⟨s, hs, (FdTable.closed_once _ hwf s hmem).1, (FdTable.closed_once _ hwf s hmem).2, ?_⟩
    rw [hdes]
    show ((presentAll w frames).fds.close _).ebadf = _
    rw [hbad, hb]
  · intro k hk1 hk2
    have hsplit : frames = frames.take k ++ frames.drop k := (List.take_append_drop k frames).symm
    have ha' : acquireOwnedAll w (frames.take k ++ frames.drop k) := by
      rw [← hsplit]
      exact ha
    obtain ⟨hak, had⟩ := (acquireOwnedAll_append w _ _).mp ha'
    have hacck : ∀ f ∈ frames.take k, f.accepted ∧ f.presentFence = true :=
      fun f hf => hacc f (List.mem_of_mem_take hf)
    have haccd : ∀ f ∈ frames.drop k, f.accepted ∧ f.presentFence = true :=
      fun f hf => hacc f (List.mem_of_mem_drop hf)
    have htake : frames.take k ≠ [] := by
      intro h
      have := congrArg List.length h
      rw [List.length_take, List.length_nil] at this
      omega
    have hdrop : frames.drop k ≠ [] := by
      intro h
      have := congrArg List.length h
      rw [List.length_drop, List.length_nil] at this
      omega
    obtain ⟨lk, -, -, -, hok, -, -, -, hlastk⟩ := presentAll_owned (frames.take k) w hw hak hacck
    obtain ⟨hdk, -, -⟩ := hlastk htake
    have hnek : (presentAll w (frames.take k)).window.lastPresentFence ≠ -1 := by omega
    have hopen : (presentAll w (frames.take k)).fds.isOpen
        (presentAll w (frames.take k)).window.lastPresentFence = true := by
      rcases hok.2 with h | h
      · exact absurd h hnek
      · exact h
    obtain ⟨s, hs⟩ := FdTable.serialOf_eq_some_of_isOpen _ _ hopen
    obtain ⟨ld, -, -, -, -, -, -, -, hlastd⟩ :=
      presentAll_owned (frames.drop k) (presentAll w (frames.take k)) hok had haccd
    have hmem := (hlastd hdrop).2.2 hnek s hs
    rw [← presentAll_append, ← hsplit] at hmem
    exact ⟨s, hs, FdTable.closed_once _ ho.1 s hmem⟩

/-- C3 witness: three frames; the first hands in buffer fence 7, the second the
present fence 3 the buffer got in the first frame, the third no fence. -/
theorem present_fence_run_witness :
    exampleWorld.fencesOwned ∧
    acquireOwnedAll exampleWorld [{ acquireFenceFd := 7 }, { acquireFenceFd := 3 }, {}] ∧
    (presentFences (callsSince exampleWorld
      (presentAll exampleWorld [{ acquireFenceFd := 7 }, { acquireFenceFd := 3 }, {}]))).length = 3 ∧
    (presentAll exampleWorld [{ acquireFenceFd := 7 }, { acquireFenceFd := 3 }, {}]).fds.ebadf
      = exampleWorld.fds.ebadf :=
  ⟨by decide, by decide,
    (present_fence_run exampleWorld [{ acquireFenceFd := 7 }, { acquireFenceFd := 3 }, {}]
      (by decide) (by decide) (by decide) (by decide)).1,
    (present_fence_run exampleWorld [{ acquireFenceFd := 7 }, { acquireFenceFd := 3 }, {}]
      (by decide) (by decide) (by decide) (by decide)).2.2.2.2.2.1⟩

/-- C5 as stated fails: in the second of two presented frames the only wait
on the fence retained for the first frame (descriptor 4, the duplicate of
present fence 3) comes after setClientTarget and the HAL present of the second
frame, not before them. -/
theorem retire_wait_order_counterexample :
    ({} : Frame).accepted ∧
    dupCalls (callsSince exampleWorld (present exampleWorld {})) = [(3, 4)] ∧
    (present exampleWorld {}).window.lastPresentFence = 4 ∧
    callsSince (present exampleWorld {}) (present (present exampleWorld {}) {}) =
      [Op.hwc2_compat_display_set_power_mode HWC2_POWER_MODE_ON, Op.hwc2_compat_display_validate,
        Op.hwc2_compat_display_accept_changes, Op.hwc2_compat_display_set_client_target 0 (-1),
        Op.hwc2_compat_display_present 5, Op.sync_wait 4, Op.close 4, Op.dup 5 4,
        Op.HWCNativeBufferSetFence 0 5] ∧
    ¬ ((callsSince (present exampleWorld {}) (present (present exampleWorld {}) {})).indexOf
          (Op.sync_wait 4) <
        (callsSince (present exampleWorld {}) (present (present exampleWorld {}) {})).indexOf
          (Op.hwc2_compat_display_set_client_target 0 (-1))) := by
  decide

/-- C5 (amended): for two consecutive presented frames k and k+1 (buffers and
surface owning their fences, frame k with a present fence `pf`), the surface
retains the duplicate `d` of `pf`, and in frame k+1 the wait on `d` and its
close come directly after setClientTarget and the HAL present of frame k+1;
no wait on `d` is made before them or after them in that call. -/
theorem retire_wait_follows_submit (w : World) (f1 f2 : Frame)
    (hw : w.fencesOwned) (ha1 : acquireOwned w f1) (h1 : f1.accepted ∧ f1.presentFence = true)
    (ha2 : acquireOwned (present w f1) f2) (h2 : f2.accepted) :
    ∃ pf d pre a p post,
      presentFences (callsSince w (present w f1)) = [pf] ∧
      dupCalls (callsSince w (present w f1)) = [(pf, d)] ∧
      (present w f1).window.lastPresentFence = d ∧ 0 ≤ d ∧
      callsSince (present w f1) (present (present w f1) f2) =
        pre ++ [Op.hwc2_compat_display_set_client_target f2.buffer a,
          Op.hwc2_compat_display_present p, Op.sync_wait d, Op.close d] ++ post ∧
      Op.sync_wait d ∉ pre ∧ Op.sync_wait d ∉ post := by
  obtain ⟨l, pf, htr, hpf, hdup, -, hd0, -, -, -, -, -⟩ :=
    present_owned_fence_summary w f1 hw ha1 h1
  have hcalls1 : callsSince w (present w f1) = l := callsSince_append _ _ _ htr
  generalize hw1 : present w f1 = w1 at *
  obtain ⟨p, d2, hcalls2, -, -, -⟩ := present_accepted_calls w1 f2 h2
  have hne : w1.window.lastPresentFence ≠ -1 := by omega
  refine ⟨pf, w1.window.lastPresentFence,
    (if 0 ≤ f2.acquireFenceFd then [Op.sync_wait f2.acquireFenceFd, Op.close f2.acquireFenceFd]
      else []) ++
    [Op.hwc2_compat_display_set_power_mode HWC2_POWER_MODE_ON, Op.hwc2_compat_display_validate,
      Op.hwc2_compat_display_accept_changes],
    (if 0 ≤ f2.acquireFenceFd then -1 else f2.acquireFenceFd), p,
    (if p ≠ -1 then [Op.dup p d2] else []) ++ [Op.HWCNativeBufferSetFence f2.buffer p],
    ?_, ?_, rfl, hd0, ?_, ?_, ?_⟩
  · rw [hcalls1, hpf]
  · rw [hcalls1, hdup]
  · rw [hcalls2, if_pos hne]
    simp
  · by_cases h0 : 0 ≤ f2.acquireFenceFd
    · have hacq : f2.acquireFenceFd ≠ w1.window.lastPresentFence := by
        rcases ha2 with hneg | hopen
        · omega
        · exact hopen.2
      simp [h0]
      exact fun h => hacq h.symm
    · simp [h0]
  · by_cases hp : p = -1 <;> simp [hp]

/-- C5 witness: two frames on the example world, the second handing in the
buffer fence 7. -/
theorem retire_wait_follows_submit_witness :
    exampleWorld.fencesOwned ∧ acquireOwned exampleWorld {} ∧
    acquireOwned (present exampleWorld {}) { acquireFenceFd := 7 } ∧
    ∃ pf d pre a p post,
      presentFences (callsSince exampleWorld (present exampleWorld {})) = [pf] ∧
      dupCalls (callsSince exampleWorld (present exampleWorld {})) = [(pf, d)] ∧
      (present exampleWorld {}).window.lastPresentFence = d ∧ 0 ≤ d ∧
      callsSince (present exampleWorld {}) (present (present exampleWorld {}) { acquireFenceFd := 7 }) =
        pre ++ [Op.hwc2_compat_display_set_client_target ({ acquireFenceFd := 7 } : Frame).buffer a,
          Op.hwc2_compat_display_present p, Op.sync_wait d, Op.close d] ++ post ∧
      Op.sync_wait d ∉ pre ∧ Op.sync_wait d ∉ post :=
  ⟨by decide, by decide, by decide,
    retire_wait_follows_submit exampleWorld {} { acquireFenceFd := 7 }
      (by decide) (by decide) (by decide) (by decide) (by decide)⟩

/-! ## `enableVSync` and `toggleBlankOutput` -/

/-- C6 as stated fails: with vsync already off, two `enableVSync(false)` calls
issue no HAL set-vsync call at all, not exactly one.  (In the plugin on HWC1,
when `eventControl` fails, each of two `enableVSync(true)` calls reaches the
HAL.) -/
theorem enableVSync_twice_counterexample :
    vsyncCalls (callsSince ({} : World) (enableVSync (enableVSync {} false) false)) = 0 ∧
    ¬ (vsyncCalls (callsSince ({} : World) (enableVSync (enableVSync {} false) false)) = 1) ∧
    vsyncCalls ((({} : Plugin.HwcomposerBackend).enableVSync true (-1)).enableVSync true (-1)).trace
      = 2 := by
  decide

/-- C6 (amended): two `enableVSync(e)` calls in a row issue one HAL set-vsync
call when `m_hasVsync` differed from `e` beforehand and none when it already
equalled `e`; the second call issues no HAL call and leaves the state as it
is.  The same holds for the plugin whenever the first call leaves
`m_hasVsync == e`, that is on HWC2, when disabling, or when `eventControl`
returns 0. -/
theorem enableVSync_twice (w : World) (e : Bool) (b : Plugin.HwcomposerBackend) (r1 r2 : Int) :
    (enableVSync (enableVSync w e) e = enableVSync w e ∧
      vsyncCalls (callsSince (enableVSync w e) (enableVSync (enableVSync w e) e)) = 0 ∧
      vsyncCalls (callsSince w (enableVSync (enableVSync w e) e))
        = if w.backend.m_hasVsync = e then 0 else 1) ∧
    ((b.hwc2 = true ∨ e = false ∨ r1 = 0) →
      (b.enableVSync e r1).enableVSync e r2 = b.enableVSync e r1 ∧
      vsyncCalls (((b.enableVSync e r1).enableVSync e r2).trace.drop b.trace.length)
        = if b.m_hasVsync = e then 0 else 1) := by
  constructor
  · by_cases h : w.backend.m_hasVsync = e
    · simp [enableVSync, h, callsSince, vsyncCalls]
    · simp [enableVSync, h, callsSince, vsyncCalls, World.emit]
  · intro hok
    by_cases h : b.m_hasVsync = e
    · simp [Plugin.HwcomposerBackend.enableVSync, h, vsyncCalls]
    · by_cases h2 : b.hwc2 = true
      · simp [Plugin.HwcomposerBackend.enableVSync, h, h2, vsyncCalls]
      · have h2' : b.hwc2 = false := by simpa using h2
        rcases hok with hk | hk | hk
        · exact absurd hk h2
        · subst hk
          simp [Plugin.HwcomposerBackend.enableVSync, h, h2', vsyncCalls]
        · subst hk
          simp [Plugin.HwcomposerBackend.enableVSync, h, h2', vsyncCalls]

/-- C6 witness: enabling vsync twice on the initial backend, and on an HWC1
plugin whose `eventControl` returns 0. -/
theorem enableVSync_twice_witness :
    (({} : Plugin.HwcomposerBackend).hwc2 = true ∨ true = false ∨ (0 : Int) = 0) ∧
    vsyncCalls (callsSince ({} : World) (enableVSync (enableVSync {} true) true)) = 1 ∧
    vsyncCalls ((((({} : Plugin.HwcomposerBackend).enableVSync true 0).enableVSync true 0).trace.drop
      ({} : Plugin.HwcomposerBackend).trace.length)) = 1 :=
  ⟨by decide, (enableVSync_twice {} true {} 0 0).1.2.2,
    ((enableVSync_twice {} true {} 0 0).2 (by decide)).2⟩

/-- The world after `toggleBlankOutput` with a HWC2 device, field by field. -/
theorem toggleBlankOutput_backend (w : World) (h : w.backend.m_hwc2device = true) :
    (toggleBlankOutput w).backend.m_outputBlank = !w.backend.m_outputBlank ∧
    (toggleBlankOutput w).backend.m_oldScreenBrightness = w.backend.m_oldScreenBrightness ∧
    (toggleBlankOutput w).backend.m_hasVsync = w.backend.m_outputBlank ∧
    (toggleBlankOutput w).backend.m_hwc2device = true ∧
    (toggleBlankOutput w).backend.m_filter
      = (if w.backend.m_outputBlank then none else some w.filtersCreated) ∧
    (toggleBlankOutput w).inputFilters
      = (if w.backend.m_outputBlank then
          (match w.backend.m_filter with
            | some n => w.inputFilters.filter (fun x => x != InputEventFilter.backlight n)
            | none => w.inputFilters)
        else
          InputEventFilter.backlight w.filtersCreated ::
            (match w.backend.m_filter with
              | some n => w.inputFilters.filter (fun x => x != InputEventFilter.backlight n)
              | none => w.inputFilters)) ∧
    (toggleBlankOutput w).filtersCreated
      = (if w.backend.m_outputBlank then w.filtersCreated else w.filtersCreated + 1) ∧
    (toggleBlankOutput w).backend.m_output
      = w.backend.m_output.map (fun o =>
          { o with
            m_isEnabled := w.backend.m_outputBlank,
            dpmsMode := if w.backend.updateDpmsConnected then
                (if w.backend.m_outputBlank then DpmsMode.On else DpmsMode.Off)
              else o.dpmsMode }) ∧
    (toggleBlankOutput w).window = w.window ∧ (toggleBlankOutput w).fds = w.fds := by
  unfold toggleBlankOutput
  cases hb : w.backend.m_outputBlank <;> cases hv : w.backend.m_hasVsync <;>
    cases hl : w.backend.m_lights <;> cases ho : w.backend.m_output <;>
    cases hc : w.compositor <;> cases hd : w.backend.updateDpmsConnected <;>
    cases hf : w.backend.m_filter <;>
    simp [h, hb, hv, hl, ho, hc, hd, hf, toggleScreenBrightness, enableVSync, resetFilter,
      emitOutputBlankChanged, updateDpms, World.emit]

/-- The calls made by `toggleBlankOutput` with a HWC2 device, in order. -/
theorem toggleBlankOutput_calls (w : World) (h : w.backend.m_hwc2device = true) :
    callsSince w (toggleBlankOutput w) =
      (if w.backend.m_lights then
        [Op.set_light (0xff000000 |||
          toU32 ((if w.backend.m_outputBlank then w.backend.m_oldScreenBrightness else 0) * 65536) |||
          toU32 ((if w.backend.m_outputBlank then w.backend.m_oldScreenBrightness else 0) * 256) |||
          toU32 (if w.backend.m_outputBlank then w.backend.m_oldScreenBrightness else 0))]
        else []) ++
      (if w.backend.m_hasVsync = w.backend.m_outputBlank then []
        else [Op.hwc2_compat_display_set_vsync_enabled w.backend.m_outputBlank]) ++
      [Op.hwc2_compat_display_set_power_mode
        (if w.backend.m_outputBlank then HWC2_POWER_MODE_ON else HWC2_POWER_MODE_OFF)] ++
      (if w.backend.m_output.isSome then [Op.setEnabled w.backend.m_outputBlank] else []) ++
      (if w.compositor && w.backend.m_outputBlank then [Op.addRepaintFull] else []) ++
      (if w.backend.m_outputBlank then [] else [Op.prependInputEventFilter w.filtersCreated]) ++
      [Op.outputBlankChanged] := by
  unfold toggleBlankOutput callsSince
  cases hb : w.backend.m_outputBlank <;> cases hv : w.backend.m_hasVsync <;>
    cases hl : w.backend.m_lights <;> cases ho : w.backend.m_output <;>
    cases hc : w.compositor <;> cases hd : w.backend.updateDpmsConnected <;>
    cases hf : w.backend.m_filter <;>
    simp [h, hb, hv, hl, ho, hc, hd, hf, toggleScreenBrightness, enableVSync, resetFilter,
      emitOutputBlankChanged, updateDpms, World.emit]


/-- C7 as stated fails: from the initial blanked backend, two
`toggleBlankOutput()` calls restore the blank flag and the brightness but leave
a `BacklightInputEventFilter` installed at the front of the filter chain. -/
theorem toggleBlankOutput_twice_counterexample :
    (toggleBlankOutput (toggleBlankOutput { backend := { m_hwc2device := true } })).backend.m_outputBlank
      = true ∧
    (toggleBlankOutput (toggleBlankOutput { backend := { m_hwc2device := true } })).backend.m_filter
      = some 0 ∧
    (toggleBlankOutput (toggleBlankOutput { backend := { m_hwc2device := true } })).inputFilters
      = [InputEventFilter.backlight 0] := by
  decide

/-- C7 (amended): with a HWC2 device, two `toggleBlankOutput()` calls restore
`m_outputBlank` and `m_oldScreenBrightness`; afterwards the backlight filter is
removed when the backend was unblanked at the start (the filter made by the
first call is gone and nothing was added to the chain), and a new filter is
installed at the front of the chain when it was blanked at the start. -/
theorem toggleBlankOutput_twice (w : World) (h : w.backend.m_hwc2device = true) :
    (toggleBlankOutput (toggleBlankOutput w)).backend.m_outputBlank = w.backend.m_outputBlank ∧
    (toggleBlankOutput (toggleBlankOutput w)).backend.m_oldScreenBrightness
      = w.backend.m_oldScreenBrightness ∧
    (w.backend.m_outputBlank = false →
      (toggleBlankOutput (toggleBlankOutput w)).backend.m_filter = none ∧
      InputEventFilter.backlight w.filtersCreated ∉
        (toggleBlankOutput (toggleBlankOutput w)).inputFilters ∧
      (toggleBlankOutput (toggleBlankOutput w)).inputFilters.Sublist w.inputFilters) ∧
    (w.backend.m_outputBlank = true →
      (toggleBlankOutput (toggleBlankOutput w)).backend.m_filter = some w.filtersCreated ∧
      (toggleBlankOutput (toggleBlankOutput w)).inputFilters.head?
        = some (InputEventFilter.backlight w.filtersCreated)) := by
  obtain ⟨hb1, hs1, -, hd1, hf1, hi1, hc1, -, -, -⟩ := toggleBlankOutput_backend w h
  obtain ⟨hb2, hs2, -, -, hf2, hi2, -, -, -, -⟩ := toggleBlankOutput_backend (toggleBlankOutput w) hd1
  refine ⟨?_, ?_, ?_, ?_⟩
  · rw [hb2, hb1]
    simp
  · rw [hs2, hs1]
  · intro hb
    rw [hf2, hi2, hb1, hf1, hi1, hb]
    refine ⟨by simp, ?_, ?_⟩
    · simp
    · simp only [Bool.not_false, if_true, Bool.false_eq_true, if_false]
      have hsub : ∀ l : List InputEventFilter,
          ((InputEventFilter.backlight w.filtersCreated :: l).filter
            (fun x => x != InputEventFilter.backlight w.filtersCreated)).Sublist l := by
        intro l
        simp [List.filter_cons]
      cases hf : w.backend.m_filter with
      | none => exact hsub _
      | some n => exact (hsub _).trans (List.filter_sublist _)
  · intro hb
    rw [hf2, hi2, hb1, hf1, hi1, hc1, hb]
    simp

/-- C7 witness: two toggles from the unblanked example world. -/
theorem toggleBlankOutput_twice_witness :
    exampleWorld.backend.m_hwc2device = true ∧
    (toggleBlankOutput (toggleBlankOutput exampleWorld)).backend.m_outputBlank = false ∧
    (toggleBlankOutput (toggleBlankOutput exampleWorld)).backend.m_filter = none :=
  ⟨by decide, (toggleBlankOutput_twice exampleWorld (by decide)).1,
    ((toggleBlankOutput_twice exampleWorld (by decide)).2.2.1 (by decide)).1⟩

/-- C8 as stated fails: the first `toggleBlankOutput()` of `initialize()` runs
with a HWC2 device but before an output or a compositor exists; it unblanks,
yet no full repaint is scheduled and no output is enabled. -/
theorem toggleBlankOutput_once_counterexample :
    (toggleBlankOutput { backend := { m_hwc2device := true } }).backend.m_outputBlank = false ∧
    Op.addRepaintFull ∉
      callsSince { backend := { m_hwc2device := true } }
        (toggleBlankOutput { backend := { m_hwc2device := true } }) ∧
    Op.setEnabled true ∉
      callsSince { backend := { m_hwc2device := true } }
        (toggleBlankOutput { backend := { m_hwc2device := true } }) := by
  decide

/-- C8 (amended): without a HWC2 device `toggleBlankOutput()` changes nothing.
With one it negates `m_outputBlank`.  If the result is blanked, vsync is off,
the one power mode set is Off, the output (when there is one) is disabled, and
a new `BacklightInputEventFilter` is put at the front of the filter chain.  If
the result is unblanked, `m_filter` is reset and the filter it held is out of
the chain, the one power mode set is On, the output (when there is one) is
enabled, and a full repaint is scheduled exactly when a compositor exists. -/
theorem toggleBlankOutput_once (w : World) :
    (w.backend.m_hwc2device = false → toggleBlankOutput w = w) ∧
    (w.backend.m_hwc2device = true →
      (toggleBlankOutput w).backend.m_outputBlank = (!w.backend.m_outputBlank) ∧
      ((toggleBlankOutput w).backend.m_outputBlank = true →
        (toggleBlankOutput w).backend.m_hasVsync = false ∧
        (∀ m, Op.hwc2_compat_display_set_power_mode m ∈ callsSince w (toggleBlankOutput w) ↔
          m = HWC2_POWER_MODE_OFF) ∧
        (∀ o, w.backend.m_output = some o →
          Op.setEnabled false ∈ callsSince w (toggleBlankOutput w) ∧
          ∃ o', (toggleBlankOutput w).backend.m_output = some o' ∧ o'.m_isEnabled = false) ∧
        (toggleBlankOutput w).backend.m_filter = some w.filtersCreated ∧
        (toggleBlankOutput w).inputFilters.head? = some (InputEventFilter.backlight w.filtersCreated) ∧
        Op.prependInputEventFilter w.filtersCreated ∈ callsSince w (toggleBlankOutput w)) ∧
      ((toggleBlankOutput w).backend.m_outputBlank = false →
        (toggleBlankOutput w).backend.m_filter = none ∧
        (∀ n, w.backend.m_filter = some n →
          InputEventFilter.backlight n ∉ (toggleBlankOutput w).inputFilters) ∧
        (∀ m, Op.hwc2_compat_display_set_power_mode m ∈ callsSince w (toggleBlankOutput w) ↔
          m = HWC2_POWER_MODE_ON) ∧
        (∀ o, w.backend.m_output = some o →
          Op.setEnabled true ∈ callsSince w (toggleBlankOutput w) ∧
          ∃ o', (toggleBlankOutput w).backend.m_output = some o' ∧ o'.m_isEnabled = true) ∧
        (Op.addRepaintFull ∈ callsSince w (toggleBlankOutput w) ↔ w.compositor = true))) := by
  constructor
  · intro h
    simp [toggleBlankOutput, h]
  · intro h
    obtain ⟨hb, -, hv, -, hf, hi, -, ho, -, -⟩ := toggleBlankOutput_backend w h
    have hcalls := toggleBlankOutput_calls w h
    refine ⟨hb, ?_, ?_⟩
    · intro hnew
      have hold : w.backend.m_outputBlank = false := by
        rw [hb] at hnew
        simpa using hnew
      rw [hcalls, hv, hf, hi, ho, hold]
      refine ⟨rfl, ?_, ?_, by simp, by simp, by simp⟩
      · intro m
        cases m <;> simp
      · intro o ho
        simp [ho]
    · intro hnew
      have hold : w.backend.m_outputBlank = true := by
        rw [hb] at hnew
        simpa using hnew
      rw [hcalls, hf, hi, ho, hold]
      refine ⟨by simp, ?_, ?_, ?_, ?_⟩
      · intro n hn
        simp [hn]
      · intro m
        cases m <;> simp
      · intro o hoo
        simp [hoo]
      · cases hc : w.compositor <;> simp

/-- C8 witness: blanking the example world, which has a HWC2 device. -/
theorem toggleBlankOutput_once_witness :
    exampleWorld.backend.m_hwc2device = true ∧
    (toggleBlankOutput exampleWorld).backend.m_outputBlank = true ∧
    (toggleBlankOutput exampleWorld).backend.m_hasVsync = false :=
  ⟨by decide, ((toggleBlankOutput_once exampleWorld).2 (by decide)).1,
    (((toggleBlankOutput_once exampleWorld).2 (by decide)).2.1 (by decide)).1⟩

/-! ## The state machine of blanking and presenting -/

/-- In src/src/backends `present()` reads and writes no member of the backend. -/
theorem present_backend (w : World) (f : Frame) : (present w f).backend = w.backend := by
  by_cases h : f.accepted
  · cases hp : f.presentFence with
    | true => rw [present_accepted_fence w f h hp _ _ rfl rfl]
    | false => rw [present_accepted_no_fence w f h hp _ rfl]
  · rw [present_dropped w f h]

/-- In src/src/backends `present()` makes no set-vsync call. -/
theorem present_vsyncCalls (w : World) (f : Frame) :
    vsyncCalls (callsSince w (present w f)) = 0 := by
  by_cases h : f.accepted
  · obtain ⟨p, d, hcalls, -, -, -⟩ := present_accepted_calls w f h
    rw [hcalls]
    by_cases ha : 0 ≤ f.acquireFenceFd <;> by_cases hl : w.window.lastPresentFence = -1 <;>
      by_cases hp : p = -1 <;> simp [vsyncCalls, ha, hl, hp]
  · rw [present_dropped w f h]
    by_cases ha : 0 ≤ f.acquireFenceFd <;>
      by_cases hc : (f.validateError = HWC2_ERROR_NONE ∨ f.validateError = HWC2_ERROR_HAS_CHANGES) ∧
        f.numTypes = 0 ∧ f.numRequests = 0 <;>
      simp [vsyncCalls, callsSince, ha, hc]

/-- One step keeps "blanked implies vsync off". -/
theorem step_keeps_blank_vsync (w : World) (s : Step)
    (h : w.backend.m_outputBlank = true → w.backend.m_hasVsync = false) :
    (s.apply w).backend.m_outputBlank = true → (s.apply w).backend.m_hasVsync = false := by
  cases s with
  | toggleBlankOutput =>
    simp only [Step.apply]
    cases hd : w.backend.m_hwc2device with
    | false =>
      have : toggleBlankOutput w = w := by simp [toggleBlankOutput, hd]
      rw [this]
      exact h
    | true =>
      obtain ⟨hb, -, hv, -⟩ := toggleBlankOutput_backend w hd
      rw [hb, hv]
      intro hnew
      simpa using hnew
  | present f =>
    simp only [Step.apply, present_backend]
    exact h

/-- C9: in every state reached from a blanked backend with vsync off by
`toggleBlankOutput()` and `present()` steps, vsync is off whenever the output is
blanked, so `waitVSync()` returns at once there: it locks nothing and waits for
nothing. -/
theorem blanked_implies_vsync_off (w : World) (steps : List Step)
    (_hb : w.backend.m_outputBlank = true) (hv : w.backend.m_hasVsync = false) :
    (run w steps).backend.m_outputBlank = true →
      (run w steps).backend.m_hasVsync = false ∧ waitVSync (run w steps) = run w steps := by
  have key : ∀ (steps : List Step) (w : World),
      (w.backend.m_outputBlank = true → w.backend.m_hasVsync = false) →
      (run w steps).backend.m_outputBlank = true → (run w steps).backend.m_hasVsync = false := by
    intro steps
    induction steps with
    | nil => intro w h; exact h
    | cons s steps ih =>
      intro w h
      exact ih (s.apply w) (step_keeps_blank_vsync w s h)
  intro hblank
  have hoff := key steps w (fun _ => hv) hblank
  exact ⟨hoff, by simp [waitVSync, hoff]⟩

/-- C9 witness: unblank, present a frame, blank again, present a frame. -/
theorem blanked_implies_vsync_off_witness :
    (run { backend := { m_hwc2device := true } }
      [Step.toggleBlankOutput, Step.present {}, Step.toggleBlankOutput, Step.present {}]).backend.m_outputBlank
        = true ∧
    (run { backend := { m_hwc2device := true } }
      [Step.toggleBlankOutput, Step.present {}, Step.toggleBlankOutput, Step.present {}]).backend.m_hasVsync
        = false :=
  ⟨by decide,
    (blanked_implies_vsync_off { backend := { m_hwc2device := true } }
      [Step.toggleBlankOutput, Step.present {}, Step.toggleBlankOutput, Step.present {}]
      (by decide) (by decide) (by decide)).1⟩

/-- C10 as stated fails: on a blanked backend with vsync off, `present()` runs
its whole sequence (setClientTarget and the HAL present are called) and vsync
is still off on return. -/
theorem present_enables_vsync_counterexample :
    ({} : Frame).accepted ∧
    Op.hwc2_compat_display_present 0 ∈
      callsSince { backend := { m_hwc2device := true } }
        (present { backend := { m_hwc2device := true } } {}) ∧
    (present { backend := { m_hwc2device := true } } {}).backend.m_hasVsync = false := by
  decide

/-- C10 (amended): `present()` of src/src/backends leaves every member of the
backend, `m_hasVsync` included, as it found it and makes no set-vsync call,
whether the frame is presented or dropped; vsync is on after `present()` exactly
when it was on before. -/
theorem present_keeps_vsync (w : World) (f : Frame) :
    (present w f).backend = w.backend ∧
    (present w f).backend.m_hasVsync = w.backend.m_hasVsync ∧
    vsyncCalls (callsSince w (present w f)) = 0 :=
  ⟨present_backend w f, by rw [present_backend], present_vsyncCalls w f⟩

/-! ## The backlight input filter: wake gestures -/

/-- C11: while the backend is blanked, a click offered to `pointerEvent` (and a
wheel event offered to `wheelEvent`) is consumed and requests exactly one
`toggleBlankOutput`, changing nothing else in the filter; while the backend is
not blanked the same event is not consumed and requests nothing. -/
theorem pointerEvent_wakes (s : BacklightInputEventFilter) :
    s.pointerEvent true = (true, { s with toggleRequests := s.toggleRequests + 1 }) ∧
    s.wheelEvent true = (true, { s with toggleRequests := s.toggleRequests + 1 }) ∧
    s.pointerEvent false = (false, s) ∧
    s.wheelEvent false = (false, s) := by
  simp [BacklightInputEventFilter.pointerEvent, BacklightInputEventFilter.wheelEvent,
    BacklightInputEventFilter.toggleBacklight]

/-- C12 as stated fails: touches at 0 ms and 150 ms with an interval of 400 ms
are two touches within the interval, but with the second one released at
450 ms the four events are consumed and no `toggleBlankOutput` is requested. -/
theorem double_tap_wakes_counterexample :
    ((0 : Int) ≤ 60 ∧ (60 : Int) ≤ 150 ∧ (150 : Int) ≤ 450 ∧ (150 : Int) - 0 < 400) ∧
    BacklightInputEventFilter.handleAll {} true 400
        [(0, InputEvent.touchDown 1), (60, InputEvent.touchUp 1),
          (150, InputEvent.touchDown 2), (450, InputEvent.touchUp 2)]
      = ([true, true, true, true], { toggleRequests := 0 }) := by
  decide

/-- C12 (amended): on a fresh filter while blanked, two touches `a` and `b`
delivered as down, up, down, up at clock readings `t0 <= t1 <= t2 <= t3`, the
second going down within the double-click interval of the first touch-down
(`t2 - t0 < I`), are all four consumed and leave the detector in its initial
state; exactly one `toggleBlankOutput` is requested when the second touch is
also released within the interval (`t3 - t0 < I`), and none otherwise. -/
theorem double_tap_wakes (a b I t0 t1 t2 t3 : Int)
    (_h01 : t0 ≤ t1) (_h12 : t1 ≤ t2) (_h23 : t2 ≤ t3) (h2 : t2 - t0 < I) :
    BacklightInputEventFilter.handleAll {} true I
        [(t0, InputEvent.touchDown a), (t1, InputEvent.touchUp a),
          (t2, InputEvent.touchDown b), (t3, InputEvent.touchUp b)]
      = ([true, true, true, true], { toggleRequests := if t3 - t0 < I then 1 else 0 }) := by
  by_cases h3 : t3 - t0 < I <;>
    simp [BacklightInputEventFilter.handleAll, BacklightInputEventFilter.handle,
      BacklightInputEventFilter.touchDown, BacklightInputEventFilter.touchUp,
      BacklightInputEventFilter.elapsed, BacklightInputEventFilter.toggleBacklight, h2, h3]

/-- C12 witness: touches at 0 ms and 150 ms, released at 60 ms and 210 ms, with
an interval of 400 ms. -/
theorem double_tap_wakes_witness :
    ((0 : Int) ≤ 60 ∧ (60 : Int) ≤ 150 ∧ (150 : Int) ≤ 210 ∧ (150 : Int) - 0 < 400) ∧
    BacklightInputEventFilter.handleAll {} true 400
        [(0, InputEvent.touchDown 1), (60, InputEvent.touchUp 1),
          (150, InputEvent.touchDown 1), (210, InputEvent.touchUp 1)]
      = ([true, true, true, true], { toggleRequests := 1 }) :=
  ⟨by decide,
    (double_tap_wakes 1 1 400 0 60 150 210 (by decide) (by decide) (by decide)
      (by decide)).trans (by decide)⟩

/-- C13: on a fresh filter while blanked, two single-finger touches whose
second touch-down comes at least the interval `I` after the first touch-down
request no `toggleBlankOutput`; the second touch-down restarts the timer (at
`t2`) and is not counted as a second tap. -/
theorem slow_double_tap_ignored (a b I t0 t1 t2 t3 : Int) (hI : I ≤ t2 - t0) :
    BacklightInputEventFilter.handleAll {} true I
        [(t0, InputEvent.touchDown a), (t1, InputEvent.touchUp a),
          (t2, InputEvent.touchDown b), (t3, InputEvent.touchUp b)]
      = ([true, true, true, true],
          { m_doubleTapTimer := some t2, m_touchPoints := [], m_secondTap := false,
            toggleRequests := 0 }) := by
  have h2 : ¬ t2 - t0 < I := by omega
  simp [BacklightInputEventFilter.handleAll, BacklightInputEventFilter.handle,
    BacklightInputEventFilter.touchDown, BacklightInputEventFilter.touchUp,
    BacklightInputEventFilter.elapsed, BacklightInputEventFilter.toggleBacklight, h2]

/-- C13 witness: touches at 0 ms and 600 ms with an interval of 400 ms. -/
theorem slow_double_tap_ignored_witness :
    ((400 : Int) ≤ 600 - 0) ∧
    (BacklightInputEventFilter.handleAll {} true 400
        [(0, InputEvent.touchDown 1), (60, InputEvent.touchUp 1),
          (600, InputEvent.touchDown 1), (660, InputEvent.touchUp 1)]).2.toggleRequests = 0 :=
  ⟨by decide, by rw [slow_double_tap_ignored 1 1 400 0 60 600 660 (by decide)]⟩

/-- C14 as stated fails: while the backend is not blanked, `keyEvent` of
src/src/backends consumes a key press of the letter A, and `keyEvent` of the
plugin consumes a release of the power key and requests a toggle. -/
theorem unblanked_not_consumed_counterexample :
    (BacklightInputEventFilter.handle {} false 400 0
      (InputEvent.keyEvent { key := 0x41, type := KeyPress })).1 = true ∧
    BacklightInputEventFilter.keyEventPlugin {} false { key := Key_PowerOff, type := KeyRelease }
      = (true, { toggleRequests := 1 }) := by
  decide

/-- C14 (amended): while the backend is not blanked, `pointerEvent`,
`wheelEvent`, `touchDown`, `touchMotion` and `touchUp` report every event as
not consumed and request no toggle; `keyEvent` of src/src/backends consumes
every key event whatever the blank state; `keyEvent` of the plugin, while not
blanked, consumes exactly the releases of the power key (and requests a toggle
for them). -/
theorem unblanked_not_consumed (s : BacklightInputEventFilter) (I now : Int) :
    (∀ e : InputEvent, (∀ k, e ≠ InputEvent.keyEvent k) →
      (s.handle false I now e).1 = false ∧
      (s.handle false I now e).2.toggleRequests = s.toggleRequests) ∧
    (∀ (blank : Bool) (k : QKeyEvent), (s.handle blank I now (InputEvent.keyEvent k)).1 = true) ∧
    (∀ k : QKeyEvent,
      ((s.keyEventPlugin false k).1 = true ↔ (k.key = Key_PowerOff ∧ k.type = KeyRelease)) ∧
      ((s.keyEventPlugin false k).1 = true →
        (s.keyEventPlugin false k).2.toggleRequests = s.toggleRequests + 1)) := by
  refine ⟨?_, ?_, ?_⟩
  · intro e he
    cases e with
    | keyEvent k => exact absurd rfl (he k)
    | pointerEvent => simp [BacklightInputEventFilter.handle, BacklightInputEventFilter.pointerEvent]
    | wheelEvent => simp [BacklightInputEventFilter.handle, BacklightInputEventFilter.wheelEvent]
    | touchDown id => simp [BacklightInputEventFilter.handle, BacklightInputEventFilter.touchDown]
    | touchMotion id => simp [BacklightInputEventFilter.handle, BacklightInputEventFilter.touchMotion]
    | touchUp id => simp [BacklightInputEventFilter.handle, BacklightInputEventFilter.touchUp]
  · intro blank k
    simp [BacklightInputEventFilter.handle, BacklightInputEventFilter.keyEvent]
  · intro k
    by_cases h : k.key = Key_PowerOff ∧ k.type = KeyRelease
    · simp [BacklightInputEventFilter.keyEventPlugin, BacklightInputEventFilter.toggleBacklight, h]
    · have h' : (k.key == Key_PowerOff && k.type == KeyRelease) = false := by
        simpa using h
      simp [BacklightInputEventFilter.keyEventPlugin, h']
      simpa using h

/-- C14 witness: a pointer event offered while the backend is not blanked. -/
theorem unblanked_not_consumed_witness :
    (∀ k, InputEvent.pointerEvent ≠ InputEvent.keyEvent k) ∧
    (BacklightInputEventFilter.handle {} false 400 0 InputEvent.pointerEvent).1 = false :=
  ⟨(fun _ h => by cases h),
    ((unblanked_not_consumed {} 400 0).1 InputEvent.pointerEvent (fun _ h => by cases h)).1⟩


/-! ## The colour sent to the lights HAL -/

set_option maxRecDepth 100000 in
/-- The packed colour for a brightness level that fits a byte. -/
theorem colour_of_level :
    ∀ n : Nat, n < 256 →
      (0xff000000 ||| toU32 ((n : Int) * 65536) ||| toU32 ((n : Int) * 256) ||| toU32 (n : Int))
          = 0xff000000 + n * 65536 + n * 256 + n ∧
      (0xff000000 + n * 65536 + n * 256 + n) / 16777216 = 255 ∧
      (0xff000000 + n * 65536 + n * 256 + n) / 65536 % 256 = n ∧
      (0xff000000 + n * 65536 + n * 256 + n) / 256 % 256 = n ∧
      (0xff000000 + n * 65536 + n * 256 + n) % 256 = n := by
  decide

/-- C19 as stated fails: with a stored brightness of 256, as a backlight with
more than 256 steps reports, the colour sent while unblanked is 0xFF010100: the
red and green bytes are 1 and the blue byte is 0. -/
theorem brightness_colour_counterexample :
    callsSince { backend := { m_lights := true, m_outputBlank := false, m_oldScreenBrightness := 256 } }
      (toggleScreenBrightness
        { backend := { m_lights := true, m_outputBlank := false, m_oldScreenBrightness := 256 } })
      = [Op.set_light 0xFF010100] ∧
    (0xFF010100 / 65536 % 256 = 1 ∧ 0xFF010100 / 256 % 256 = 1 ∧ 0xFF010100 % 256 = 0) := by
  decide

/-- C19 (amended): without a lights device `toggleScreenBrightness()` does
nothing.  With one it makes one `set_light` call and changes no state; the
colour is `0xFF000000 | (b << 16) | (b << 8) | b` in 32 bits, where `b` is 0
when blanked and `m_oldScreenBrightness` otherwise; whenever `0 <= b <= 255`
the colour has alpha byte 0xFF and red, green and blue bytes all equal to
`b`. -/
theorem brightness_colour (w : World) :
    (w.backend.m_lights = false → toggleScreenBrightness w = w) ∧
    (w.backend.m_lights = true →
      ∀ b : Int, b = (if w.backend.m_outputBlank then 0 else w.backend.m_oldScreenBrightness) →
        toggleScreenBrightness w =
          { w with trace := w.trace ++ [Op.set_light
              (0xff000000 ||| toU32 (b * 65536) ||| toU32 (b * 256) ||| toU32 b)] } ∧
        (0 ≤ b → b ≤ 255 →
          ∃ c : Nat, callsSince w (toggleScreenBrightness w) = [Op.set_light c] ∧
            c / 16777216 = 255 ∧ ((c / 65536 % 256 : Nat) : Int) = b ∧
            ((c / 256 % 256 : Nat) : Int) = b ∧ ((c % 256 : Nat) : Int) = b)) := by
  constructor
  · intro h
    simp [toggleScreenBrightness, h]
  · intro h b hb
    have heq : toggleScreenBrightness w =
        { w with trace := w.trace ++ [Op.set_light
            (0xff000000 ||| toU32 (b * 65536) ||| toU32 (b * 256) ||| toU32 b)] } := by
      simp [toggleScreenBrightness, h, World.emit, hb]
    refine ⟨heq, ?_⟩
    intro h0 h255
    obtain ⟨n, hn⟩ := Int.eq_ofNat_of_zero_le h0
    have hn256 : n < 256 := by omega
    obtain ⟨h1, h2, h3, h4, h5⟩ := colour_of_level n hn256
    refine ⟨0xff000000 + n * 65536 + n * 256 + n, ?_, h2, ?_, ?_, ?_⟩
    · rw [heq, hn, h1]
      simp [callsSince]
    · rw [h3, hn]
    · rw [h4, hn]
    · rw [h5, hn]

/-- C19 witness: the example world, unblanked with brightness 0x7f. -/
theorem brightness_colour_witness :
    exampleWorld.backend.m_lights = true ∧
    toggleScreenBrightness exampleWorld =
      { exampleWorld with trace := exampleWorld.trace ++ [Op.set_light
          (0xff000000 ||| toU32 (127 * 65536) ||| toU32 (127 * 256) ||| toU32 127)] } :=
  ⟨by decide, ((brightness_colour exampleWorld).2 (by decide) 127 (by decide)).1⟩


/-! ## Tearing the backend down -/

/-- C20 as stated fails: the destructor of the plugin blanks an unblanked
display (the last power mode set is Off) and leaves a blanked one blanked; the
destructor of src/src/backends leaves a blanked backend blanked. -/
theorem teardown_unblanks_counterexample :
    (Plugin.HwcomposerBackend.destructor
      { hwc2 := true, m_hwc2device := true, m_outputBlank := false } {}).m_outputBlank = true ∧
    lastPowerOn (Plugin.HwcomposerBackend.destructor
      { hwc2 := true, m_hwc2device := true, m_outputBlank := false } {}).trace = some false ∧
    (Plugin.HwcomposerBackend.destructor
      { hwc2 := true, m_hwc2device := true, m_outputBlank := true } {}).m_outputBlank = true ∧
    (HwcomposerBackend.destructor { backend := { m_hwc2device := true, m_outputBlank := true } }
      true).backend.m_outputBlank = true := by
  decide

/-- C20 (amended): when the destructor of the plugin finishes on a backend
that has its HAL device, the display is blanked: a backend that was unblanked
is blanked by one toggle, whose last power request to the HAL is Off, and one
that was blanked is left as it is.  The destructor of src/src/backends makes no
HAL call and leaves the blank state as it is. -/
theorem teardown_blanks (b : Plugin.HwcomposerBackend) (env : Plugin.Env) (w : World)
    (egl : Bool)
    (hdev : (b.hwc2 = true ∧ b.m_hwc2device = true) ∨ (b.hwc2 = false ∧ b.m_device = true)) :
    (b.destructor env).m_outputBlank = true ∧
    (b.m_outputBlank = true → b.destructor env = b) ∧
    (b.m_outputBlank = false →
      ∃ calls, (b.destructor env).trace = b.trace ++ calls ∧ lastPowerOn calls = some false) ∧
    (HwcomposerBackend.destructor w egl).backend = w.backend ∧
    lastPowerOn (callsSince w (HwcomposerBackend.destructor w egl)) = none := by
  refine ⟨?_, ?_, ?_, ?_, ?_⟩
  · cases hb : b.m_outputBlank with
    | true => simp [Plugin.HwcomposerBackend.destructor, hb]
    | false =>
      rcases hdev with ⟨h2, hd⟩ | ⟨h2, hd⟩
      · cases hl : b.m_lights <;> cases hv : b.m_hasVsync <;> cases hc : env.compositor <;>
          simp [Plugin.HwcomposerBackend.destructor, Plugin.HwcomposerBackend.toggleBlankOutput,
            Plugin.HwcomposerBackend.hwc2_toggleBlankOutput, Plugin.HwcomposerBackend.afterPowerMode,
            Plugin.HwcomposerBackend.toggleScreenBrightness, Plugin.HwcomposerBackend.enableVSync,
            hb, h2, hd, hl, hv, hc]
      · cases hl : b.m_lights <;> cases hv : b.m_hasVsync <;> cases hc : env.compositor <;>
          cases hp : env.hasSetPowerMode <;>
          simp [Plugin.HwcomposerBackend.destructor, Plugin.HwcomposerBackend.toggleBlankOutput,
            Plugin.HwcomposerBackend.afterPowerMode,
            Plugin.HwcomposerBackend.toggleScreenBrightness, Plugin.HwcomposerBackend.enableVSync,
            hb, h2, hd, hl, hv, hc, hp]
  · intro hb
    simp [Plugin.HwcomposerBackend.destructor, hb]
  · intro hb
    rcases hdev with ⟨h2, hd⟩ | ⟨h2, hd⟩
    · cases hl : b.m_lights <;> cases hv : b.m_hasVsync <;> cases hc : env.compositor <;>
        simp [Plugin.HwcomposerBackend.destructor, Plugin.HwcomposerBackend.toggleBlankOutput,
          Plugin.HwcomposerBackend.hwc2_toggleBlankOutput, Plugin.HwcomposerBackend.afterPowerMode,
          Plugin.HwcomposerBackend.toggleScreenBrightness, Plugin.HwcomposerBackend.enableVSync,
          hb, h2, hd, hl, hv, hc, lastPowerOn]
    · cases hl : b.m_lights <;> cases hv : b.m_hasVsync <;> cases hc : env.compositor <;>
        cases hp : env.hasSetPowerMode <;>
        simp [Plugin.HwcomposerBackend.destructor, Plugin.HwcomposerBackend.toggleBlankOutput,
          Plugin.HwcomposerBackend.afterPowerMode,
          Plugin.HwcomposerBackend.toggleScreenBrightness, Plugin.HwcomposerBackend.enableVSync,
          hb, h2, hd, hl, hv, hc, hp, lastPowerOn]
  · cases egl <;> simp [HwcomposerBackend.destructor, World.emit]
  · cases egl <;> simp [HwcomposerBackend.destructor, World.emit, callsSince, lastPowerOn]

/-- C20 witness: an unblanked HWC2 plugin backend is torn down. -/
theorem teardown_blanks_witness :
    ((({ hwc2 := true, m_hwc2device := true, m_outputBlank := false } :
        Plugin.HwcomposerBackend).hwc2 = true ∧
      ({ hwc2 := true, m_hwc2device := true, m_outputBlank := false } :
        Plugin.HwcomposerBackend).m_hwc2device = true) ∨
     (({ hwc2 := true, m_hwc2device := true, m_outputBlank := false } :
        Plugin.HwcomposerBackend).hwc2 = false ∧
      ({ hwc2 := true, m_hwc2device := true, m_outputBlank := false } :
        Plugin.HwcomposerBackend).m_device = true)) ∧
    (Plugin.HwcomposerBackend.destructor
      { hwc2 := true, m_hwc2device := true, m_outputBlank := false } {}).m_outputBlank = true :=
  ⟨by decide,
    (teardown_blanks { hwc2 := true, m_hwc2device := true, m_outputBlank := false } {} {} true
      (by decide)).1⟩


/-! ## Arithmetic of the refresh rate -/

theorem binadeShift_spec (a b : Nat) :
    ∀ (fuel k : Nat), 2 ^ 52 * b ≤ a * 2 ^ (k + fuel) →
      2 ^ 52 * b ≤ a * 2 ^ (binadeShift a b fuel k) := by
  intro fuel
  induction fuel with
  | zero =>
    intro k h
    simpa [binadeShift] using h
  | succ fuel ih =>
    intro k h
    simp only [binadeShift]
    by_cases hk : 2 ^ 52 * b ≤ a * 2 ^ k
    · rw [if_pos hk]
      exact hk
    · rw [if_neg hk]
      apply ih
      have : k + 1 + fuel = k + (fuel + 1) := by omega
      rw [this]
      exact h

theorem roundHalfEven_bounds (n d : Nat) :
    n / d ≤ roundHalfEven n d ∧ roundHalfEven n d ≤ n / d + 1 := by
  unfold roundHalfEven
  simp only
  split
  · omega
  · split
    · omega
    · split <;> omega

/-- Cutting the fraction off the `double` quotient `10^12 / b` gives the
integer quotient, for every positive `b` that fits an `int32_t`. -/
theorem trunc_binary64Div (b : Nat) (hb : 0 < b) (hb' : b ≤ 2147483648) :
    (binary64Div 1000000000000 b).1 / 2 ^ (binary64Div 1000000000000 b).2
      = 1000000000000 / b := by
  unfold binary64Div
  simp only
  have hP : 2 ^ 52 * b ≤ 1000000000000 * 2 ^ (binadeShift 1000000000000 b 128 0) := by
    apply binadeShift_spec
    have h1 : (2:Nat) ^ 52 * b ≤ 2 ^ 52 * 2147483648 := Nat.mul_le_mul_left _ hb'
    have h2 : (2:Nat) ^ 52 * 2147483648 ≤ 1000000000000 * 2 ^ (0 + 128) := by norm_num
    exact le_trans h1 h2
  generalize binadeShift 1000000000000 b 128 0 = k at hP
  generalize hK : 2 ^ k = K at hP
  have hKb : b < K := by
    by_contra hcon
    have hle : K ≤ b := Nat.le_of_not_lt hcon
    have h1 : 1000000000000 * K ≤ 1000000000000 * b := Nat.mul_le_mul_left _ hle
    have h2 : 1000000000000 * b < 2 ^ 52 * b := by
      apply Nat.mul_lt_mul_of_pos_right _ hb
      norm_num
    omega
  obtain ⟨hlo, hhi⟩ := roundHalfEven_bounds (1000000000000 * K) b
  generalize roundHalfEven (1000000000000 * K) b = m at hlo hhi
  have hq1 : (1000000000000 / b) * K ≤ 1000000000000 * K / b := by
    rw [Nat.le_div_iff_mul_le hb]
    have : 1000000000000 / b * b ≤ 1000000000000 := Nat.div_mul_le_self _ _
    calc 1000000000000 / b * K * b = (1000000000000 / b * b) * K := by ring
      _ ≤ 1000000000000 * K := Nat.mul_le_mul_right _ this
  have hq2 : 1000000000000 * K / b + 2 ≤ (1000000000000 / b + 1) * K := by
    by_contra hcon
    have hge : (1000000000000 / b + 1) * K ≤ 1000000000000 * K / b + 1 := by omega
    have hqb : 1000000000000 * K / b * b ≤ 1000000000000 * K := Nat.div_mul_le_self _ _
    have ha : 1000000000000 < (1000000000000 / b + 1) * b := by
      have := Nat.lt_div_mul_add hb (a := 1000000000000)
      calc 1000000000000 < 1000000000000 / b * b + b := this
        _ = (1000000000000 / b + 1) * b := by ring
    have ha' : 1000000000000 + 1 ≤ (1000000000000 / b + 1) * b := ha
    have h3 : (1000000000000 + 1) * K ≤ (1000000000000 / b + 1) * b * K :=
      Nat.mul_le_mul_right _ ha'
    have h4 : (1000000000000 / b + 1) * K * b ≤ (1000000000000 * K / b + 1) * b :=
      Nat.mul_le_mul_right _ hge
    have h5 : (1000000000000 / b + 1) * b * K = (1000000000000 / b + 1) * K * b := by ring
    have h6 : (1000000000000 * K / b + 1) * b = 1000000000000 * K / b * b + b := by ring
    have h7 : (1000000000000 + 1) * K = 1000000000000 * K + K := by ring
    omega
  apply Nat.div_eq_of_lt_le
  · exact le_trans hq1 hlo
  · have : m + 1 ≤ (1000000000000 / b + 1) * K := by omega
    exact this

/-- The refresh rate for a vsync period whose quotient fits an `int`. -/
theorem refreshRateOf_pos (p : Int) (hlo : 466 ≤ p) (hhi : p ≤ 2147483647) :
    refreshRateOf p = 1000000000000 / p := by
  obtain ⟨n, hn⟩ := Int.eq_ofNat_of_zero_le (by omega : (0 : Int) ≤ p)
  subst hn
  have hn1 : 466 ≤ n := by omega
  have hn2 : n ≤ 2147483647 := by omega
  have hne : ((n : Int) == 0) = false := by
    have : (n : Int) ≠ 0 := by omega
    simpa using this
  have hq : 1000000000000 / n ≤ 2147483647 := by
    have h1 : 1000000000000 / n ≤ 1000000000000 / 466 := Nat.div_le_div_left hn1 (by norm_num)
    have h2 : 1000000000000 / 466 ≤ 2147483647 := by norm_num
    omega
  have ht := trunc_binary64Div n (by omega) (by omega)
  unfold refreshRateOf
  rw [hne]
  simp only [Bool.false_eq_true, if_false, Int.natAbs_ofNat]
  unfold doubleToInt
  rw [ht]
  have hneg : ¬ ((n : Int) < 0) := by omega
  simp only [hneg, decide_False, Bool.false_eq_true, if_false]
  have hq' : ((1000000000000 / n : Nat) : Int) ≤ 2147483647 := by exact_mod_cast hq
  have hq0 : (0 : Int) ≤ ((1000000000000 / n : Nat) : Int) := Int.ofNat_nonneg _
  rw [if_neg (by omega), if_neg (by omega)]
  norm_cast

/-! ## The output descriptor -/

/-- The constructor always leaves an output for which `isValid()` is true. -/
theorem construct_isValid (env : OutputEnv) : (HwcomposerOutput.construct env).isValid = true := by
  unfold HwcomposerOutput.construct
  simp only
  split <;> rfl

/-- The modes the constructor registers: none when the pixel size is empty,
otherwise one. -/
theorem construct_modes (env : OutputEnv) :
    (HwcomposerOutput.construct env).m_modes =
      if QSize.isEmpty { width := env.debugWidth.getD env.config.width,
                         height := env.debugHeight.getD env.config.height } then []
      else
        [{ id := 0,
           size := { width := env.debugWidth.getD env.config.width,
                     height := env.debugHeight.getD env.config.height },
           flags := { Current := true, Preferred := true },
           refreshRate := refreshRateOf
             (if env.config.width = 2072 then 20000000 else env.config.vsyncPeriod) }] := by
  unfold HwcomposerOutput.construct
  cases hW : env.debugWidth <;> cases hH : env.debugHeight <;>
    simp only [Option.getD] <;> split <;>
    simp [HwcomposerOutput.initialise, HwcomposerOutput.setCurrentModeInternal]

/-- C15: without debug overrides, for every display configuration of positive
width `w` and height `h` the constructor leaves a valid output (`isValid()` is
true) with exactly one registered mode, of id 0, size `(w, h)` and flags
Current and Preferred, and the current mode size of the output is `(w, h)`. -/
theorem construct_registers_one_mode (env : OutputEnv)
    (hW : env.debugWidth = none) (hH : env.debugHeight = none)
    (hw : 0 < env.config.width) (hh : 0 < env.config.height) :
    (HwcomposerOutput.construct env).isValid = true ∧
    (∃ r, (HwcomposerOutput.construct env).m_modes =
      [{ id := 0, size := { width := env.config.width, height := env.config.height },
         flags := { Current := true, Preferred := true }, refreshRate := r }]) ∧
    (HwcomposerOutput.construct env).modeSize
      = { width := env.config.width, height := env.config.height } := by
  have hne : ¬ (env.config.width < 1 ∨ env.config.height < 1) := by omega
  refine ⟨construct_isValid env, ?_, ?_⟩
  · refine ⟨refreshRateOf
      (if env.config.width = 2072 then 20000000 else env.config.vsyncPeriod), ?_⟩
    rw [construct_modes, hW, hH]
    simp [QSize.isEmpty, hne]
  · simp [HwcomposerOutput.construct, hW, hH, QSize.isEmpty, hne, HwcomposerOutput.initialise,
      HwcomposerOutput.setCurrentModeInternal, HwcomposerOutput.modeSize]

/-- C15 witness: a 1080 x 1920 panel with a vsync period of 16666666 ns. -/
theorem construct_registers_one_mode_witness :
    ((0 : Int) < 1080 ∧ (0 : Int) < 1920) ∧
    (HwcomposerOutput.construct
      { config := { width := 1080, height := 1920, vsyncPeriod := 16666666 } }).modeSize
        = { width := 1080, height := 1920 } :=
  ⟨by decide,
    (construct_registers_one_mode
      { config := { width := 1080, height := 1920, vsyncPeriod := 16666666 } }
      rfl rfl (by decide) (by decide)).2.2⟩

/-- C16, the code at a failing input: for a configuration of width 0 the
constructor registers no mode, yet `isValid()` is true and `initialize()`
returns true. -/
theorem empty_size_passes_isValid :
    (HwcomposerOutput.construct
      { config := { width := 0, height := 1920, vsyncPeriod := 16666666 } }).m_modes = [] ∧
    (HwcomposerOutput.construct
      { config := { width := 0, height := 1920, vsyncPeriod := 16666666 } }).isValid = true ∧
    (initialise
      { poll := fun _ => true,
        output := { config := { width := 0, height := 1920, vsyncPeriod := 16666666 } } }
      {}).ok = true := by
  decide

/-! ## The hotplug wait -/

/-- The hotplug loop stops at the first poll that returns a display and makes
no more polls than it has iterations. -/
theorem hotplugLoop_spec (poll : Nat → Bool) :
    ∀ (n i : Nat),
      (hotplugLoop poll n i).polls ≤ i + n ∧
      ((hotplugLoop poll n i).found = true →
        i < (hotplugLoop poll n i).polls ∧
        poll ((hotplugLoop poll n i).polls - 1) = true ∧
        (hotplugLoop poll n i).sleeps = (hotplugLoop poll n i).polls - 1 ∧
        ∀ j, i ≤ j → j < (hotplugLoop poll n i).polls - 1 → poll j = false) ∧
      ((hotplugLoop poll n i).found = false →
        (hotplugLoop poll n i).polls = i + n ∧ (hotplugLoop poll n i).sleeps = i + n ∧
        ∀ j, i ≤ j → j < i + n → poll j = false) := by
  intro n
  induction n with
  | zero =>
    intro i
    simp only [hotplugLoop]
    refine ⟨by omega, fun h => absurd h (by simp), fun _ => ⟨rfl, rfl, ?_⟩⟩
    intro j h1 h2
    omega
  | succ n ih =>
    intro i
    simp only [hotplugLoop]
    by_cases hp : poll i = true
    · rw [if_pos hp]
      refine ⟨by simp, fun _ => ⟨by simp, by simpa using hp, by simp, ?_⟩,
        fun h => absurd h (by simp)⟩
      intro j h1 h2
      simp at h2
      omega
    · rw [if_neg hp]
      obtain ⟨h1, h2, h3⟩ := ih (i + 1)
      refine ⟨by omega, ?_, ?_⟩
      · intro hf
        obtain ⟨a, b, c, d⟩ := h2 hf
        refine ⟨by omega, b, c, ?_⟩
        intro j hj1 hj2
        by_cases hji : j = i
        · subst hji
          simpa using hp
        · exact d j (by omega) hj2
      · intro hf
        obtain ⟨a, b, c⟩ := h3 hf
        refine ⟨by omega, by omega, ?_⟩
        intro j hj1 hj2
        by_cases hji : j = i
        · subst hji
          simpa using hp
        · exact c j (by omega) (by omega)

/-- A HAL that never reports a display makes the loop use all its iterations. -/
theorem hotplugLoop_never (n i : Nat) :
    hotplugLoop (fun _ => false) n i = { found := false, polls := i + n, sleeps := i + n } := by
  induction n generalizing i with
  | zero => simp [hotplugLoop]
  | succ n ih =>
    simp only [hotplugLoop, Bool.false_eq_true, if_false]
    rw [ih]
    have : i + 1 + n = i + (n + 1) := by omega
    rw [this]

/-- C17, the code at a failing input: when all 5000 polls return no display,
`initialize()` goes on with the null display: `toggleBlankOutput()` sets the
power mode and the constructor of the output asks for the active configuration
of the null display, and `initialize()` returns true. -/
theorem hotplug_timeout_goes_on :
    (initialise
      { poll := fun _ => false,
        output := { config := { width := 1080, height := 1920, vsyncPeriod := 16666666 } } }
      {}).hotplug = { found := false, polls := 5000, sleeps := 5000 } ∧
    (initialise
      { poll := fun _ => false,
        output := { config := { width := 1080, height := 1920, vsyncPeriod := 16666666 } } }
      {}).world.backend.m_hwc2_primary_display = false ∧
    (initialise
      { poll := fun _ => false,
        output := { config := { width := 1080, height := 1920, vsyncPeriod := 16666666 } } }
      {}).world.trace =
        [Op.hwc2_compat_display_set_vsync_enabled true,
          Op.hwc2_compat_display_set_power_mode HWC2_POWER_MODE_ON,
          Op.outputBlankChanged,
          Op.hwc2_compat_display_get_active_config false] ∧
    (initialise
      { poll := fun _ => false,
        output := { config := { width := 1080, height := 1920, vsyncPeriod := 16666666 } } }
      {}).ok = true := by
  have h := hotplugLoop_never (5 * 1000) 0
  unfold HwcomposerBackend.initialise
  dsimp only
  rw [h]
  decide

/-! ## The refresh rate of the mode -/

/-- C18 as stated fails: for a vsync period of 1 ns the quotient 10^12 does
not fit the `int` refresh rate of the mode, which is 2147483647. -/
theorem refresh_rate_counterexample :
    (HwcomposerOutput.construct
      { config := { width := 1080, height := 1920, vsyncPeriod := 1 } }).m_modes =
      [{ id := 0, size := { width := 1080, height := 1920 },
         flags := { Current := true, Preferred := true }, refreshRate := 2147483647 }] ∧
    ¬ ((2147483647 : Int) = 1000000000000 / 1) := by
  decide

/-- C18 (amended): for every display configuration whose width is not 2072,
every mode the constructor registers has refresh rate 60000 mHz when the vsync
period is 0, and the integer part of `10^12 / p` when the period `p` is at
least 466 ns (so that the quotient fits an `int`; `p` is an `int32_t`). -/
theorem refresh_rate_of_mode (env : OutputEnv) (hwidth : env.config.width ≠ 2072) :
    ∀ m ∈ (HwcomposerOutput.construct env).m_modes,
      (env.config.vsyncPeriod = 0 → m.refreshRate = 60000) ∧
      (466 ≤ env.config.vsyncPeriod → env.config.vsyncPeriod ≤ 2147483647 →
        m.refreshRate = 1000000000000 / env.config.vsyncPeriod) := by
  intro m hm
  rw [construct_modes, if_neg hwidth] at hm
  split at hm
  · simp at hm
  · have hm' : m = _ := List.mem_singleton.mp hm
    rw [hm']
    constructor
    · intro h0
      simp [refreshRateOf, h0]
    · intro hlo hhi
      exact refreshRateOf_pos _ hlo hhi

/-- C18 witness: a 1080 x 1920 panel with a vsync period of 16666666 ns has a
mode of 60000 mHz. -/
theorem refresh_rate_of_mode_witness :
    ((1080 : Int) ≠ 2072 ∧ (466 : Int) ≤ 16666666 ∧ (16666666 : Int) ≤ 2147483647) ∧
    ∀ m ∈ (HwcomposerOutput.construct
        { config := { width := 1080, height := 1920, vsyncPeriod := 16666666 } }).m_modes,
      m.refreshRate = 60000 :=
  ⟨by decide, fun m hm =>
    ((refresh_rate_of_mode
      { config := { width := 1080, height := 1920, vsyncPeriod := 16666666 } }
      (by decide) m hm).2 (by decide) (by decide)).trans (by decide)⟩


/-! ## Waiting for and waking on vsync -/

/-- C21 as stated fails: a HAL that reports a vsync period of -16666666 ns
makes `initialize()` leave vsync enabled and `m_vsyncInterval` at -16; the
`unsigned long` timeout that the wait of `waitVSync()` then receives is
18446744073709551600 ms, so the wait is not bounded by `m_vsyncInterval`. -/
theorem waitVSync_unbounded_counterexample :
    (initialise
      { poll := fun _ => true,
        output := { config := { width := 1080, height := 1920, vsyncPeriod := -16666666 } } }
      {}).world.backend.m_hasVsync = true ∧
    (initialise
      { poll := fun _ => true,
        output := { config := { width := 1080, height := 1920, vsyncPeriod := -16666666 } } }
      {}).world.backend.m_vsyncInterval = -16 ∧
    callsSince
      (initialise
        { poll := fun _ => true,
          output := { config := { width := 1080, height := 1920, vsyncPeriod := -16666666 } } }
        {}).world
      (waitVSync (initialise
        { poll := fun _ => true,
          output := { config := { width := 1080, height := 1920, vsyncPeriod := -16666666 } } }
        {}).world)
      = [Op.mutex_lock, Op.condition_wait 18446744073709551600, Op.mutex_unlock] ∧
    ¬ ((18446744073709551600 : Int) ≤ -16) := by
  decide

/-- C21 (amended): with vsync disabled `waitVSync()` returns at once, leaving
the world as it is (no lock, no wait); with vsync enabled it locks the mutex,
waits once on the condition, unlocks the mutex, and changes nothing else.  The
timeout of the wait is `m_vsyncInterval` converted to `unsigned long`: it is
`m_vsyncInterval` itself when that `int` is not negative, and
`2^64 + m_vsyncInterval` when it is negative. -/
theorem waitVSync_spec (w : World) :
    (w.backend.m_hasVsync = false → waitVSync w = w) ∧
    (w.backend.m_hasVsync = true →
      waitVSync w = { w with trace := w.trace ++
        [Op.mutex_lock, Op.condition_wait (toULong w.backend.m_vsyncInterval),
          Op.mutex_unlock] }) ∧
    (0 ≤ w.backend.m_vsyncInterval → w.backend.m_vsyncInterval ≤ 2147483647 →
      (toULong w.backend.m_vsyncInterval : Int) = w.backend.m_vsyncInterval) ∧
    (w.backend.m_vsyncInterval < 0 → -2147483648 ≤ w.backend.m_vsyncInterval →
      (toULong w.backend.m_vsyncInterval : Int)
        = 18446744073709551616 + w.backend.m_vsyncInterval) := by
  refine ⟨?_, ?_, ?_, ?_⟩
  · intro h
    simp [waitVSync, h]
  · intro h
    simp [waitVSync, h, World.emit]
  · intro h0 h1
    unfold toULong
    rw [Int.toNat_of_nonneg (Int.emod_nonneg _ (by decide))]
    omega
  · intro h0 h1
    unfold toULong
    rw [Int.toNat_of_nonneg (Int.emod_nonneg _ (by decide))]
    omega

/-- C21 witness: a backend with vsync enabled and the default interval waits
with a timeout of 16 ms. -/
theorem waitVSync_spec_witness :
    ((0 : Int) ≤ 16 ∧ (16 : Int) ≤ 2147483647) ∧
    (toULong ({ backend := { m_hasVsync := true } } : World).backend.m_vsyncInterval : Int) = 16 ∧
    waitVSync { backend := { m_hasVsync := true } } =
      { backend := { m_hasVsync := true },
        trace := [Op.mutex_lock, Op.condition_wait 16, Op.mutex_unlock] } :=
  ⟨by decide,
    (waitVSync_spec { backend := { m_hasVsync := true } }).2.2.1 (by decide) (by decide),
    ((waitVSync_spec { backend := { m_hasVsync := true } }).2.1 rfl).trans (by decide)⟩


/-! ## The DPMS request protocol -/

/-- What the slot for `dpmsModeRequested` leaves, when there is a HWC2 device,
the slots are connected and there is an output. -/
theorem dpmsModeRequestedSlot_spec (w : World) (mode : DpmsMode) (o : HwcomposerOutput)
    (hdev : w.backend.m_hwc2device = true) (hconn : w.backend.updateDpmsConnected = true)
    (hout : w.backend.m_output = some o) :
    (dpmsModeRequestedSlot w mode).backend.m_outputBlank = !decide (mode = DpmsMode.On) ∧
    (callsSince w (dpmsModeRequestedSlot w mode)).count Op.outputBlankChanged = 1 ∧
    (dpmsModeRequestedSlot w mode).backend.m_output.map (fun o => o.dpmsMode)
      = some (if mode = DpmsMode.On then DpmsMode.On else DpmsMode.Off) ∧
    ∀ m, (callsSince w (dpmsModeRequestedSlot w mode)).count (Op.dpmsModeRequested m) = 0 := by
  have hb := toggleBlankOutput_backend w hdev
  have hc := toggleBlankOutput_calls w hdev
  have he : callsSince w (emitOutputBlankChanged w) = [Op.outputBlankChanged] := by
    simp [callsSince, emitOutputBlankChanged, updateDpms, World.emit, hconn, hout]
  have he' : (emitOutputBlankChanged w).backend.m_outputBlank = w.backend.m_outputBlank ∧
      (emitOutputBlankChanged w).backend.m_output.map (fun o => o.dpmsMode)
        = some (if w.backend.m_outputBlank then DpmsMode.Off else DpmsMode.On) := by
    simp [emitOutputBlankChanged, updateDpms, World.emit, hconn, hout]
  obtain ⟨hb1, -, -, -, -, -, -, hb8, -, -⟩ := hb
  cases hm : decide (mode = DpmsMode.On) <;> cases hbl : w.backend.m_outputBlank <;>
    simp only [decide_eq_true_eq, decide_eq_false_iff_not] at hm <;>
    simp [dpmsModeRequestedSlot, hm, hbl, hb1, hb8, hc, he, he', hconn, hout] <;>
    cases w.backend.m_lights <;> cases w.backend.m_hasVsync <;> cases w.compositor <;>
    simp [List.count_cons, List.count_append]

/-- The trace after `toggleBlankOutput` extends the trace before it. -/
theorem toggleBlankOutput_trace (w : World) :
    (toggleBlankOutput w).trace = w.trace ++ callsSince w (toggleBlankOutput w) := by
  unfold toggleBlankOutput callsSince
  cases hdev : w.backend.m_hwc2device <;>
    cases hb : w.backend.m_outputBlank <;> cases hv : w.backend.m_hasVsync <;>
    cases hl : w.backend.m_lights <;> cases ho : w.backend.m_output <;>
    cases hc : w.compositor <;> cases hd : w.backend.updateDpmsConnected <;>
    cases hf : w.backend.m_filter <;>
    simp [hdev, hb, hv, hl, ho, hc, hd, hf, toggleScreenBrightness, enableVSync, resetFilter,
      emitOutputBlankChanged, updateDpms, World.emit]

/-- The trace after the slot for `dpmsModeRequested` extends the trace before it. -/
theorem dpmsModeRequestedSlot_trace (w : World) (mode : DpmsMode) :
    (dpmsModeRequestedSlot w mode).trace
      = w.trace ++ callsSince w (dpmsModeRequestedSlot w mode) := by
  have ht := toggleBlankOutput_trace w
  have he : (emitOutputBlankChanged w).trace
      = w.trace ++ callsSince w (emitOutputBlankChanged w) := by
    unfold emitOutputBlankChanged callsSince
    cases hd : w.backend.updateDpmsConnected <;> cases ho : w.backend.m_output <;>
      simp [hd, ho, updateDpms, World.emit]
  unfold dpmsModeRequestedSlot
  split <;> split <;> assumption

/-- C22: with a HWC2 device, the slots of `initialize()` connected (a lights
device was found) and an output, `setDpmsMode(mode)` is the emission of
`dpmsModeRequested(mode)` followed by the backend's slot; for every mode and
every such state, afterwards the backend is unblanked exactly when `mode` is
`On`, `outputBlankChanged` was emitted exactly once, and the mode acknowledged
by the output is `Off` when blanked and `On` otherwise.  Without a connected
slot `setDpmsMode(mode)` only emits the signal and changes nothing. -/
theorem setDpmsMode_protocol (w : World) (mode : DpmsMode) (o : HwcomposerOutput)
    (hdev : w.backend.m_hwc2device = true) (hconn : w.backend.updateDpmsConnected = true)
    (hout : w.backend.m_output = some o) :
    HwcomposerOutput.setDpmsMode w mode
      = dpmsModeRequestedSlot (w.emit (Op.dpmsModeRequested mode)) mode ∧
    ((HwcomposerOutput.setDpmsMode w mode).backend.m_outputBlank = false ↔ mode = DpmsMode.On) ∧
    (callsSince w (HwcomposerOutput.setDpmsMode w mode)).count Op.outputBlankChanged = 1 ∧
    (callsSince w (HwcomposerOutput.setDpmsMode w mode)).count (Op.dpmsModeRequested mode) = 1 ∧
    (HwcomposerOutput.setDpmsMode w mode).backend.m_output.map (fun o => o.dpmsMode)
      = some (if (HwcomposerOutput.setDpmsMode w mode).backend.m_outputBlank
          then DpmsMode.Off else DpmsMode.On) ∧
    (∀ w0 : World, w0.backend.updateDpmsConnected = false →
      HwcomposerOutput.setDpmsMode w0 mode = w0.emit (Op.dpmsModeRequested mode)) := by
  have hset : HwcomposerOutput.setDpmsMode w mode
      = dpmsModeRequestedSlot (w.emit (Op.dpmsModeRequested mode)) mode := by
    simp [HwcomposerOutput.setDpmsMode, World.emit, hconn]
  obtain ⟨h1, h2, h3, h4⟩ := dpmsModeRequestedSlot_spec (w.emit (Op.dpmsModeRequested mode)) mode o
    (by simpa [World.emit] using hdev) (by simpa [World.emit] using hconn)
    (by simpa [World.emit] using hout)
  have htr := dpmsModeRequestedSlot_trace (w.emit (Op.dpmsModeRequested mode)) mode
  have hcalls : callsSince w (HwcomposerOutput.setDpmsMode w mode)
      = Op.dpmsModeRequested mode ::
        callsSince (w.emit (Op.dpmsModeRequested mode))
          (dpmsModeRequestedSlot (w.emit (Op.dpmsModeRequested mode)) mode) := by
    rw [hset]
    apply callsSince_append
    rw [htr]
    simp [World.emit]
  refine ⟨hset, ?_, ?_, ?_, ?_, ?_⟩
  · rw [hset, h1]
    by_cases hm : mode = DpmsMode.On <;> simp [hm]
  · rw [hcalls, List.count_cons, h2]
    simp
  · rw [hcalls, List.count_cons, h4]
    simp
  · rw [hset, h3, h1]
    by_cases hm : mode = DpmsMode.On <;> simp [hm]
  · intro w0 h0
    simp [HwcomposerOutput.setDpmsMode, World.emit, h0]

/-- C22 witness: the backend left by `initialize()` on a device with a lights
HAL is unblanked, has both slots connected and an output; asked for `Off` it
ends blanked, with the output acknowledging `Off`. -/
theorem setDpmsMode_protocol_witness :
    ((initialise
        { poll := fun _ => true, lightsModule := true, lightsDevice := true,
          output := { config := { width := 1080, height := 1920, vsyncPeriod := 16666666 } } }
        {}).world.backend.m_lights = true ∧
      (initialise
        { poll := fun _ => true, lightsModule := true, lightsDevice := true,
          output := { config := { width := 1080, height := 1920, vsyncPeriod := 16666666 } } }
        {}).world.backend.updateDpmsConnected = true) ∧
    ((HwcomposerOutput.setDpmsMode
        (initialise
          { poll := fun _ => true, lightsModule := true, lightsDevice := true,
            output := { config := { width := 1080, height := 1920, vsyncPeriod := 16666666 } } }
          {}).world
        DpmsMode.Off).backend.m_outputBlank = false ↔ DpmsMode.Off = DpmsMode.On) ∧
    (HwcomposerOutput.setDpmsMode
        (initialise
          { poll := fun _ => true, lightsModule := true, lightsDevice := true,
            output := { config := { width := 1080, height := 1920, vsyncPeriod := 16666666 } } }
          {}).world
        DpmsMode.Off).backend.m_output.map (fun o => o.dpmsMode) = some DpmsMode.Off :=
  ⟨by decide,
    (setDpmsMode_protocol
      (initialise
        { poll := fun _ => true, lightsModule := true, lightsDevice := true,
          output := { config := { width := 1080, height := 1920, vsyncPeriod := 16666666 } } }
        {}).world
      DpmsMode.Off
      (HwcomposerOutput.construct
        { config := { width := 1080, height := 1920, vsyncPeriod := 16666666 } })
      (by decide) (by decide) (by decide)).2.1,
    by decide⟩

/-! ## Waking on vsync and the compositing slot -/

/-- C23: every `wakeVSync()` call queues one `compositing(flags)` call, with
`flags` 0 when the semaphore has a resource available and 1 otherwise, then
wakes all waiters under the vsync mutex, and changes nothing else;
`compositing(flags)` on a backend with an output returns, releases and
acquires the semaphore once each, leaving its count as it was, and between the
two notifies the render loop of a completed frame exactly once when
`flags > 0` and a frame is pending, and not at all otherwise. -/
theorem wakeVSync_compositing (w : World) (flags pending : Int) (o : HwcomposerOutput)
    (hout : w.backend.m_output = some o) :
    wakeVSync w = { w with trace := w.trace ++
      [Op.invokeMethod_compositing (if w.backend.m_compositingSemaphore > 0 then 0 else 1),
        Op.mutex_lock, Op.condition_wakeAll, Op.mutex_unlock] } ∧
    compositing w flags pending = some { w with trace := w.trace ++
      [Op.semaphore_release] ++
      (if flags > 0 ∧ pending > 0 then [Op.notifyFrameCompleted] else []) ++
      [Op.semaphore_acquire] } := by
  constructor
  · simp [wakeVSync, World.emit]
  · by_cases hf : flags > 0 <;> by_cases hp : pending > 0 <;>
      simp [compositing, semaphoreAcquire, World.emit, hout, hf, hp] <;>
      rw [← hout]

/-- C23 witness: one vsync while no composition pass holds the semaphore,
with one frame pending. -/
theorem wakeVSync_compositing_witness :
    (wakeVSync { backend := { m_output := some {} } }).trace
      = [Op.invokeMethod_compositing 1, Op.mutex_lock, Op.condition_wakeAll, Op.mutex_unlock] ∧
    compositing { backend := { m_output := some {} } } 1 1
      = some { backend := { m_output := some {} },
               trace := [Op.semaphore_release, Op.notifyFrameCompleted, Op.semaphore_acquire] } :=
  ⟨by decide,
    (wakeVSync_compositing { backend := { m_output := some {} } } 1 1 {} rfl).2⟩


/-! ## The vsync interval -/

/-- When `initialize()` succeeds, the vsync interval it leaves is given by
`vsyncIntervalAfter` at the refresh rate of the output it constructed. -/
theorem initialise_vsyncInterval (env : HalEnv) (w : World)
    (hok : (initialise env w).ok = true) :
    (initialise env w).world.backend.m_output = some (HwcomposerOutput.construct env.output) ∧
    (initialise env w).world.backend.m_vsyncInterval
      = vsyncIntervalAfter w.backend.m_vsyncInterval
          (HwcomposerOutput.construct env.output).refreshRate := by
  unfold HwcomposerBackend.initialise at hok ⊢
  cases hm : env.hwcModule
  · simp [hm] at hok
  · have hv := construct_isValid env.output
    have hi : ∀ w1 : World, (toggleBlankOutput w1).backend.m_vsyncInterval
        = w1.backend.m_vsyncInterval := by
      intro w1
      unfold toggleBlankOutput
      cases hdev : w1.backend.m_hwc2device <;>
        cases hb : w1.backend.m_outputBlank <;> cases hv : w1.backend.m_hasVsync <;>
        cases hl : w1.backend.m_lights <;> cases ho : w1.backend.m_output <;>
        cases hc : w1.compositor <;> cases hd : w1.backend.updateDpmsConnected <;>
        cases hf : w1.backend.m_filter <;>
        simp [hdev, hb, hv, hl, ho, hc, hd, hf, toggleScreenBrightness, enableVSync, resetFilter,
          emitOutputBlankChanged, updateDpms, World.emit]
    have hl : ∀ w1 : World, (initLights env w1).backend.m_vsyncInterval
        = w1.backend.m_vsyncInterval := by
      intro w1
      unfold initLights
      split
      · rfl
      · split <;> rfl
    simp only [hm, Bool.not_true, Bool.false_eq_true, if_false, hv]
    constructor
    · split <;> split <;> simp [World.emit]
    · unfold vsyncIntervalAfter
      split <;> split <;> simp_all [World.emit]

/-- C24 as stated fails: a HAL that reports a vsync period of -16666666 ns
gives the output a refresh rate of -60000 mHz, which is not 0 and is below
1000000; `initialize()` succeeds and leaves the timeout -16, which is not at
least 1. -/
theorem vsync_interval_counterexample :
    (initialise
      { poll := fun _ => true,
        output := { config := { width := 1080, height := 1920, vsyncPeriod := -16666666 } } }
      {}).ok = true ∧
    (initialise
      { poll := fun _ => true,
        output := { config := { width := 1080, height := 1920, vsyncPeriod := -16666666 } } }
      {}).world.backend.m_output.map HwcomposerOutput.refreshRate = some (-60000) ∧
    (initialise
      { poll := fun _ => true,
        output := { config := { width := 1080, height := 1920, vsyncPeriod := -16666666 } } }
      {}).world.backend.m_vsyncInterval = -16 ∧
    ((-60000 : Int) ≠ 0 ∧ (-60000 : Int) ≤ 1000000 ∧ ¬ (1 : Int) ≤ -16) := by
  decide

/-- C24 (amended): after a successful `initialize()` there is an output, with
refresh rate `r` say, and the timeout of `waitVSync` is: the quotient
`1000000 / r` truncated towards zero when `r` is not 0 (16 for 60000, 20 for
50000), which is at least 1 when `0 < r <= 1000000`; and the value held
before, 16 by default, when `r` is 0. -/
theorem vsync_interval_of_refresh_rate (env : HalEnv) (w : World)
    (hok : (initialise env w).ok = true) :
    (∃ o, (initialise env w).world.backend.m_output = some o ∧
      (initialise env w).world.backend.m_vsyncInterval
        = vsyncIntervalAfter w.backend.m_vsyncInterval o.refreshRate) ∧
    (∀ cur r : Int, r ≠ 0 → vsyncIntervalAfter cur r = Int.tdiv 1000000 r) ∧
    (∀ cur r : Int, 0 < r → r ≤ 1000000 → 1 ≤ vsyncIntervalAfter cur r) ∧
    (∀ cur : Int, vsyncIntervalAfter cur 60000 = 16 ∧ vsyncIntervalAfter cur 50000 = 20) ∧
    (∀ cur : Int, vsyncIntervalAfter cur 0 = cur) ∧
    ({} : World).backend.m_vsyncInterval = 16 := by
  obtain ⟨h1, h2⟩ := initialise_vsyncInterval env w hok
  refine ⟨⟨_, h1, h2⟩, ?_, ?_, ?_, ?_, rfl⟩
  · intro cur r hr
    simp [vsyncIntervalAfter, hr]
  · intro cur r h0 h1
    have hr : r ≠ 0 := by omega
    simp only [vsyncIntervalAfter, bne_iff_ne, ne_eq, hr, not_false_eq_true, if_true]
    rw [Int.tdiv_eq_ediv (by decide) (by omega)]
    exact Int.le_ediv_of_mul_le h0 (by omega)
  · intro cur
    constructor <;> simp [vsyncIntervalAfter] <;> decide
  · intro cur
    simp [vsyncIntervalAfter]

/-- C24 witness: a 1080 x 1920 panel with a vsync period of 16666666 ns: the
refresh rate is 60000 mHz and the timeout 16 ms. -/
theorem vsync_interval_of_refresh_rate_witness :
    (initialise
      { poll := fun _ => true,
        output := { config := { width := 1080, height := 1920, vsyncPeriod := 16666666 } } }
      {}).ok = true ∧
    ∃ o, (initialise
      { poll := fun _ => true,
        output := { config := { width := 1080, height := 1920, vsyncPeriod := 16666666 } } }
      {}).world.backend.m_output = some o ∧
      (initialise
      { poll := fun _ => true,
        output := { config := { width := 1080, height := 1920, vsyncPeriod := 16666666 } } }
      {}).world.backend.m_vsyncInterval = vsyncIntervalAfter 16 o.refreshRate :=
  ⟨by decide,
    (vsync_interval_of_refresh_rate
      { poll := fun _ => true,
        output := { config := { width := 1080, height := 1920, vsyncPeriod := 16666666 } } }
      {} (by decide)).1⟩

/-! ## The quirk for panels of width 2072 -/

/-- C25: when the HAL reports a width of 2072 the constructor uses a vsync
period of 20000000 ns whatever period the HAL reports, so every mode it
registers has a refresh rate of 50000 mHz; for any other reported width the
refresh rate is computed from the reported period.  The width tested is the one
the HAL reports: the values of `KWIN_DEBUG_WIDTH` and `KWIN_DEBUG_HEIGHT` are
arbitrary here, and when the pixel size they leave is not empty there is
exactly one mode. -/
theorem panel_quirk (env : OutputEnv) :
    (env.config.width = 2072 →
      ∀ m ∈ (HwcomposerOutput.construct env).m_modes,
        m.refreshRate = refreshRateOf 20000000 ∧ m.refreshRate = 50000) ∧
    (env.config.width ≠ 2072 →
      ∀ m ∈ (HwcomposerOutput.construct env).m_modes,
        m.refreshRate = refreshRateOf env.config.vsyncPeriod) ∧
    (QSize.isEmpty { width := env.debugWidth.getD env.config.width,
                     height := env.debugHeight.getD env.config.height } = false →
      (HwcomposerOutput.construct env).m_modes.length = 1) := by
  have hm := construct_modes env
  have h50 : refreshRateOf 20000000 = 50000 := by decide
  refine ⟨?_, ?_, ?_⟩
  · intro hw m hmem
    rw [hm, if_pos hw] at hmem
    split at hmem
    · simp at hmem
    · have hm' : m = _ := List.mem_singleton.mp hmem
      rw [hm']
      exact ⟨rfl, h50⟩
  · intro hw m hmem
    rw [hm, if_neg hw] at hmem
    split at hmem
    · simp at hmem
    · have hm' : m = _ := List.mem_singleton.mp hmem
      rw [hm']
  · intro he
    rw [hm, he]
    simp

/-- C25 witness: a HAL width of 2072 with `KWIN_DEBUG_WIDTH=1080` and a
reported period of 0 gives one mode of 50000 mHz. -/
theorem panel_quirk_witness :
    (HwcomposerOutput.construct
      { config := { width := 2072, height := 1080, vsyncPeriod := 0 },
        debugWidth := some 1080 }).m_modes.length = 1 ∧
    ∀ m ∈ (HwcomposerOutput.construct
      { config := { width := 2072, height := 1080, vsyncPeriod := 0 },
        debugWidth := some 1080 }).m_modes, m.refreshRate = 50000 :=
  ⟨(panel_quirk
      { config := { width := 2072, height := 1080, vsyncPeriod := 0 },
        debugWidth := some 1080 }).2.2 (by decide),
    fun m hm =>
      ((panel_quirk
        { config := { width := 2072, height := 1080, vsyncPeriod := 0 },
          debugWidth := some 1080 }).1 rfl m hm).2⟩

/-! ## Acknowledging DPMS in the plugin -/

/-- C26, the code at its failing inputs: when the output and its wayland
output both exist the slot `updateDpms` of the plugin sets no DPMS mode and
leaves the backend as it is, whether blanked or not; when the wayland output or
the output does not exist it dereferences the null pointer. -/
theorem plugin_updateDpms_inverted (b : Plugin.HwcomposerBackend) (waylandOutput : Bool) :
    Plugin.HwcomposerBackend.updateDpms b true true = some b ∧
    Plugin.HwcomposerBackend.updateDpms b true false = none ∧
    Plugin.HwcomposerBackend.updateDpms b false waylandOutput = none := by
  simp [Plugin.HwcomposerBackend.updateDpms]


/-! ## Resetting the double-tap detector -/

/-- While the timer is invalid, releasing touches requests no toggle and
leaves the timer invalid. -/
theorem touchUps_invalid_timer (I : Int) (ups : List (Int × Int)) :
    ∀ s : BacklightInputEventFilter, s.m_doubleTapTimer = none →
      (BacklightInputEventFilter.handleAll s true I
        (ups.map (fun u => (u.1, InputEvent.touchUp u.2)))).2.toggleRequests = s.toggleRequests ∧
      (BacklightInputEventFilter.handleAll s true I
        (ups.map (fun u => (u.1, InputEvent.touchUp u.2)))).2.m_doubleTapTimer = none := by
  induction ups with
  | nil =>
    intro s hs
    exact ⟨rfl, hs⟩
  | cons u rest ih =>
    intro s hs
    have hstep : (s.handle true I u.1 (InputEvent.touchUp u.2)).2
        = { s with m_touchPoints := s.m_touchPoints.filter (fun x => x != u.2) } := by
      simp [BacklightInputEventFilter.handle, BacklightInputEventFilter.touchUp, hs]
    simp only [List.map_cons, BacklightInputEventFilter.handleAll]
    rw [hstep]
    exact ih _ hs

/-- C27: while blanked, (a) a second touch that goes down within the interval
`I` of the first touch-down but is lifted at or after `I` requests no toggle and
leaves the detector reset (timer invalid, `m_secondTap` false, no touch point);
(b) a touch-down while another touch point is held invalidates the timer and
clears `m_secondTap`, and releasing touches after it, in any order and at any
time, requests no toggle; (c) a touch event changes the number of requested
toggles only if it is a touch-up that leaves no touch point held, and then by
one. -/
theorem double_tap_reset (s : BacklightInputEventFilter) (a b I t0 t1 t2 t3 now id : Int)
    (ups : List (Int × Int)) (h2 : t2 - t0 < I) (h3 : I ≤ t3 - t0)
    (hheld : s.m_touchPoints ≠ []) :
    BacklightInputEventFilter.handleAll {} true I
        [(t0, InputEvent.touchDown a), (t1, InputEvent.touchUp a),
          (t2, InputEvent.touchDown b), (t3, InputEvent.touchUp b)]
      = ([true, true, true, true],
          { m_doubleTapTimer := none, m_touchPoints := [], m_secondTap := false,
            toggleRequests := 0 }) ∧
    ((s.touchDown true I now id).2.m_doubleTapTimer = none ∧
      (s.touchDown true I now id).2.m_secondTap = false ∧
      (s.touchDown true I now id).2.toggleRequests = s.toggleRequests ∧
      (BacklightInputEventFilter.handleAll (s.touchDown true I now id).2 true I
        (ups.map (fun u => (u.1, InputEvent.touchUp u.2)))).2.toggleRequests
        = s.toggleRequests) ∧
    (∀ (s0 : BacklightInputEventFilter) (J t i : Int),
      (s0.handle true J t (InputEvent.touchDown i)).2.toggleRequests = s0.toggleRequests ∧
      (s0.handle true J t (InputEvent.touchMotion i)).2.toggleRequests = s0.toggleRequests ∧
      ((s0.handle true J t (InputEvent.touchUp i)).2.toggleRequests ≠ s0.toggleRequests →
        (s0.handle true J t (InputEvent.touchUp i)).2.m_touchPoints = [] ∧
        (s0.handle true J t (InputEvent.touchUp i)).2.toggleRequests
          = s0.toggleRequests + 1)) := by
  have hn3 : ¬ t3 - t0 < I := by omega
  have hdown : (s.touchDown true I now id).2
      = { s with m_doubleTapTimer := none, m_secondTap := false,
                 m_touchPoints := s.m_touchPoints ++ [id] } := by
    have : s.m_touchPoints.isEmpty = false := by
      cases hp : s.m_touchPoints with
      | nil => exact absurd hp hheld
      | cons x xs => rfl
    simp [BacklightInputEventFilter.touchDown, this]
  refine ⟨?_, ⟨?_, ?_, ?_, ?_⟩, ?_⟩
  · simp [BacklightInputEventFilter.handleAll, BacklightInputEventFilter.handle,
      BacklightInputEventFilter.touchDown, BacklightInputEventFilter.touchUp,
      BacklightInputEventFilter.elapsed, BacklightInputEventFilter.toggleBacklight, h2, hn3]
  · rw [hdown]
  · rw [hdown]
  · rw [hdown]
  · rw [(touchUps_invalid_timer I ups _ (by rw [hdown])).1, hdown]
  · intro s0 J t i
    refine ⟨?_, ?_, ?_⟩
    · simp only [BacklightInputEventFilter.handle, BacklightInputEventFilter.touchDown]
      simp
      split <;> (try split) <;> (try split) <;> rfl
    · rfl
    · simp only [BacklightInputEventFilter.handle, BacklightInputEventFilter.touchUp,
        BacklightInputEventFilter.toggleBacklight, BacklightInputEventFilter.elapsed]
      cases hT : s0.m_doubleTapTimer <;> cases hS : s0.m_secondTap <;>
        cases hP : s0.m_touchPoints.filter (fun x => x != i) <;> simp [hT, hS, hP]
      split <;> simp

/-- C27 witness: taps at 0 and 150 ms with the second lifted at 450 ms, an
interval of 400 ms; and a second finger put down while the first is held. -/
theorem double_tap_reset_witness :
    ((150 : Int) - 0 < 400 ∧ (400 : Int) ≤ 450 - 0) ∧
    (BacklightInputEventFilter.handleAll {} true 400
        [(0, InputEvent.touchDown 1), (60, InputEvent.touchUp 1),
          (150, InputEvent.touchDown 1), (450, InputEvent.touchUp 1)]).2 = {} :=
  ⟨by decide,
    congrArg Prod.snd
      (double_tap_reset { m_touchPoints := [1] } 1 1 400 0 60 150 450 10 2 [(20, 1), (30, 2)]
        (by decide) (by decide) (by decide)).1⟩


/-! ## The focus chain: every client at most once -/

/-- Removing a client keeps a chain without repetition. -/
theorem Chain.removeAll_nodup (chain : Chain) (client : Nat) (h : chain.Nodup) :
    (Chain.removeAll chain client).Nodup :=
  h.filter _

/-- After `removeAll(client)` the chain does not hold `client`. -/
theorem Chain.not_mem_removeAll (chain : Chain) (client : Nat) :
    client ∉ Chain.removeAll chain client := by
  simp [Chain.removeAll]

/-- `insert(i, client)` adds `client` once, wherever `i` points. -/
theorem Chain.insert_perm (chain : Chain) (i : Int) (client : Nat) :
    List.Perm (Chain.insert chain i client) (client :: chain) := by
  unfold Chain.insert
  split
  · exact List.Perm.refl _
  · split
    · exact List.perm_append_singleton _ _
    · have h := @List.perm_middle Nat client (chain.take i.toNat) (chain.drop i.toNat)
      rw [List.take_append_drop] at h
      exact h

/-- Inserting a client that is not in a chain without repetition leaves it without repetition. -/
theorem Chain.insert_nodup (chain : Chain) (i : Int) (client : Nat) (h : chain.Nodup)
    (hc : client ∉ chain) : (Chain.insert chain i client).Nodup :=
  (Chain.insert_perm chain i client).nodup_iff.mpr (List.nodup_cons.mpr ⟨hc, h⟩)

/-- Appending a client that is not in a chain without repetition leaves it without repetition. -/
theorem Chain.append_singleton_nodup (chain : Chain) (client : Nat) (h : chain.Nodup)
    (hc : client ∉ chain) : (chain ++ [client]).Nodup :=
  (List.perm_append_singleton client chain).nodup_iff.mpr (List.nodup_cons.mpr ⟨hc, h⟩)

/-- `makeFirstInChain` keeps a chain without repetition. -/
theorem FocusChain.makeFirstInChain_nodup (env : ClientEnv) (client : Nat) (chain : Chain)
    (h : chain.Nodup) : (FocusChain.makeFirstInChain env client chain).Nodup := by
  have h1 := Chain.removeAll_nodup chain client h
  have h2 := Chain.not_mem_removeAll chain client
  unfold FocusChain.makeFirstInChain
  simp only
  split
  · split
    · split
      · exact Chain.insert_nodup _ _ _ h1 h2
      · exact List.nodup_cons.mpr ⟨h2, h1⟩
    · exact Chain.append_singleton_nodup _ _ h1 h2
  · exact Chain.append_singleton_nodup _ _ h1 h2

/-- `makeLastInChain` keeps a chain without repetition. -/
theorem FocusChain.makeLastInChain_nodup (client : Nat) (chain : Chain) (h : chain.Nodup) :
    (FocusChain.makeLastInChain client chain).Nodup :=
  List.nodup_cons.mpr ⟨Chain.not_mem_removeAll chain client, Chain.removeAll_nodup chain client h⟩

/-- `insertClientIntoChain` keeps a chain without repetition. -/
theorem FocusChain.insertClientIntoChain_nodup (fc : FocusChain) (client : Nat) (chain : Chain)
    (h : chain.Nodup) : (FocusChain.insertClientIntoChain fc client chain).Nodup := by
  unfold FocusChain.insertClientIntoChain
  split
  · exact h
  · rename_i hc
    have hc' : client ∉ chain := by simpa using hc
    split
    · exact Chain.insert_nodup _ _ _ h hc'
    · exact Chain.append_singleton_nodup _ _ h hc'

/-- `updateClientInChain` keeps a chain without repetition. -/
theorem FocusChain.updateClientInChain_nodup (env : ClientEnv) (fc : FocusChain) (client : Nat)
    (change : Change) (chain : Chain) (h : chain.Nodup) :
    (FocusChain.updateClientInChain env fc client change chain).Nodup := by
  unfold FocusChain.updateClientInChain
  split
  · exact FocusChain.makeFirstInChain_nodup env client chain h
  · split
    · exact FocusChain.makeLastInChain_nodup client chain h
    · exact FocusChain.insertClientIntoChain_nodup fc client chain h

/-- `moveAfterClientInChain` keeps a chain without repetition. -/
theorem FocusChain.moveAfterClientInChain_nodup (env : ClientEnv) (client reference : Nat)
    (chain : Chain) (h : chain.Nodup) :
    (FocusChain.moveAfterClientInChain env client reference chain).Nodup := by
  have h1 := Chain.removeAll_nodup chain client h
  have h2 := Chain.not_mem_removeAll chain client
  unfold FocusChain.moveAfterClientInChain
  simp only
  split
  · exact h
  · split
    · exact Chain.insert_nodup _ _ _ h1 h2
    · split
      · exact Chain.insert_nodup _ _ _ h1 h2
      · exact h1

/-- C28: if every chain of desktop and the chain of most recently used clients
hold each client at most once, the same is true after `update(client, change)`
for every `change` and either setting of the option on minimized windows (a
field of `env`), after `remove(client)`, `addDesktop`, `removeDesktop`, and
`moveAfterClient(client, reference)` with `reference` other than `client`; and
after `remove(client)` no chain holds `client`. -/
theorem focus_chain_distinct (env : ClientEnv) (fc : FocusChain) (client reference desktop : Nat)
    (change : Change) (h : fc.chainsDistinct) (_href : reference ≠ client) :
    (FocusChain.update env fc client change).chainsDistinct ∧
    (FocusChain.remove fc client).chainsDistinct ∧
    (FocusChain.addDesktop fc desktop).chainsDistinct ∧
    (FocusChain.removeDesktop fc desktop).chainsDistinct ∧
    (FocusChain.moveAfterClient env fc client reference).chainsDistinct ∧
    (FocusChain.remove fc client).holdsNowhere client := by
  obtain ⟨hm, hd⟩ := h
  have hremove : (FocusChain.remove fc client).chainsDistinct := by
    refine ⟨Chain.removeAll_nodup _ _ hm, ?_⟩
    intro it hit
    simp only [FocusChain.remove, List.mem_map] at hit
    obtain ⟨it0, hit0, rfl⟩ := hit
    exact Chain.removeAll_nodup _ _ (hd it0 hit0)
  refine ⟨?_, hremove, ?_, ?_, ?_, ?_⟩
  · unfold FocusChain.update
    split
    · exact hremove
    · refine ⟨FocusChain.updateClientInChain_nodup env fc client change _ hm, ?_⟩
      intro it hit
      simp only at hit
      split at hit
      · simp only [List.mem_map] at hit
        obtain ⟨it0, hit0, rfl⟩ := hit
        split
        · split
          · exact FocusChain.makeFirstInChain_nodup env client _ (hd it0 hit0)
          · exact FocusChain.makeLastInChain_nodup client _ (hd it0 hit0)
        · exact FocusChain.insertClientIntoChain_nodup fc client _ (hd it0 hit0)
      · simp only [List.mem_map] at hit
        obtain ⟨it0, hit0, rfl⟩ := hit
        split
        · exact FocusChain.updateClientInChain_nodup env fc client change _ (hd it0 hit0)
        · exact Chain.removeAll_nodup _ _ (hd it0 hit0)
  · refine ⟨hm, ?_⟩
    intro it hit
    simp only [FocusChain.addDesktop, List.mem_cons, List.mem_filter] at hit
    rcases hit with rfl | ⟨hit, -⟩
    · exact List.nodup_nil
    · exact hd it hit
  · unfold FocusChain.removeDesktop
    simp only
    refine ⟨?_, ?_⟩
    · split <;> exact hm
    · intro it hit
      have hit' : it ∈ fc.m_desktopFocusChains := by
        split at hit <;> exact (List.mem_filter.mp hit).1
      exact hd it hit'
  · unfold FocusChain.moveAfterClient
    split
    · exact ⟨hm, hd⟩
    · refine ⟨FocusChain.moveAfterClientInChain_nodup env client reference _ hm, ?_⟩
      intro it hit
      simp only [List.mem_map] at hit
      obtain ⟨it0, hit0, rfl⟩ := hit
      split
      · exact hd it0 hit0
      · exact FocusChain.moveAfterClientInChain_nodup env client reference _ (hd it0 hit0)
  · refine ⟨Chain.not_mem_removeAll _ _, ?_⟩
    intro it hit
    simp only [FocusChain.remove, List.mem_map] at hit
    obtain ⟨it0, hit0, rfl⟩ := hit
    exact Chain.not_mem_removeAll _ _

/-- C28 witness: moving the minimized client 3 to the front of the example
chains leaves every chain without repetition. -/
theorem focus_chain_distinct_witness :
    exampleFocusChain.chainsDistinct ∧
    (FocusChain.update exampleClients exampleFocusChain 3 Change.MakeFirst).chainsDistinct ∧
    (FocusChain.remove exampleFocusChain 3).holdsNowhere 3 :=
  ⟨⟨by decide, by decide⟩,
    (focus_chain_distinct exampleClients exampleFocusChain 3 1 0 Change.MakeFirst
      ⟨by decide, by decide⟩ (by decide)).1,
    (focus_chain_distinct exampleClients exampleFocusChain 3 1 0 Change.MakeFirst
      ⟨by decide, by decide⟩ (by decide)).2.2.2.2.2⟩

/-! ## The focus chain: walking the most recently used clients -/

/-- In a chain without repetition `indexOf` finds the client at index `i` at `i`. -/
theorem FocusChain.indexOf_getElem (chain : Chain) (h : chain.Nodup) (i : Nat)
    (hi : i < chain.length) : Chain.indexOf chain chain[i] = (i : Int) := by
  unfold Chain.indexOf
  rw [if_pos (List.getElem_mem _), List.indexOf_getElem h i hi]

/-- From the client at index `i` the next one is at index `i - 1`, or the last one when `i` is 0. -/
theorem FocusChain.nextMostRecentlyUsed_getElem (fc : FocusChain)
    (h : fc.m_mostRecentlyUsed.Nodup) (i : Nat) (hi : i < fc.m_mostRecentlyUsed.length) :
    fc.nextMostRecentlyUsed fc.m_mostRecentlyUsed[i]
      = some (fc.m_mostRecentlyUsed.getD
          (if i = 0 then fc.m_mostRecentlyUsed.length - 1 else i - 1) 0) := by
  have hne : fc.m_mostRecentlyUsed.isEmpty = false := by
    cases hl : fc.m_mostRecentlyUsed with
    | nil => rw [hl] at hi; exact absurd hi (by simp)
    | cons x xs => rfl
  unfold FocusChain.nextMostRecentlyUsed
  simp only [hne, Bool.false_eq_true, if_false, FocusChain.indexOf_getElem _ h i hi]
  by_cases h0 : i = 0
  · subst h0
    have hlt : fc.m_mostRecentlyUsed.length - 1 < fc.m_mostRecentlyUsed.length := by omega
    simp [List.getLast?_eq_getElem?, List.getD_eq_getElem _ _ hlt, List.getElem?_eq_getElem hlt]
  · have h1 : ¬ ((i : Int) == -1) = true := by
      simp only [beq_iff_eq]
      omega
    have h2 : ¬ ((i : Int) == 0) = true := by
      simp only [beq_iff_eq]
      omega
    have hlt : i - 1 < fc.m_mostRecentlyUsed.length := by omega
    have h3 : ((i : Int) - 1).toNat = i - 1 := by omega
    simp only [h1, h2, if_false, h0, h3]
    rw [List.getElem?_eq_getElem hlt, List.getD_eq_getElem _ _ hlt]
    simp


/-- The walk of `k <= n` steps from the client at index `i` of a chain of
length `n` without repetition visits the indices `i - 1, ..., 0, n - 1, ...`
in this order. -/
theorem FocusChain.walkMostRecentlyUsed_getElem (fc : FocusChain)
    (h : fc.m_mostRecentlyUsed.Nodup) :
    ∀ (k i : Nat) (hi : i < fc.m_mostRecentlyUsed.length), k ≤ fc.m_mostRecentlyUsed.length →
      fc.walkMostRecentlyUsed k fc.m_mostRecentlyUsed[i]
        = (List.range k).map (fun j => fc.m_mostRecentlyUsed.getD
            (if j < i then i - 1 - j else i + fc.m_mostRecentlyUsed.length - 1 - j) 0) := by
  intro k
  induction k with
  | zero =>
    intro i hi _
    rfl
  | succ k ih =>
    intro i hi hk
    have hp : (if i = 0 then fc.m_mostRecentlyUsed.length - 1 else i - 1)
        < fc.m_mostRecentlyUsed.length := by
      split <;> omega
    rw [FocusChain.walkMostRecentlyUsed, FocusChain.nextMostRecentlyUsed_getElem fc h i hi]
    simp only
    rw [List.getD_eq_getElem _ _ hp, ih _ hp (by omega), List.range_succ_eq_map, List.map_cons,
      List.map_map]
    congr 1
    · rw [List.getD_eq_getElem _ _ (by split <;> omega)]
      congr 1
      split <;> split <;> omega
    · apply List.map_congr_left
      intro j hj
      have hj' : j < k := List.mem_range.mp hj
      simp only [Function.comp]
      congr 1
      by_cases h0 : i = 0
      · subst h0
        simp only [if_true]
        split <;> split <;> omega
      · simp only [h0, if_false]
        split <;> split <;> omega


/-- A chain is the list of its entries by index. -/
theorem Chain.map_getD_range (chain : Chain) :
    (List.range chain.length).map (fun t => chain.getD t 0) = chain := by
  apply List.ext_getElem
  · simp
  · intro t h1 h2
    simp [List.getElem?_eq_getElem h2]

/-- Going down a cycle of length `n` from index `i` meets every index once. -/
theorem Chain.cycle_perm (n i : Nat) (hi : i < n) :
    List.Perm ((List.range n).map (fun j => if j < i then i - 1 - j else i + n - 1 - j))
      (List.range n) := by
  rw [List.perm_ext_iff_of_nodup]
  · intro t
    simp only [List.mem_map, List.mem_range]
    constructor
    · rintro ⟨j, hj, rfl⟩
      split <;> omega
    · intro ht
      refine ⟨if t < i then i - 1 - t else i + n - 1 - t, ?_, ?_⟩
      · split <;> omega
      · split <;> split <;> omega
  · apply List.Nodup.map_on _ (List.nodup_range n)
    intro a ha b hb hab
    rw [List.mem_range] at ha hb
    split at hab <;> split at hab <;> omega
  · exact List.nodup_range n

/-- C29: on a chain of most recently used clients without repetition, of
length `n >= 1`, `nextMostRecentlyUsed` maps the client at index `i` to the one
at index `(i - 1) mod n` (written `(i + (n - 1)) % n`); the `n` clients reached
by `n` successive calls from a member are the members of the chain, each once,
the last of them being the member started from; a reference that is not in the
chain is mapped to the first client; on an empty chain the result is null. -/
theorem nextMostRecentlyUsed_cycle (fc : FocusChain) (reference : Nat)
    (h : fc.m_mostRecentlyUsed.Nodup) :
    (∀ (i : Nat) (hi : i < fc.m_mostRecentlyUsed.length),
      (fc.nextMostRecentlyUsed fc.m_mostRecentlyUsed[i]).isSome = true ∧
      fc.nextMostRecentlyUsed fc.m_mostRecentlyUsed[i]
        = fc.m_mostRecentlyUsed[(i + (fc.m_mostRecentlyUsed.length - 1))
            % fc.m_mostRecentlyUsed.length]?) ∧
    (∀ x ∈ fc.m_mostRecentlyUsed,
      List.Perm (fc.walkMostRecentlyUsed fc.m_mostRecentlyUsed.length x) fc.m_mostRecentlyUsed ∧
      (fc.walkMostRecentlyUsed fc.m_mostRecentlyUsed.length x).getLast? = some x) ∧
    (fc.m_mostRecentlyUsed ≠ [] → reference ∉ fc.m_mostRecentlyUsed →
      fc.nextMostRecentlyUsed reference = fc.m_mostRecentlyUsed.head? ∧
      (fc.nextMostRecentlyUsed reference).isSome = true) ∧
    (fc.m_mostRecentlyUsed = [] → fc.nextMostRecentlyUsed reference = none) := by
  refine ⟨?_, ?_, ?_, ?_⟩
  · intro i hi
    rw [FocusChain.nextMostRecentlyUsed_getElem fc h i hi]
    refine ⟨rfl, ?_⟩
    have hidx : (i + (fc.m_mostRecentlyUsed.length - 1)) % fc.m_mostRecentlyUsed.length
        = if i = 0 then fc.m_mostRecentlyUsed.length - 1 else i - 1 := by
      split
      · rename_i h0
        subst h0
        rw [Nat.zero_add]
        exact Nat.mod_eq_of_lt (by omega)
      · have : i + (fc.m_mostRecentlyUsed.length - 1)
            = (i - 1) + fc.m_mostRecentlyUsed.length := by omega
        rw [this, Nat.add_mod_right]
        exact Nat.mod_eq_of_lt (by omega)
    have hp : (if i = 0 then fc.m_mostRecentlyUsed.length - 1 else i - 1)
        < fc.m_mostRecentlyUsed.length := by
      split <;> omega
    rw [hidx, List.getElem?_eq_getElem hp, List.getD_eq_getElem _ _ hp]
  · intro x hx
    obtain ⟨i, hi, rfl⟩ := List.getElem_of_mem hx
    rw [FocusChain.walkMostRecentlyUsed_getElem fc h _ i hi (Nat.le_refl _)]
    constructor
    · have hperm := (Chain.cycle_perm fc.m_mostRecentlyUsed.length i hi).map
        (fun t => fc.m_mostRecentlyUsed.getD t 0)
      rw [List.map_map, Chain.map_getD_range] at hperm
      exact hperm
    · obtain ⟨m, hm⟩ : ∃ m, fc.m_mostRecentlyUsed.length = m + 1 :=
        ⟨fc.m_mostRecentlyUsed.length - 1, by omega⟩
      rw [hm, List.range_succ, List.map_append, List.map_singleton, List.getLast?_concat]
      have : ¬ m < i := by omega
      simp only [this, if_false]
      have hidx : i + (m + 1) - 1 - m = i := by omega
      rw [hidx, List.getD_eq_getElem _ _ hi]
  · intro hne hnot
    have hne' : fc.m_mostRecentlyUsed.isEmpty = false := by
      cases hl : fc.m_mostRecentlyUsed with
      | nil => exact absurd hl hne
      | cons x xs => rfl
    have hnext : fc.nextMostRecentlyUsed reference = fc.m_mostRecentlyUsed.head? := by
      simp [FocusChain.nextMostRecentlyUsed, hne', Chain.indexOf, hnot]
    refine ⟨hnext, ?_⟩
    rw [hnext]
    cases hl : fc.m_mostRecentlyUsed with
    | nil => exact absurd hl hne
    | cons x xs => rfl
  · intro he
    simp [FocusChain.nextMostRecentlyUsed, he]


/-- C29 witness: on the example chain `[1, 2, 3, 4]` four steps from client 2
visit 1, 4, 3 and 2. -/
theorem nextMostRecentlyUsed_cycle_witness :
    exampleFocusChain.m_mostRecentlyUsed.Nodup ∧
    exampleFocusChain.walkMostRecentlyUsed 4 2 = [1, 4, 3, 2] ∧
    (exampleFocusChain.walkMostRecentlyUsed 4 2).getLast? = some 2 :=
  ⟨by decide, by decide,
    ((nextMostRecentlyUsed_cycle exampleFocusChain 9 (by decide)).2.1 2 (by decide)).2⟩

/-! ## The focus chain: the client to activate -/

/-- Looking a desktop up after every chain was changed in place. -/
theorem Chain.lookup_map (f : Nat × Chain → Nat × Chain) (hf : ∀ it, (f it).1 = it.1)
    (desktop : Nat) :
    ∀ l : List (Nat × Chain),
      (l.map f).lookup desktop = (l.lookup desktop).map (fun chain => (f (desktop, chain)).2) := by
  intro l
  induction l with
  | nil => rfl
  | cons it rest ih =>
    obtain ⟨k, v⟩ := it
    have hk : (f (k, v)).1 = k := hf (k, v)
    have hfe : f (k, v) = (k, (f (k, v)).2) := Prod.ext hk rfl
    rw [List.map_cons, hfe, List.lookup_cons, List.lookup_cons]
    by_cases hd : desktop = k
    · subst hd
      simp
    · have : (desktop == k) = false := by simpa using hd
      simp only [this]
      exact ih

/-- With the option off or the client not minimized, `makeFirstInChain` appends the client. -/
theorem FocusChain.makeFirstInChain_append (env : ClientEnv) (client : Nat) (chain : Chain)
    (hmin : env.moveMinimizedWindowsToEndOfTabBoxFocusChain = false ∨
      env.isMinimized client = false) :
    FocusChain.makeFirstInChain env client chain = Chain.removeAll chain client ++ [client] := by
  unfold FocusChain.makeFirstInChain
  rcases hmin with h | h <;> simp [h]

/-- The downward scan stops at the last client when it passes the test. -/
theorem Chain.lastIndexWhere_concat (chain : Chain) (client : Nat) (p : Nat → Bool)
    (hp : p client = true) :
    Chain.lastIndexWhere (chain ++ [client]) p (chain ++ [client]).length = some chain.length := by
  rw [List.length_append, List.length_singleton, Chain.lastIndexWhere]
  simp [hp]

/-- C30: for a client `c` that wants tab focus, is not on all desktops and is
on a desktop `d` that has a chain, with the option on minimized windows off or
`c` not minimized: after `update(c, MakeFirst)` `c` is the last client of the
chain of `d` and of the chain of most recently used clients, and is in no chain
of a desktop it is not on; and if `c` is not shaded, is shown, is on the current
activity and, with separate screen focus, is on `output`, then
`getForActivation(d, output)` returns `c`.  For a desktop without a chain
`getForActivation` returns null. -/
theorem update_then_getForActivation (env : ClientEnv) (fc : FocusChain) (c d output : Nat)
    (chain : Chain)
    (hwants : env.wantsTabFocus c = true) (hall : env.isOnAllDesktops c = false)
    (hon : env.isOnDesktop c d = true)
    (hd : fc.m_desktopFocusChains.lookup d = some chain)
    (hmin : env.moveMinimizedWindowsToEndOfTabBoxFocusChain = false ∨
      env.isMinimized c = false) :
    (∃ chain', (FocusChain.update env fc c Change.MakeFirst).m_desktopFocusChains.lookup d
        = some chain' ∧ chain'.getLast? = some c) ∧
    (FocusChain.update env fc c Change.MakeFirst).m_mostRecentlyUsed.getLast? = some c ∧
    (∀ it ∈ (FocusChain.update env fc c Change.MakeFirst).m_desktopFocusChains,
      env.isOnDesktop c it.1 = false → c ∉ it.2) ∧
    (env.isShade c = false → env.isShown c = true → env.isOnCurrentActivity c = true →
      (fc.m_separateScreenFocus = false ∨ env.output c = output) →
      FocusChain.getForActivation env (FocusChain.update env fc c Change.MakeFirst) d output
        = some c) ∧
    (∀ (fc0 : FocusChain) (d0 : Nat), fc0.m_desktopFocusChains.lookup d0 = none →
      FocusChain.getForActivation env fc0 d0 output = none) := by
  have hupd : FocusChain.update env fc c Change.MakeFirst =
      { fc with
        m_desktopFocusChains := fc.m_desktopFocusChains.map (fun it =>
          if env.isOnDesktop c it.1 then (it.1, Chain.removeAll it.2 c ++ [c])
          else (it.1, Chain.removeAll it.2 c)),
        m_mostRecentlyUsed := Chain.removeAll fc.m_mostRecentlyUsed c ++ [c] } := by
    simp [FocusChain.update, hwants, hall, FocusChain.updateClientInChain,
      FocusChain.makeFirstInChain_append env c _ hmin]
  have hlook : (FocusChain.update env fc c Change.MakeFirst).m_desktopFocusChains.lookup d
      = some (Chain.removeAll chain c ++ [c]) := by
    rw [hupd]
    simp only
    rw [Chain.lookup_map _ (by intro it; split <;> rfl), hd]
    simp [hon]
  refine ⟨⟨_, hlook, List.getLast?_concat _⟩, ?_, ?_, ?_, ?_⟩
  · rw [hupd]
    exact List.getLast?_concat _
  · intro it hit hoff
    rw [hupd] at hit
    simp only [List.mem_map] at hit
    obtain ⟨it0, -, rfl⟩ := hit
    split at hoff
    · rename_i hon0
      simp only at hoff
      rw [hon0] at hoff
      exact absurd hoff (by simp)
    · rename_i hon0
      simp only [hon0]
      exact Chain.not_mem_removeAll _ _
  · intro hshade hshown hact hscreen
    have hsep : (FocusChain.update env fc c Change.MakeFirst).m_separateScreenFocus
        = fc.m_separateScreenFocus := by rw [hupd]
    unfold FocusChain.getForActivation
    rw [hlook, hsep]
    simp only
    rw [Chain.lastIndexWhere_concat _ c _
      (by rcases hscreen with h | h <;> simp [hshade, hshown, hact, h])]
    simp
  · intro fc0 d0 h0
    simp [FocusChain.getForActivation, h0]

/-- C30 witness: client 1 of the example chains, on desktop 1. -/
theorem update_then_getForActivation_witness :
    (exampleFocusChain.m_desktopFocusChains.lookup 1 = some [1, 3] ∧
      exampleClients.isMinimized 1 = false) ∧
    FocusChain.getForActivation exampleClients
      (FocusChain.update exampleClients exampleFocusChain 1 Change.MakeFirst) 1 0 = some 1 :=
  ⟨⟨by decide, by decide⟩,
    (update_then_getForActivation exampleClients exampleFocusChain 1 1 0 [1, 3]
      rfl rfl rfl rfl (Or.inr rfl)).2.2.2.1 rfl rfl rfl (Or.inl rfl)⟩


end KWin
